import Mathlib

/-! # Verification development for the voxel engine core (dc-miniapps)

Shallow embedding of the engine sources under `engine/src` and `engine/include`:
the combat record (`combat.cpp`), the chunk store and its streaming update
(`chunk_terrain.cpp`), the batch renderer accumulator (`renderer.cpp`), the
dragon mini-game manager (`dragon_game.cpp`) and the entities with their manager
(`entity.cpp`).

Numeric conventions of the embedding

* A C++ `float` is embedded as a rational (`ℚ`).  The three float computations whose
  rounding is observable in a result (the damage formula of `calculateDamage`, the
  attack cooldown of `CombatComponent::update` and the battle timer of `updateBattle`)
  round every operation to the nearest binary32 value (`binary32`, ties to even).
  Elsewhere the arithmetic of the source is kept exact; every constant those
  theorems evaluate (0.5, 1.5, 2.5, small integers) is exactly representable in
  binary32, so those evaluations coincide with the machine.
* `static_cast<int>` of a float is truncation toward zero (`staticCastInt`).
* A C++ `int` is embedded as an unbounded `Int` (signed overflow is undefined
  behaviour in the source and is outside the embedding); an `unsigned int` is a
  `Nat` reduced modulo `2 ^ 32` at every arithmetic step.
* A `std::vector` is a `List`; an owning pointer stored in a vector is the value
  it points to; a non-owning pointer into such a vector is an `Option Nat` index.
-/

namespace Engine

/-! ## combat.h / combat.cpp -/

/-- Weapon types (`enum class WeaponType`). -/
inductive WeaponType where
  | FIST | SWORD | BOW | STAFF
  deriving DecidableEq, Repr

/-- Combat component for entities: the private fields of `class CombatComponent`. -/
structure CombatComponent where
  health_ : ℚ
  maxHealth_ : ℚ
  currentWeapon_ : WeaponType
  attackCooldown_ : ℚ
  lastAttackTime_ : ℚ
  deriving DecidableEq

namespace CombatComponent

/-- Constructor `CombatComponent::CombatComponent(float maxHealth)`. -/
def new (maxHealth : ℚ) : CombatComponent :=
  { health_ := maxHealth, maxHealth_ := maxHealth, currentWeapon_ := WeaponType.FIST,
    attackCooldown_ := 0, lastAttackTime_ := 0 }

/-- Source: `health_ = std::max(0.0f, health_ - amount);`. -/
def takeDamage (c : CombatComponent) (amount : ℚ) : CombatComponent :=
  { c with health_ := max 0 (c.health_ - amount) }

/-- Source: `health_ = std::min(maxHealth_, health_ + amount);`. -/
def heal (c : CombatComponent) (amount : ℚ) : CombatComponent :=
  { c with health_ := min c.maxHealth_ (c.health_ + amount) }

/-- Source: `bool isDead() const { return health_ <= 0; }`. -/
def isDead (c : CombatComponent) : Bool := decide (c.health_ ≤ 0)

end CombatComponent

/-- One call of the health interface of a combat component. -/
inductive HealthCall where
  | takeDamage (amount : ℚ)
  | heal (amount : ℚ)
  deriving DecidableEq

/-- The amount passed by a health call. -/
def HealthCall.amount : HealthCall → ℚ
  | HealthCall.takeDamage a => a
  | HealthCall.heal a => a

/-- Executes one health call. -/
def CombatComponent.call (c : CombatComponent) : HealthCall → CombatComponent
  | HealthCall.takeDamage a => c.takeDamage a
  | HealthCall.heal a => c.heal a

/-- Executes a finite sequence of health calls, first call first. -/
def CombatComponent.run (c : CombatComponent) (calls : List HealthCall) : CombatComponent :=
  calls.foldl CombatComponent.call c

/-- The health bound of the data model: `0 ≤ health ≤ maxHealth`. -/
def CombatComponent.healthInRange (c : CombatComponent) : Prop :=
  0 ≤ c.health_ ∧ c.health_ ≤ c.maxHealth_

instance (c : CombatComponent) : Decidable c.healthInRange := by
  unfold CombatComponent.healthInRange; infer_instance

/-! ## renderer.h value types -/

/-- `struct Vec3` of `renderer.h`. -/
structure Vec3 where
  x : ℚ
  y : ℚ
  z : ℚ
  deriving DecidableEq

/-- `struct Color` of `renderer.h`. -/
structure Color where
  r : ℚ
  g : ℚ
  b : ℚ
  a : ℚ
  deriving DecidableEq

/-- The three-argument use of the `Color` constructor: alpha defaults to 1. -/
def Color.rgb (r g b : ℚ) : Color := { r := r, g := g, b := b, a := 1 }

/-- `static_cast<int>` applied to a float: truncation toward zero. -/
def staticCastInt (q : ℚ) : Int := if 0 ≤ q then ⌊q⌋ else ⌈q⌉

/-- Rounding of a rational to the nearest integer, a tie going to the even integer. -/
def roundHalfEven (q : ℚ) : Int :=
  if q - ⌊q⌋ < 1 / 2 then ⌊q⌋
  else if q - ⌊q⌋ > 1 / 2 then ⌊q⌋ + 1
  else if ⌊q⌋ % 2 = 0 then ⌊q⌋ else ⌊q⌋ + 1

/-- The result of a float operation whose exact value is `q`: the binary32 value nearest
to `q` (24-bit significand, round to nearest with ties to even, least exponent -126 with
gradual underflow).  Overflow to infinity (magnitudes of `2 ^ 128` and above) is outside
the embedding. -/
def binary32 (q : ℚ) : ℚ :=
  if q = 0 then 0
  else
    (roundHalfEven (q / 2 ^ (max (Int.log 2 |q|) (-126) - 23)) : ℚ) *
      2 ^ (max (Int.log 2 |q|) (-126) - 23)

/-- The functions of the C math library used by the engine.  They are not part of
the repository and are taken as a parameter of the embedding. -/
structure MathLib where
  sin : ℚ → ℚ
  cos : ℚ → ℚ

/-! ## chunk_terrain.h / chunk_terrain.cpp -/

/-- `enum class BiomeType`. -/
inductive BiomeType where
  | PLAINS | MOUNTAINS | WATER | LAVA
  deriving DecidableEq, Repr

/-- `struct ChunkCoord`. -/
structure ChunkCoord where
  x : Int
  z : Int
  deriving DecidableEq, Repr

/-- `ChunkCoord::operator<`: `if (x != other.x) return x < other.x; return z < other.z;`. -/
def ChunkCoord.lt (a b : ChunkCoord) : Bool :=
  if a.x ≠ b.x then decide (a.x < b.x) else decide (a.z < b.z)

/-- `struct Chunk`. -/
structure Chunk where
  coord : ChunkCoord
  blockPositions : List Vec3
  blockColors : List Color
  biome : BiomeType
  isGenerated : Bool
  deriving DecidableEq

/-- The store `std::map<ChunkCoord, Chunk*>`: the entries in iteration order. -/
abbrev ChunkMap := List (ChunkCoord × Chunk)

namespace ChunkMap

/-- `chunks_.find(coord)`: the chunk stored under `coord`, `none` for `end()`. -/
def find (m : ChunkMap) (coord : ChunkCoord) : Option Chunk := List.lookup coord m

/-- `chunks_[coord] = chunk`: the entry is placed at its position in the order of
`ChunkCoord::operator<`; an entry with an equivalent key is overwritten. -/
def assign : ChunkMap → ChunkCoord → Chunk → ChunkMap
  | [], coord, chunk => [(coord, chunk)]
  | (k, v) :: rest, coord, chunk =>
    if coord.lt k then (coord, chunk) :: (k, v) :: rest
    else if k.lt coord then (k, v) :: assign rest coord chunk
    else (coord, chunk) :: rest

/-- Representation invariant of `std::map`: keys strictly increasing for `operator<`. -/
def WF (m : ChunkMap) : Prop := List.Pairwise (fun a b => a.1.lt b.1 = true) m

instance (m : ChunkMap) : Decidable m.WF := by
  unfold WF; infer_instance

end ChunkMap

/-- The private fields of `class ChunkTerrain`. -/
structure ChunkTerrain where
  chunkSize_ : Int
  maxHeight_ : Int
  renderDistance_ : Int
  chunks_ : ChunkMap
  lastPlayerChunk_ : ChunkCoord
  deriving DecidableEq

/-- The loop variable values of `for (int i = lo; i <= hi; i++)`. -/
def intRange (lo hi : Int) : List Int :=
  (List.range (hi - lo + 1).toNat).map (fun (i : Nat) => lo + (i : Int))

/-- Chebyshev distance as computed in `unloadDistantChunks` and `render`:
`std::max(std::abs(dx), std::abs(dz))`. -/
def chunkDist (a b : ChunkCoord) : Int := max |a.x - b.x| |a.z - b.z|

namespace ChunkTerrain

/-- Constructor `ChunkTerrain(int chunkSize, int maxHeight, int renderDistance)`. -/
def new (chunkSize maxHeight renderDistance : Int) : ChunkTerrain :=
  { chunkSize_ := chunkSize, maxHeight_ := maxHeight, renderDistance_ := renderDistance,
    chunks_ := [], lastPlayerChunk_ := { x := 0, z := 0 } }

/-- `ChunkTerrain::worldToChunk`. -/
def worldToChunk (t : ChunkTerrain) (x z : ℚ) : ChunkCoord :=
  { x := staticCastInt ((⌊x / ((t.chunkSize_ : ℚ) * 2)⌋ : Int) : ℚ),
    z := staticCastInt ((⌊z / ((t.chunkSize_ : ℚ) * 2)⌋ : Int) : ℚ) }

/-- `ChunkTerrain::noise2D`. -/
def noise2D (lib : MathLib) (x z : ℚ) : ℚ :=
  lib.sin (x * (5 / 100)) * lib.cos (z * (5 / 100)) * 10 +
    lib.sin (x * (1 / 10) + z * (1 / 10)) * 5 +
    lib.sin (x * (2 / 10)) * lib.cos (z * (15 / 100)) * 3

/-- The loop of `fbmNoise`: `n` remaining iterations from the accumulator state
`(total, frequency, amplitude, maxValue)`; returns the final `(total, maxValue)`. -/
def fbmLoop (lib : MathLib) (x z : ℚ) : Nat → ℚ → ℚ → ℚ → ℚ → ℚ × ℚ
  | 0, total, _, _, maxValue => (total, maxValue)
  | n + 1, total, frequency, amplitude, maxValue =>
    fbmLoop lib x z n (total + noise2D lib (x * frequency) (z * frequency) * amplitude)
      (frequency * 2) (amplitude * (1 / 2)) (maxValue + amplitude)

/-- `ChunkTerrain::fbmNoise`. -/
def fbmNoise (lib : MathLib) (x z : ℚ) (octaves : Int) : ℚ :=
  let r := fbmLoop lib x z octaves.toNat 0 1 1 0
  r.1 / r.2

/-- `ChunkTerrain::getBiomeAt`. -/
def getBiomeAt (lib : MathLib) (x z : ℚ) : BiomeType :=
  let biomeNoise := lib.sin (x * (1 / 100)) * lib.cos (z * (1 / 100))
  let temperature := lib.sin (x * (2 / 100) + z * (2 / 100))
  if biomeNoise < -(3 / 10) then BiomeType.WATER
  else if biomeNoise > 5 / 10 ∧ temperature > 3 / 10 then BiomeType.LAVA
  else if biomeNoise > 3 / 10 then BiomeType.MOUNTAINS
  else BiomeType.PLAINS

/-- The column height computed in the `switch (biome)` of `generateChunk`. -/
def columnHeight (lib : MathLib) (maxHeight : Int) (biome : BiomeType) (worldX worldZ : Int) :
    Int :=
  match biome with
  | BiomeType.WATER => max 1 (staticCastInt (fbmNoise lib worldX worldZ 2 * 2 + 3))
  | BiomeType.LAVA => max 1 (staticCastInt (fbmNoise lib worldX worldZ 2 * 3 + 4))
  | BiomeType.MOUNTAINS =>
    min (max 2 (staticCastInt (fbmNoise lib worldX worldZ 3 * 8 + 6))) maxHeight
  | BiomeType.PLAINS => max 1 (staticCastInt (fbmNoise lib worldX worldZ 2 * 2 + 3))

/-- The colour pushed for the block at level `y` of a column of `height` blocks. -/
def blockColor (biome : BiomeType) (height y : Int) : Color :=
  match biome with
  | BiomeType.WATER =>
    if y = height - 1 then { r := 2 / 10, g := 4 / 10, b := 8 / 10, a := 7 / 10 }
    else Color.rgb (6 / 10) (5 / 10) (4 / 10)
  | BiomeType.LAVA =>
    if y = height - 1 then Color.rgb 1 (3 / 10) 0
    else Color.rgb (3 / 10) (3 / 10) (3 / 10)
  | BiomeType.MOUNTAINS =>
    if y = height - 1 then
      if y > 20 then Color.rgb (9 / 10) (9 / 10) (95 / 100)
      else if y > 10 then Color.rgb (5 / 10) (5 / 10) (5 / 10)
      else Color.rgb (4 / 10) (7 / 10) (4 / 10)
    else Color.rgb (5 / 10) (5 / 10) (5 / 10)
  | BiomeType.PLAINS =>
    if y = height - 1 then Color.rgb (4 / 10) (86 / 100) (51 / 100)
    else if y > height - 3 then Color.rgb (57 / 100) (39 / 100) (27 / 100)
    else Color.rgb (5 / 10) (5 / 10) (5 / 10)

/-- One iteration of the inner loop of `generateChunk`: the column at `(worldX, worldZ)`
sets the biome tag and pushes `height` positions and colours. -/
def generateColumn (lib : MathLib) (maxHeight : Int) (chunk : Chunk) (worldX worldZ : Int) :
    Chunk :=
  let biome := getBiomeAt lib worldX worldZ
  let height := columnHeight lib maxHeight biome worldX worldZ
  (List.range height.toNat).foldl
    (fun ch y =>
      { ch with
        blockPositions := ch.blockPositions ++
          [{ x := (worldX : ℚ) * 2, y := ((y : Int) : ℚ) * 2, z := (worldZ : ℚ) * 2 }],
        blockColors := ch.blockColors ++ [blockColor biome height (y : Int)] })
    { chunk with biome := biome }

/-- The `Chunk` built by `generateChunk` before it is stored. -/
def buildChunk (lib : MathLib) (chunkSize maxHeight : Int) (coord : ChunkCoord) : Chunk :=
  let startX := coord.x * chunkSize
  let startZ := coord.z * chunkSize
  (intRange 0 (chunkSize - 1)).foldl
    (fun ch x => (intRange 0 (chunkSize - 1)).foldl
      (fun ch z => generateColumn lib maxHeight ch (startX + x) (startZ + z)) ch)
    { coord := coord, blockPositions := [], blockColors := [], biome := BiomeType.PLAINS,
      isGenerated := true }

/-- `ChunkTerrain::generateChunk`. -/
def generateChunk (lib : MathLib) (t : ChunkTerrain) (coord : ChunkCoord) : ChunkTerrain :=
  { t with chunks_ := t.chunks_.assign coord (buildChunk lib t.chunkSize_ t.maxHeight_ coord) }

/-- The coordinates visited by the two nested loops of `update`, in visiting order. -/
def coordsAround (playerChunk : ChunkCoord) (renderDistance : Int) : List ChunkCoord :=
  (intRange (-renderDistance) renderDistance).flatMap fun x =>
    (intRange (-renderDistance) renderDistance).map fun z =>
      { x := playerChunk.x + x, z := playerChunk.z + z }

/-- The body of the nested loops of `update`: generate `coord` if it is absent. -/
def generateIfAbsent (lib : MathLib) (t : ChunkTerrain) (coord : ChunkCoord) : ChunkTerrain :=
  if (t.chunks_.find coord).isNone then generateChunk lib t coord else t

/-- `ChunkTerrain::unloadDistantChunks`. -/
def unloadDistantChunks (t : ChunkTerrain) (playerPos : Vec3) : ChunkTerrain :=
  let playerChunk := t.worldToChunk playerPos.x playerPos.z
  let unloadDistance := t.renderDistance_ + 2
  { t with
    chunks_ := List.filter (fun e => !decide (chunkDist e.1 playerChunk > unloadDistance))
                 t.chunks_ }

/-- `ChunkTerrain::update`. -/
def update (lib : MathLib) (t : ChunkTerrain) (playerPos : Vec3) : ChunkTerrain :=
  let playerChunk := t.worldToChunk playerPos.x playerPos.z
  let t1 := (coordsAround playerChunk t.renderDistance_).foldl (generateIfAbsent lib) t
  let t2 := t1.unloadDistantChunks playerPos
  { t2 with lastPlayerChunk_ := playerChunk }

end ChunkTerrain


/-! ## renderer.h / renderer.cpp: the batch accumulator -/

/-- `struct Vertex` of `renderer.h`. -/
structure Vertex where
  position : Vec3
  normal : Vec3
  color : Color
  deriving DecidableEq

/-- The modulus of `unsigned int` arithmetic. -/
def uintModulus : Nat := 4294967296

/-- One `glDrawElements` submission together with the buffers uploaded for it. -/
structure DrawCall where
  vertices : List Vertex
  indices : List Nat
  deriving DecidableEq

/-- The batching fields of `class Renderer`, and the trace of draw submissions the
renderer has issued to the graphics API (oldest first). -/
structure Renderer where
  batchVertices_ : List Vertex
  batchIndices_ : List Nat
  batchIndexOffset_ : Nat
  drawCalls : List DrawCall
  deriving DecidableEq

/-- The arguments of one `addCubeToBatch` call. -/
structure Cube where
  position : Vec3
  size : Vec3
  color : Color
  deriving DecidableEq

namespace Renderer

/-- A renderer with empty accumulators that has issued no draw call. -/
def new : Renderer :=
  { batchVertices_ := [], batchIndices_ := [], batchIndexOffset_ := 0, drawCalls := [] }

/-- `Renderer::beginBatch`. -/
def beginBatch (r : Renderer) : Renderer :=
  { r with batchVertices_ := [], batchIndices_ := [], batchIndexOffset_ := 0 }

/-- The array `cubeVerts` of `addCubeToBatch`. -/
def cubeVerts (position size : Vec3) (color : Color) : List Vertex :=
  let hw := size.x * (1 / 2)
  let hh := size.y * (1 / 2)
  let hd := size.z * (1 / 2)
  let v (px py pz nx ny nz : ℚ) : Vertex :=
    { position := { x := px, y := py, z := pz }, normal := { x := nx, y := ny, z := nz },
      color := color }
  [ -- Front face (Z+)
    v (position.x - hw) (position.y - hh) (position.z + hd) 0 0 1,
    v (position.x + hw) (position.y - hh) (position.z + hd) 0 0 1,
    v (position.x + hw) (position.y + hh) (position.z + hd) 0 0 1,
    v (position.x - hw) (position.y + hh) (position.z + hd) 0 0 1,
    -- Back face (Z-)
    v (position.x - hw) (position.y - hh) (position.z - hd) 0 0 (-1),
    v (position.x + hw) (position.y - hh) (position.z - hd) 0 0 (-1),
    v (position.x + hw) (position.y + hh) (position.z - hd) 0 0 (-1),
    v (position.x - hw) (position.y + hh) (position.z - hd) 0 0 (-1),
    -- Top face (Y+)
    v (position.x - hw) (position.y + hh) (position.z - hd) 0 1 0,
    v (position.x + hw) (position.y + hh) (position.z - hd) 0 1 0,
    v (position.x + hw) (position.y + hh) (position.z + hd) 0 1 0,
    v (position.x - hw) (position.y + hh) (position.z + hd) 0 1 0,
    -- Bottom face (Y-)
    v (position.x - hw) (position.y - hh) (position.z - hd) 0 (-1) 0,
    v (position.x + hw) (position.y - hh) (position.z - hd) 0 (-1) 0,
    v (position.x + hw) (position.y - hh) (position.z + hd) 0 (-1) 0,
    v (position.x - hw) (position.y - hh) (position.z + hd) 0 (-1) 0,
    -- Right face (X+)
    v (position.x + hw) (position.y - hh) (position.z - hd) 1 0 0,
    v (position.x + hw) (position.y - hh) (position.z + hd) 1 0 0,
    v (position.x + hw) (position.y + hh) (position.z + hd) 1 0 0,
    v (position.x + hw) (position.y + hh) (position.z - hd) 1 0 0,
    -- Left face (X-)
    v (position.x - hw) (position.y - hh) (position.z - hd) (-1) 0 0,
    v (position.x - hw) (position.y - hh) (position.z + hd) (-1) 0 0,
    v (position.x - hw) (position.y + hh) (position.z + hd) (-1) 0 0,
    v (position.x - hw) (position.y + hh) (position.z - hd) (-1) 0 0 ]

/-- The array `cubeIndices` of `addCubeToBatch`. -/
def cubeIndices : List Nat :=
  [ 0, 1, 2, 2, 3, 0,
    6, 5, 4, 4, 7, 6,
    8, 9, 10, 10, 11, 8,
    14, 13, 12, 12, 15, 14,
    16, 17, 18, 18, 19, 16,
    22, 21, 20, 20, 23, 22 ]

/-- The 36 values pushed by the index loop of `addCubeToBatch`:
`cubeIndices[i] + batchIndexOffset_` in `unsigned int` arithmetic. -/
def offsetIndices (offset : Nat) : List Nat :=
  cubeIndices.map fun i => (i + offset) % uintModulus

/-- `Renderer::addCubeToBatch`. -/
def addCubeToBatch (r : Renderer) (c : Cube) : Renderer :=
  { r with
    batchVertices_ := r.batchVertices_ ++ cubeVerts c.position c.size c.color,
    batchIndices_ := r.batchIndices_ ++ offsetIndices r.batchIndexOffset_,
    batchIndexOffset_ := (r.batchIndexOffset_ + 24) % uintModulus }

/-- `Renderer::endBatch`: returns without drawing when the vertex accumulator is empty,
otherwise uploads both accumulators and issues one `glDrawElements`. -/
def endBatch (r : Renderer) : Renderer :=
  if r.batchVertices_.isEmpty then r
  else { r with
         drawCalls := r.drawCalls ++
           [{ vertices := r.batchVertices_, indices := r.batchIndices_ }] }

/-- A sequence of `addCubeToBatch` calls, first cube first. -/
def addCubes (r : Renderer) (cubes : List Cube) : Renderer :=
  cubes.foldl addCubeToBatch r

/-- One `beginBatch` / `endBatch` pair with the given cubes added in between. -/
def batch (r : Renderer) (cubes : List Cube) : Renderer :=
  ((r.beginBatch).addCubes cubes).endBatch

/-- A sequence of `beginBatch` / `endBatch` pairs, first pair first. -/
def batches (r : Renderer) (passes : List (List Cube)) : Renderer :=
  passes.foldl batch r

end Renderer

/-! ## entity.cpp: `EntityManager::render` -/

/-- `EntityManager::render`: `beginBatch`, every entity's `render` in collection order,
`endBatch`.  The virtual `Entity::render` is the parameter `renderEntity`. -/
def EntityManager.render {E : Type} (renderEntity : Renderer → E → Renderer)
    (entities : List E) (renderer : Renderer) : Renderer :=
  ((entities.foldl renderEntity renderer.beginBatch)).endBatch

/-- `GoblinEntity::render` for a goblin at `pos`: six cubes added to the open batch. -/
def goblinRender (renderer : Renderer) (pos : Vec3) : Renderer :=
  let goblinGreen := Color.rgb (2 / 10) (6 / 10) (2 / 10)
  let redEye := Color.rgb 1 0 0
  renderer.addCubes
    [ { position := { x := pos.x, y := pos.y + 5 / 10, z := pos.z },
        size := { x := 6 / 10, y := 8 / 10, z := 4 / 10 }, color := goblinGreen },
      { position := { x := pos.x, y := pos.y + 12 / 10, z := pos.z },
        size := { x := 5 / 10, y := 5 / 10, z := 5 / 10 }, color := goblinGreen },
      { position := { x := pos.x - 15 / 100, y := pos.y + 13 / 10, z := pos.z + 2 / 10 },
        size := { x := 1 / 10, y := 1 / 10, z := 1 / 10 }, color := redEye },
      { position := { x := pos.x + 15 / 100, y := pos.y + 13 / 10, z := pos.z + 2 / 10 },
        size := { x := 1 / 10, y := 1 / 10, z := 1 / 10 }, color := redEye },
      { position := { x := pos.x - 5 / 10, y := pos.y + 6 / 10, z := pos.z },
        size := { x := 2 / 10, y := 6 / 10, z := 2 / 10 }, color := goblinGreen },
      { position := { x := pos.x + 5 / 10, y := pos.y + 6 / 10, z := pos.z },
        size := { x := 2 / 10, y := 6 / 10, z := 2 / 10 }, color := goblinGreen } ]

/-! ## dragon_game.h / dragon_game.cpp -/

/-- `enum class Element`. -/
inductive Element where
  | NORMAL | FIRE | WATER | ICE | LIGHTNING | NATURE | SHADOW | LIGHT
  deriving DecidableEq, Repr

/-- `enum class EggState`. -/
inductive EggState where
  | INCUBATING | READY_TO_HATCH | HATCHED
  deriving DecidableEq, Repr

/-- `struct DragonEgg`. -/
structure DragonEgg where
  id : Int
  shellColor : Color
  state : EggState
  incubationProgress : ℚ
  hatchTime : ℚ
  elapsedTime : ℚ
  position : Vec3
  element : Element
  deriving DecidableEq

/-- Default constructor `DragonEgg()`. -/
def DragonEgg.new : DragonEgg :=
  { id := 0, shellColor := Color.rgb (9 / 10) (9 / 10) (9 / 10), state := EggState.INCUBATING,
    incubationProgress := 0, hatchTime := 60, elapsedTime := 0,
    position := { x := 0, y := 0, z := 0 }, element := Element.FIRE }

/-- `struct BreedingPair`; `resultEgg` points into `eggs_` and is kept as the index of
the egg it points to (`none` is `nullptr`). -/
structure BreedingPair where
  parent1Id : Int
  parent2Id : Int
  breedingProgress : ℚ
  breedingTime : ℚ
  elapsedTime : ℚ
  isComplete : Bool
  resultEgg : Option Nat
  deriving DecidableEq

/-- Default constructor `BreedingPair()`. -/
def BreedingPair.new : BreedingPair :=
  { parent1Id := -1, parent2Id := -1, breedingProgress := 0, breedingTime := 30,
    elapsedTime := 0, isComplete := false, resultEgg := none }

/-- `enum class BattleState`. -/
inductive BattleState where
  | IDLE | SELECTING_DRAGON | BATTLE_START | PLAYER_TURN | ENEMY_TURN | BATTLE_END
  | VICTORY | DEFEAT
  deriving DecidableEq, Repr

/-- `enum class BattleAction`. -/
inductive BattleAction where
  | ATTACK | DEFEND | SPECIAL_MOVE | USE_ITEM | RUN
  deriving DecidableEq, Repr

/-- `struct BattleDragon`. -/
structure BattleDragon where
  id : Int
  name : String
  element : Element
  level : Int
  currentHP : Int
  maxHP : Int
  attack : Int
  defense : Int
  speed : Int
  color : Color
  isPlayer : Bool
  deriving DecidableEq

/-- Default constructor `BattleDragon()`. -/
def BattleDragon.new : BattleDragon :=
  { id := 0, name := "Dragon", element := Element.FIRE, level := 1, currentHP := 100,
    maxHP := 100, attack := 10, defense := 5, speed := 10, color := Color.rgb 1 0 0,
    isPlayer := true }

/-- `struct BattleMove`. -/
structure BattleMove where
  name : String
  damage : Int
  element : Element
  accuracy : ℚ
  deriving DecidableEq

/-- `enum class TrainingType`. -/
inductive TrainingType where
  | STRENGTH | DEFENSE | SPEED | SPECIAL
  deriving DecidableEq, Repr

/-- `struct TrainingSession`. -/
structure TrainingSession where
  dragonId : Int
  type : TrainingType
  progress : ℚ
  duration : ℚ
  elapsedTime : ℚ
  statGain : Int
  isComplete : Bool
  deriving DecidableEq

/-- Default constructor `TrainingSession()`. -/
def TrainingSession.new : TrainingSession :=
  { dragonId := -1, type := TrainingType.STRENGTH, progress := 0, duration := 45,
    elapsedTime := 0, statGain := 5, isComplete := false }

/-- The private fields of `class DragonGameManager`.  `playerDragon_` and `enemyDragon_`
point into `dragons_` and are kept as indices (`none` is `nullptr`). -/
structure DragonGameManager where
  eggs_ : List DragonEgg
  breedingPairs_ : List BreedingPair
  dragons_ : List BattleDragon
  trainingSessions_ : List TrainingSession
  battleMoves_ : List BattleMove
  battleState_ : BattleState
  playerDragon_ : Option Nat
  enemyDragon_ : Option Nat
  selectedMoveIndex_ : Int
  battleAnimTime_ : ℚ
  deriving DecidableEq

/-- The bounds test `id < 0 || id >= collection.size()` that guards every id. -/
def idOutOfRange (id : Int) (size : Nat) : Bool := decide (id < 0) || decide (id ≥ (size : Int))

namespace DragonGameManager

/-- Constructor `DragonGameManager::DragonGameManager()`. -/
def new : DragonGameManager :=
  { eggs_ := [], breedingPairs_ := [], dragons_ := [], trainingSessions_ := [],
    battleMoves_ :=
      [ { name := "Fire Breath", damage := 25, element := Element.FIRE, accuracy := 9 / 10 },
        { name := "Ice Shard", damage := 25, element := Element.ICE, accuracy := 9 / 10 },
        { name := "Thunder Strike", damage := 30, element := Element.LIGHTNING,
          accuracy := 85 / 100 },
        { name := "Dragon Claw", damage := 20, element := Element.NORMAL,
          accuracy := 95 / 100 },
        { name := "Tackle", damage := 15, element := Element.NORMAL, accuracy := 1 } ],
    battleState_ := BattleState.IDLE, playerDragon_ := none, enemyDragon_ := none,
    selectedMoveIndex_ := 0, battleAnimTime_ := 0 }

/-- `DragonGameManager::combineElements`. -/
def combineElements (e1 e2 : Element) : Element :=
  if e1 = e2 then e1
  else if (e1 = Element.FIRE ∧ e2 = Element.ICE) ∨ (e1 = Element.ICE ∧ e2 = Element.FIRE) then
    Element.WATER
  else if (e1 = Element.FIRE ∧ e2 = Element.LIGHTNING) ∨
      (e1 = Element.LIGHTNING ∧ e2 = Element.FIRE) then
    Element.LIGHTNING
  else Element.NORMAL

/-- `DragonGameManager::combineColors`. -/
def combineColors (c1 c2 : Color) : Color :=
  { r := (c1.r + c2.r) * (1 / 2), g := (c1.g + c2.g) * (1 / 2), b := (c1.b + c2.b) * (1 / 2),
    a := 1 }

/-- `DragonGameManager::getElementMultiplier`. -/
def getElementMultiplier (attackElement defendElement : Element) : ℚ :=
  if attackElement = Element.FIRE ∧ defendElement = Element.ICE then 3 / 2
  else if attackElement = Element.ICE ∧ defendElement = Element.LIGHTNING then 3 / 2
  else if attackElement = Element.LIGHTNING ∧ defendElement = Element.FIRE then 3 / 2
  else if attackElement = Element.ICE ∧ defendElement = Element.FIRE then 1 / 2
  else if attackElement = Element.LIGHTNING ∧ defendElement = Element.ICE then 1 / 2
  else if attackElement = Element.FIRE ∧ defendElement = Element.LIGHTNING then 1 / 2
  else 1

/-- `DragonGameManager::calculateDamage`: the int sum `move.damage + attacker->attack` and
the int `defender->defense` are converted to float, and each float operation of
`(baseDamage - defense * 0.5f) * multiplier` rounds to binary32. -/
def calculateDamage (attacker defender : BattleDragon) (move : BattleMove) : Int :=
  let baseDamage : ℚ := binary32 ((move.damage + attacker.attack : Int) : ℚ)
  let defense : ℚ := binary32 (defender.defense : ℚ)
  let multiplier := getElementMultiplier move.element defender.element
  let finalDamage :=
    binary32 (binary32 (baseDamage - binary32 (defense * (1 / 2))) * multiplier)
  max 1 (staticCastInt finalDamage)

/-- `DragonGameManager::createDragon`; returns the new state and the returned id. -/
def createDragon (t : DragonGameManager) (element : Element) (color : Color) (level : Int) :
    DragonGameManager × Int :=
  let dragon : BattleDragon :=
    { BattleDragon.new with
      id := (t.dragons_.length : Int), element := element, color := color, level := level,
      maxHP := 100 + level * 10, currentHP := 100 + level * 10, attack := 10 + level * 2,
      defense := 5 + level, speed := 10 + level, isPlayer := true }
  ({ t with dragons_ := t.dragons_ ++ [dragon] }, dragon.id)

/-- `DragonGameManager::getDragon`. -/
def getDragon (t : DragonGameManager) (dragonId : Int) : Option BattleDragon :=
  if idOutOfRange dragonId t.dragons_.length then none else t.dragons_[dragonId.toNat]?

/-- `DragonGameManager::createEgg`; returns the new state and the returned id. -/
def createEgg (t : DragonGameManager) (element : Element) (shellColor : Color) :
    DragonGameManager × Int :=
  let egg : DragonEgg :=
    { DragonEgg.new with
      id := (t.eggs_.length : Int), element := element, shellColor := shellColor,
      hatchTime := 60, state := EggState.INCUBATING }
  ({ t with eggs_ := t.eggs_ ++ [egg] }, egg.id)

/-- `DragonGameManager::updateEgg`. -/
def updateEgg (t : DragonGameManager) (eggId : Int) (deltaTime : ℚ) : DragonGameManager :=
  if idOutOfRange eggId t.eggs_.length then t
  else
    match t.eggs_[eggId.toNat]? with
    | none => t
    | some egg =>
      if egg.state ≠ EggState.INCUBATING then t
      else
        let elapsed := egg.elapsedTime + deltaTime
        let progress := elapsed / egg.hatchTime
        let egg1 := { egg with elapsedTime := elapsed, incubationProgress := progress }
        let egg2 :=
          if progress ≥ 1 then
            { egg1 with incubationProgress := 1, state := EggState.READY_TO_HATCH }
          else egg1
        { t with eggs_ := t.eggs_.set eggId.toNat egg2 }

/-- `DragonGameManager::isEggReadyToHatch`. -/
def isEggReadyToHatch (t : DragonGameManager) (eggId : Int) : Bool :=
  if idOutOfRange eggId t.eggs_.length then false
  else
    match t.eggs_[eggId.toNat]? with
    | none => false
    | some egg => decide (egg.state = EggState.READY_TO_HATCH)

/-- `DragonGameManager::hatchEgg`; returns the new state and the returned dragon id. -/
def hatchEgg (t : DragonGameManager) (eggId : Int) : DragonGameManager × Int :=
  if idOutOfRange eggId t.eggs_.length then (t, -1)
  else
    match t.eggs_[eggId.toNat]? with
    | none => (t, -1)
    | some egg =>
      if egg.state ≠ EggState.READY_TO_HATCH then (t, -1)
      else
        let r := t.createDragon egg.element egg.shellColor 1
        ({ r.1 with eggs_ := r.1.eggs_.set eggId.toNat { egg with state := EggState.HATCHED } },
          r.2)

/-- `DragonGameManager::startBreeding`; returns the new state and the returned pair id. -/
def startBreeding (t : DragonGameManager) (dragon1Id dragon2Id : Int) :
    DragonGameManager × Int :=
  if idOutOfRange dragon1Id t.dragons_.length then (t, -1)
  else if idOutOfRange dragon2Id t.dragons_.length then (t, -1)
  else if dragon1Id = dragon2Id then (t, -1)
  else
    let pair : BreedingPair :=
      { BreedingPair.new with
        parent1Id := dragon1Id, parent2Id := dragon2Id, breedingTime := 30 }
    let pairs := t.breedingPairs_ ++ [pair]
    ({ t with breedingPairs_ := pairs }, (pairs.length : Int) - 1)

/-- `DragonGameManager::updateBreeding`. -/
def updateBreeding (t : DragonGameManager) (pairId : Int) (deltaTime : ℚ) :
    DragonGameManager :=
  if idOutOfRange pairId t.breedingPairs_.length then t
  else
    match t.breedingPairs_[pairId.toNat]? with
    | none => t
    | some pair =>
      if pair.isComplete then t
      else
        let elapsed := pair.elapsedTime + deltaTime
        let progress := elapsed / pair.breedingTime
        let pair1 := { pair with elapsedTime := elapsed, breedingProgress := progress }
        if progress ≥ 1 then
          match t.dragons_[pair.parent1Id.toNat]?, t.dragons_[pair.parent2Id.toNat]? with
          | some parent1, some parent2 =>
            let childElement := combineElements parent1.element parent2.element
            let childColor := combineColors parent1.color parent2.color
            let egg : DragonEgg :=
              { DragonEgg.new with
                id := (t.eggs_.length : Int), element := childElement,
                shellColor := childColor, hatchTime := 60 }
            let pair2 :=
              { pair1 with
                breedingProgress := 1, isComplete := true, resultEgg := some t.eggs_.length }
            { t with
              eggs_ := t.eggs_ ++ [egg],
              breedingPairs_ := t.breedingPairs_.set pairId.toNat pair2 }
          | _, _ => t
        else { t with breedingPairs_ := t.breedingPairs_.set pairId.toNat pair1 }

/-- `DragonGameManager::isBreedingComplete`. -/
def isBreedingComplete (t : DragonGameManager) (pairId : Int) : Bool :=
  if idOutOfRange pairId t.breedingPairs_.length then false
  else
    match t.breedingPairs_[pairId.toNat]? with
    | none => false
    | some pair => pair.isComplete

/-- `DragonGameManager::getBreedingResult`: the pointer `resultEgg` of the pair. -/
def getBreedingResult (t : DragonGameManager) (pairId : Int) : Option Nat :=
  if idOutOfRange pairId t.breedingPairs_.length then none
  else
    match t.breedingPairs_[pairId.toNat]? with
    | none => none
    | some pair => pair.resultEgg

/-- `DragonGameManager::startBattle`. -/
def startBattle (t : DragonGameManager) (playerDragonId enemyDragonId : Int) :
    DragonGameManager :=
  if idOutOfRange playerDragonId t.dragons_.length then t
  else if idOutOfRange enemyDragonId t.dragons_.length then t
  else
    { t with
      playerDragon_ := some playerDragonId.toNat, enemyDragon_ := some enemyDragonId.toNat,
      battleState_ := BattleState.BATTLE_START, battleAnimTime_ := 0 }

/-- The dragon a battle pointer refers to. -/
def deref (t : DragonGameManager) (p : Option Nat) : Option BattleDragon :=
  match p with
  | none => none
  | some i => t.dragons_[i]?

/-- `DragonGameManager::updateBattle`; `randValue` is the value returned by `rand()`.  The
float addition `battleAnimTime_ += deltaTime` rounds to binary32. -/
def updateBattle (t : DragonGameManager) (deltaTime : ℚ) (randValue : Nat) :
    DragonGameManager :=
  let t1 := { t with battleAnimTime_ := binary32 (t.battleAnimTime_ + deltaTime) }
  match t1.battleState_ with
  | BattleState.BATTLE_START =>
    if t1.battleAnimTime_ > 2 then
      { t1 with battleState_ := BattleState.PLAYER_TURN, battleAnimTime_ := 0 }
    else t1
  | BattleState.ENEMY_TURN =>
    if t1.battleAnimTime_ > 1 then
      match t1.battleMoves_[randValue % t1.battleMoves_.length]?, t1.playerDragon_,
        t1.deref t1.playerDragon_, t1.deref t1.enemyDragon_ with
      | some move, some pi, some player, some enemy =>
        let damage := calculateDamage enemy player move
        let player1 := { player with currentHP := player.currentHP - damage }
        { t1 with
          dragons_ := t1.dragons_.set pi player1,
          battleState_ :=
            if player1.currentHP ≤ 0 then BattleState.DEFEAT else BattleState.PLAYER_TURN,
          battleAnimTime_ := 0 }
      | _, _, _, _ => t1
    else t1
  | _ => t1

/-- `DragonGameManager::performBattleAction`. -/
def performBattleAction (t : DragonGameManager) (action : BattleAction) (moveIndex : Int) :
    DragonGameManager :=
  if t.battleState_ ≠ BattleState.PLAYER_TURN then t
  else if action = BattleAction.ATTACK ∧ moveIndex ≥ 0 ∧
      moveIndex < (t.battleMoves_.length : Int) then
    match t.battleMoves_[moveIndex.toNat]?, t.playerDragon_, t.enemyDragon_,
      t.deref t.playerDragon_, t.deref t.enemyDragon_ with
    | some move, some pi, some ei, some player, some enemy =>
      let damage := calculateDamage player enemy move
      let enemy1 := { enemy with currentHP := enemy.currentHP - damage }
      let dragons1 := t.dragons_.set ei enemy1
      if enemy1.currentHP ≤ 0 then
        match dragons1[pi]? with
        | some player1 =>
          { t with
            dragons_ := dragons1.set pi { player1 with level := player1.level + 1 },
            battleState_ := BattleState.VICTORY, battleAnimTime_ := 0 }
        | none => t
      else
        { t with
          dragons_ := dragons1, battleState_ := BattleState.ENEMY_TURN, battleAnimTime_ := 0 }
    | _, _, _, _, _ => t
  else t

/-- `DragonGameManager::startTraining`; returns the new state and the returned id. -/
def startTraining (t : DragonGameManager) (dragonId : Int) (type : TrainingType) :
    DragonGameManager × Int :=
  if idOutOfRange dragonId t.dragons_.length then (t, -1)
  else
    let session : TrainingSession :=
      { TrainingSession.new with
        dragonId := dragonId, type := type, duration := 45, statGain := 5 }
    let sessions := t.trainingSessions_ ++ [session]
    ({ t with trainingSessions_ := sessions }, (sessions.length : Int) - 1)

/-- `DragonGameManager::updateTraining`. -/
def updateTraining (t : DragonGameManager) (sessionId : Int) (deltaTime : ℚ) :
    DragonGameManager :=
  if idOutOfRange sessionId t.trainingSessions_.length then t
  else
    match t.trainingSessions_[sessionId.toNat]? with
    | none => t
    | some session =>
      if session.isComplete then t
      else
        let elapsed := session.elapsedTime + deltaTime
        let progress := elapsed / session.duration
        let session1 := { session with elapsedTime := elapsed, progress := progress }
        let session2 :=
          if progress ≥ 1 then { session1 with progress := 1, isComplete := true }
          else session1
        { t with trainingSessions_ := t.trainingSessions_.set sessionId.toNat session2 }

/-- `DragonGameManager::isTrainingComplete`. -/
def isTrainingComplete (t : DragonGameManager) (sessionId : Int) : Bool :=
  if idOutOfRange sessionId t.trainingSessions_.length then false
  else
    match t.trainingSessions_[sessionId.toNat]? with
    | none => false
    | some session => session.isComplete

/-- `DragonGameManager::completeTraining`. -/
def completeTraining (t : DragonGameManager) (sessionId : Int) : DragonGameManager :=
  if idOutOfRange sessionId t.trainingSessions_.length then t
  else
    match t.trainingSessions_[sessionId.toNat]? with
    | none => t
    | some session =>
      if !session.isComplete then t
      else
        match t.dragons_[session.dragonId.toNat]? with
        | none => t
        | some dragon =>
          let dragon1 :=
            match session.type with
            | TrainingType.STRENGTH => { dragon with attack := dragon.attack + session.statGain }
            | TrainingType.DEFENSE => { dragon with defense := dragon.defense + session.statGain }
            | TrainingType.SPEED => { dragon with speed := dragon.speed + session.statGain }
            | TrainingType.SPECIAL =>
              { dragon with
                maxHP := dragon.maxHP + session.statGain * 2,
                currentHP := dragon.maxHP + session.statGain * 2 }
          { t with dragons_ := t.dragons_.set session.dragonId.toNat dragon1 }

end DragonGameManager

/-- The state-changing operations of the public interface of `DragonGameManager`,
with the arguments of one call.  The queries (`isEggReadyToHatch`, `isBreedingComplete`,
`getBreedingResult`, `isTrainingComplete`, `getDragon`, `getBattleState`,
`getAllDragons`) and the `render*` functions do not write to the manager. -/
inductive ManagerOp where
  | createEgg (element : Element) (shellColor : Color)
  | updateEgg (eggId : Int) (deltaTime : ℚ)
  | hatchEgg (eggId : Int)
  | startBreeding (dragon1Id dragon2Id : Int)
  | updateBreeding (pairId : Int) (deltaTime : ℚ)
  | startBattle (playerDragonId enemyDragonId : Int)
  | updateBattle (deltaTime : ℚ) (randValue : Nat)
  | performBattleAction (action : BattleAction) (moveIndex : Int)
  | startTraining (dragonId : Int) (type : TrainingType)
  | updateTraining (sessionId : Int) (deltaTime : ℚ)
  | completeTraining (sessionId : Int)
  | createDragon (element : Element) (color : Color) (level : Int)

namespace DragonGameManager

/-- The state after one operation. -/
def step (t : DragonGameManager) : ManagerOp → DragonGameManager
  | ManagerOp.createEgg e c => (t.createEgg e c).1
  | ManagerOp.updateEgg i dt => t.updateEgg i dt
  | ManagerOp.hatchEgg i => (t.hatchEgg i).1
  | ManagerOp.startBreeding a b => (t.startBreeding a b).1
  | ManagerOp.updateBreeding i dt => t.updateBreeding i dt
  | ManagerOp.startBattle a b => t.startBattle a b
  | ManagerOp.updateBattle dt r => t.updateBattle dt r
  | ManagerOp.performBattleAction a i => t.performBattleAction a i
  | ManagerOp.startTraining i ty => (t.startTraining i ty).1
  | ManagerOp.updateTraining i dt => t.updateTraining i dt
  | ManagerOp.completeTraining i => t.completeTraining i
  | ManagerOp.createDragon e c l => (t.createDragon e c l).1

/-- The state reached from a freshly constructed manager by a sequence of operations. -/
def exec (ops : List ManagerOp) : DragonGameManager := ops.foldl step new

/-- A state is reachable when some finite sequence of operations on a freshly
constructed manager produces it. -/
def Reachable (t : DragonGameManager) : Prop := ∃ ops : List ManagerOp, t = exec ops

end DragonGameManager

/-! ## Identity of the entries of the manager's collections -/

/-- The fields of an egg that are written at creation only. -/
def eggKey (e : DragonEgg) : Int × Element × Color × ℚ :=
  (e.id, e.element, e.shellColor, e.hatchTime)

/-- The fields of a dragon that are written at creation only. -/
def dragonKey (d : BattleDragon) : Int × String × Element × Color × Bool :=
  (d.id, d.name, d.element, d.color, d.isPlayer)

/-- The fields of a breeding pair that are written at creation only. -/
def pairKey (p : BreedingPair) : Int × Int × ℚ := (p.parent1Id, p.parent2Id, p.breedingTime)

/-- The fields of a training session that are written at creation only. -/
def sessionKey (s : TrainingSession) : Int × TrainingType × ℚ × Int :=
  (s.dragonId, s.type, s.duration, s.statGain)

/-- `new` keeps every entry of `old` at its index (same creation-time fields) and has
at most one further entry at the end. -/
def ExtendsByOne {α β : Type} (key : α → β) (old new : List α) : Prop :=
  new.map key = old.map key ∨ ∃ a : α, new.map key = old.map key ++ [key a]

/-- The four collections of `new` extend those of `old`: none shrinks, none is
reordered; an egg or dragon that is added carries its index as id. -/
def DragonGameManager.AppendOnly (old new : DragonGameManager) : Prop :=
  (new.eggs_.map eggKey = old.eggs_.map eggKey ∨
      ∃ e : DragonEgg, e.id = (old.eggs_.length : Int) ∧
        new.eggs_.map eggKey = old.eggs_.map eggKey ++ [eggKey e]) ∧
    (new.dragons_.map dragonKey = old.dragons_.map dragonKey ∨
      ∃ d : BattleDragon, d.id = (old.dragons_.length : Int) ∧
        new.dragons_.map dragonKey = old.dragons_.map dragonKey ++ [dragonKey d]) ∧
    ExtendsByOne pairKey old.breedingPairs_ new.breedingPairs_ ∧
    ExtendsByOne sessionKey old.trainingSessions_ new.trainingSessions_

/-- Every egg and every dragon stores its index as id. -/
def DragonGameManager.IdsAreIndices (t : DragonGameManager) : Prop :=
  (∀ (i : Nat) (e : DragonEgg), t.eggs_[i]? = some e → e.id = (i : Int)) ∧
    (∀ (i : Nat) (d : BattleDragon), t.dragons_[i]? = some d → d.id = (i : Int))

/-! ## Concrete inputs used by the closed theorems -/

/-- The spec formula of the battle damage before truncation:
`(move.damage + attacker.attack − defender.defense*0.5) * elementMultiplier`. -/
def damageBracket (attacker defender : BattleDragon) (move : BattleMove) : ℚ :=
  ((move.damage : ℚ) + (attacker.attack : ℚ) - (defender.defense : ℚ) * (1 / 2)) *
    DragonGameManager.getElementMultiplier move.element defender.element

/-- An attacker with `attack = 10`. -/
def sampleAttacker : BattleDragon := { BattleDragon.new with attack := 10 }

/-- An ICE defender with `defense = 5`. -/
def sampleDefender : BattleDragon :=
  { BattleDragon.new with defense := 5, element := Element.ICE }

/-- The move "Fire Breath" of the manager's move list: damage 25, element FIRE. -/
def fireBreath : BattleMove :=
  { name := "Fire Breath", damage := 25, element := Element.FIRE, accuracy := 9 / 10 }

/-- A unit cube at the origin. -/
def unitCube : Cube :=
  { position := { x := 0, y := 0, z := 0 }, size := { x := 1, y := 1, z := 1 },
    color := Color.rgb 1 1 1 }

/-- A stand-in for the math library: `sin` constantly 0 and `cos` constantly 1. -/
def flatLib : MathLib := { sin := fun _ => 0, cos := fun _ => 1 }

/-- The world origin. -/
def origin : Vec3 := { x := 0, y := 0, z := 0 }

/-- A chunk at coordinate `(0, 0)` holding a single grass block. -/
def sampleChunk : Chunk :=
  { coord := { x := 0, z := 0 }, blockPositions := [origin],
    blockColors := [Color.rgb (4 / 10) (86 / 100) (51 / 100)], biome := BiomeType.PLAINS,
    isGenerated := true }

/-- A terrain with chunk size 1, max height 4 and render distance 1 whose store holds
`sampleChunk`. -/
def sampleTerrain : ChunkTerrain :=
  { ChunkTerrain.new 1 4 1 with chunks_ := [({ x := 0, z := 0 }, sampleChunk)] }

/-- A call sequence on a fresh manager: two dragons are created, bred to completion,
and the resulting egg is incubated and hatched. -/
def sampleOps : List ManagerOp :=
  [ ManagerOp.createDragon Element.FIRE (Color.rgb 1 0 0) 1,
    ManagerOp.createDragon Element.ICE (Color.rgb 0 0 1) 1,
    ManagerOp.startBreeding 0 1,
    ManagerOp.updateBreeding 0 30,
    ManagerOp.updateEgg 0 60,
    ManagerOp.hatchEgg 0 ]

/-! ## combat.h / combat.cpp: weapons and cooldown -/

/-- Attack data (`struct Attack`). -/
structure Attack where
  weapon : WeaponType
  damage : ℚ
  range : ℚ
  cooldown : ℚ
  isRanged : Bool
  deriving DecidableEq

namespace CombatComponent

/-- `CombatComponent::getWeaponStats`. -/
def getWeaponStats (_c : CombatComponent) (weapon : WeaponType) : Attack :=
  match weapon with
  | WeaponType.FIST =>
    { weapon := WeaponType.FIST, damage := 5, range := 2, cooldown := 5 / 10, isRanged := false }
  | WeaponType.SWORD =>
    { weapon := WeaponType.SWORD, damage := 15, range := 3, cooldown := 8 / 10,
      isRanged := false }
  | WeaponType.BOW =>
    { weapon := WeaponType.BOW, damage := 20, range := 30, cooldown := 1, isRanged := true }
  | WeaponType.STAFF =>
    { weapon := WeaponType.STAFF, damage := 25, range := 15, cooldown := 15 / 10,
      isRanged := true }

/-- `CombatComponent::canAttack`. -/
def canAttack (c : CombatComponent) : Bool := decide (c.attackCooldown_ ≤ 0)

/-- `CombatComponent::performAttack`. -/
def performAttack (c : CombatComponent) (weapon : WeaponType) : CombatComponent :=
  if !c.canAttack then c
  else { c with attackCooldown_ := (c.getWeaponStats weapon).cooldown }

/-- `CombatComponent::update`; the float subtraction `attackCooldown_ -= deltaTime` rounds
to binary32. -/
def update (c : CombatComponent) (deltaTime : ℚ) : CombatComponent :=
  if c.attackCooldown_ > 0 then
    { c with attackCooldown_ := binary32 (c.attackCooldown_ - deltaTime) }
  else c

/-- `CombatComponent::setWeapon`. -/
def setWeapon (c : CombatComponent) (weapon : WeaponType) : CombatComponent :=
  { c with currentWeapon_ := weapon }

/-- `CombatComponent::getWeapon`. -/
def getWeapon (c : CombatComponent) : WeaponType := c.currentWeapon_

/-- `CombatComponent::getAttackRange`. -/
def getAttackRange (c : CombatComponent) : ℚ := (c.getWeaponStats c.currentWeapon_).range

end CombatComponent

/-! ## entity.h / entity.cpp: the entity and its AI state machine

`std::sqrt` is a parameter `sqrt` of the functions that call it, and the two values
returned by `rand()` in the Idle branch are the parameters `rand1` and `rand2`. -/

/-- `enum class EntityType`. -/
inductive EntityType where
  | PLAYER | FRIENDLY_DRAGON | ENEMY_DRAGON | ENEMY_GOBLIN | NPC_VILLAGER
  deriving DecidableEq, Repr

/-- `enum class AIState`. -/
inductive AIState where
  | IDLE | PATROL | CHASE | ATTACK | FLEE
  deriving DecidableEq, Repr

/-- The fields of `class Entity`. -/
structure Entity where
  type_ : EntityType
  position_ : Vec3
  velocity_ : Vec3
  combat_ : CombatComponent
  aiState_ : AIState
  aiTimer_ : ℚ
  patrolTarget_ : Vec3
  deriving DecidableEq

namespace Entity

/-- Constructor `Entity::Entity(EntityType type, const Vec3& position)`. -/
def new (type : EntityType) (position : Vec3) : Entity :=
  { type_ := type, position_ := position, velocity_ := { x := 0, y := 0, z := 0 },
    combat_ :=
      match type with
      | EntityType.FRIENDLY_DRAGON => CombatComponent.new 200
      | EntityType.ENEMY_DRAGON => CombatComponent.new 150
      | EntityType.ENEMY_GOBLIN => CombatComponent.new 50
      | _ => CombatComponent.new 100,
    aiState_ := AIState.IDLE, aiTimer_ := 0, patrolTarget_ := position }

/-- Constructor `GoblinEntity::GoblinEntity(const Vec3& position)` (entity part). -/
def newGoblin (position : Vec3) : Entity :=
  { Entity.new EntityType.ENEMY_GOBLIN position with
    combat_ := (Entity.new EntityType.ENEMY_GOBLIN position).combat_.setWeapon WeaponType.SWORD }

/-- Constructor `DragonEntity::DragonEntity(type, position, color)` (entity part). -/
def newDragon (type : EntityType) (position : Vec3) : Entity :=
  { Entity.new type position with
    combat_ := (Entity.new type position).combat_.setWeapon WeaponType.FIST }

/-- `Entity::distanceTo`. -/
def distanceTo (sqrt : ℚ → ℚ) (e : Entity) (target : Vec3) : ℚ :=
  let dx := target.x - e.position_.x
  let dy := target.y - e.position_.y
  let dz := target.z - e.position_.z
  sqrt (dx * dx + dy * dy + dz * dz)

/-- `Entity::moveTowards`. -/
def moveTowards (sqrt : ℚ → ℚ) (e : Entity) (target : Vec3) (speed : ℚ) (_deltaTime : ℚ) :
    Entity :=
  let dirX := target.x - e.position_.x
  let dirZ := target.z - e.position_.z
  let len := sqrt (dirX * dirX + dirZ * dirZ)
  if len > 1 / 10 then
    { e with velocity_ := { x := dirX / len * speed, y := e.velocity_.y,
                            z := dirZ / len * speed } }
  else { e with velocity_ := { x := 0, y := e.velocity_.y, z := 0 } }

/-- `Entity::updateAI`. -/
def updateAI (sqrt : ℚ → ℚ) (e : Entity) (deltaTime : ℚ) (playerPos : Vec3)
    (rand1 rand2 : Nat) : Entity :=
  let e1 := { e with aiTimer_ := e.aiTimer_ + deltaTime }
  let distToPlayer := e1.distanceTo sqrt playerPos
  match e1.aiState_ with
  | AIState.IDLE =>
    let e2 :=
      if e1.aiTimer_ > 3 then
        { e1 with
          aiState_ := AIState.PATROL, aiTimer_ := 0,
          patrolTarget_ :=
            { x := e1.position_.x + (((Int.ofNat (rand1 % 20) - 10 : Int)) : ℚ),
              y := e1.position_.y,
              z := e1.position_.z + (((Int.ofNat (rand2 % 20) - 10 : Int)) : ℚ) } }
      else e1
    if distToPlayer < 15 then { e2 with aiState_ := AIState.CHASE, aiTimer_ := 0 } else e2
  | AIState.PATROL =>
    let e2 := e1.moveTowards sqrt e1.patrolTarget_ 3 deltaTime
    let e3 :=
      if e2.distanceTo sqrt e2.patrolTarget_ < 2 then
        { e2 with aiState_ := AIState.IDLE, aiTimer_ := 0 }
      else e2
    if distToPlayer < 15 then { e3 with aiState_ := AIState.CHASE, aiTimer_ := 0 } else e3
  | AIState.CHASE =>
    let e2 := e1.moveTowards sqrt playerPos 5 deltaTime
    let e3 :=
      if distToPlayer < e2.combat_.getAttackRange then
        { e2 with aiState_ := AIState.ATTACK, aiTimer_ := 0 }
      else e2
    if distToPlayer > 25 then { e3 with aiState_ := AIState.IDLE, aiTimer_ := 0 } else e3
  | AIState.ATTACK =>
    let e2 :=
      { e1 with velocity_ := { x := e1.velocity_.x * (9 / 10), y := e1.velocity_.y,
                               z := e1.velocity_.z * (9 / 10) } }
    let e3 :=
      if e2.combat_.canAttack then
        { e2 with combat_ := e2.combat_.performAttack e2.combat_.getWeapon }
      else e2
    if distToPlayer > e3.combat_.getAttackRange * (15 / 10) then
      { e3 with aiState_ := AIState.CHASE, aiTimer_ := 0 }
    else e3
  | AIState.FLEE =>
    let fleeX := e1.position_.x - playerPos.x
    let fleeZ := e1.position_.z - playerPos.z
    let len := sqrt (fleeX * fleeX + fleeZ * fleeZ)
    let e2 :=
      if len > 1 / 1000 then
        { e1 with velocity_ := { x := fleeX / len * 6, y := e1.velocity_.y,
                                 z := fleeZ / len * 6 } }
      else e1
    if distToPlayer > 20 then { e2 with aiState_ := AIState.IDLE, aiTimer_ := 0 } else e2

/-- `Entity::update`. -/
def update (sqrt : ℚ → ℚ) (e : Entity) (deltaTime : ℚ) (playerPos : Vec3)
    (rand1 rand2 : Nat) : Entity :=
  let e1 := { e with combat_ := e.combat_.update deltaTime }
  let e2 :=
    if e1.type_ = EntityType.ENEMY_DRAGON ∨ e1.type_ = EntityType.ENEMY_GOBLIN then
      e1.updateAI sqrt deltaTime playerPos rand1 rand2
    else e1
  let vy := e2.velocity_.y - (98 / 10) * deltaTime
  let px := e2.position_.x + e2.velocity_.x * deltaTime
  let py := e2.position_.y + vy * deltaTime
  let pz := e2.position_.z + e2.velocity_.z * deltaTime
  if py < 1 then
    { e2 with velocity_ := { x := e2.velocity_.x, y := 0, z := e2.velocity_.z },
              position_ := { x := px, y := 1, z := pz } }
  else
    { e2 with velocity_ := { x := e2.velocity_.x, y := vy, z := e2.velocity_.z },
              position_ := { x := px, y := py, z := pz } }

end Entity

/-- A stand-in for `std::sqrt`: the integer square root of the integer part. -/
def floorSqrt (q : ℚ) : ℚ := (Nat.sqrt ⌊q⌋.toNat : ℚ)

/-- An `EnemyGoblin` spawned at distance 10 from a player standing at the origin. -/
def sampleGoblin : Entity := Entity.newGoblin { x := 10, y := 0, z := 0 }

/-! ## Progress accumulators and references of the manager -/

/-- The spec's `clamp01`: the value clamped to `[0, 1]`. -/
def clamp01 (q : ℚ) : ℚ := max 0 (min 1 q)

/-- The delta time an operation passes to a progress accumulator (`updateEgg`,
`updateBreeding`, `updateTraining`); 0 for every other operation. -/
def ManagerOp.progressDelta : ManagerOp → ℚ
  | ManagerOp.updateEgg _ dt => dt
  | ManagerOp.updateBreeding _ dt => dt
  | ManagerOp.updateTraining _ dt => dt
  | _ => 0

/-- The incubation timer of an egg is consistent: the required time is 60 s, progress is
`elapsed / required` capped at 1, and the egg is Incubating exactly while
`elapsed < required`. -/
def DragonEgg.TimerOk (e : DragonEgg) : Prop :=
  e.hatchTime = 60 ∧ e.incubationProgress = min 1 (e.elapsedTime / e.hatchTime) ∧
    (e.state = EggState.INCUBATING ↔ e.elapsedTime < e.hatchTime)

/-- The timer of a breeding pair is consistent (required time 30 s). -/
def BreedingPair.TimerOk (p : BreedingPair) : Prop :=
  p.breedingTime = 30 ∧ p.breedingProgress = min 1 (p.elapsedTime / p.breedingTime) ∧
    (p.isComplete = false ↔ p.elapsedTime < p.breedingTime)

/-- The timer of a training session is consistent (required time 45 s). -/
def TrainingSession.TimerOk (s : TrainingSession) : Prop :=
  s.duration = 45 ∧ s.progress = min 1 (s.elapsedTime / s.duration) ∧
    (s.isComplete = false ↔ s.elapsedTime < s.duration)

/-- The invariant of the manager state: every timer is consistent (and, under the
assumption `nn` that no negative delta time was passed, every elapsed time is
non-negative), every dragon id stored in a pair or a session is a valid index, the move
list is the one built by the constructor, and outside battle state Idle both battle
pointers refer to stored dragons. -/
structure DragonGameManager.Inv (nn : Prop) (t : DragonGameManager) : Prop where
  eggs : ∀ e ∈ t.eggs_, e.TimerOk ∧ (nn → 0 ≤ e.elapsedTime)
  pairs : ∀ p ∈ t.breedingPairs_, p.TimerOk ∧ (nn → 0 ≤ p.elapsedTime) ∧
    0 ≤ p.parent1Id ∧ p.parent1Id < (t.dragons_.length : Int) ∧
    0 ≤ p.parent2Id ∧ p.parent2Id < (t.dragons_.length : Int)
  sessions : ∀ s ∈ t.trainingSessions_, s.TimerOk ∧ (nn → 0 ≤ s.elapsedTime) ∧
    0 ≤ s.dragonId ∧ s.dragonId < (t.dragons_.length : Int)
  moves : t.battleMoves_ = DragonGameManager.new.battleMoves_
  battle : t.battleState_ = BattleState.IDLE ∨
    ∃ pi ei : Nat, t.playerDragon_ = some pi ∧ t.enemyDragon_ = some ei ∧
      pi < t.dragons_.length ∧ ei < t.dragons_.length

/-- A call sequence that passes a negative delta time to `updateEgg`. -/
def negativeDeltaOps : List ManagerOp :=
  [ ManagerOp.createEgg Element.FIRE (Color.rgb 1 0 0), ManagerOp.updateEgg 0 (-15) ]

/-- A call sequence that starts a battle of dragon 0 against itself and lets the battle
start animation run out, so that the battle is in state PlayerTurn. -/
def selfBattleOps : List ManagerOp :=
  [ ManagerOp.createDragon Element.FIRE (Color.rgb 1 0 0) 1, ManagerOp.startBattle 0 0,
    ManagerOp.updateBattle 3 0 ]

/-- A call sequence that trains dragon 0 in strength until the session is complete. -/
def trainingOps : List ManagerOp :=
  [ ManagerOp.createDragon Element.FIRE (Color.rgb 1 0 0) 1,
    ManagerOp.startTraining 0 TrainingType.STRENGTH, ManagerOp.updateTraining 0 45 ]

/-- A manager whose only egg is ready to hatch. -/
def readyEggManager : DragonGameManager :=
  { DragonGameManager.new with
    eggs_ := [{ DragonEgg.new with
                state := EggState.READY_TO_HATCH, incubationProgress := 1, elapsedTime := 60 }] }

/-- A sequence of `updateBattle` calls, each with its delta time and `rand()` value. -/
def DragonGameManager.updateBattleSeq (t : DragonGameManager) (steps : List (ℚ × Nat)) :
    DragonGameManager :=
  steps.foldl (fun s x => s.updateBattle x.1 x.2) t

/-- A call sequence that starts a battle of dragon 0 (FIRE) against dragon 1 (ICE) and
lets the battle start animation run out, so that the battle is in state PlayerTurn. -/
def battleOps : List ManagerOp :=
  [ ManagerOp.createDragon Element.FIRE (Color.rgb 1 0 0) 1,
    ManagerOp.createDragon Element.ICE (Color.rgb 0 0 1) 1, ManagerOp.startBattle 0 1,
    ManagerOp.updateBattle 3 0 ]

/-- The egg of `readyEggManager`. -/
def readyEgg : DragonEgg :=
  { DragonEgg.new with
    state := EggState.READY_TO_HATCH, incubationProgress := 1, elapsedTime := 60 }

/-- The completed strength session that `trainingOps` produces. -/
def completedSession : TrainingSession :=
  { dragonId := 0, type := TrainingType.STRENGTH, progress := 1, duration := 45,
    elapsedTime := 45, statGain := 5, isComplete := true }

/-! ## chunk_terrain.cpp: the height query and `render` -/

namespace ChunkTerrain

/-- The `switch (biome)` of `getHeightAt` for a chunk that is not loaded. -/
def estimateHeight : BiomeType → ℚ
  | BiomeType.WATER => 6
  | BiomeType.LAVA => 8
  | BiomeType.MOUNTAINS => 30
  | BiomeType.PLAINS => 10

/-- `ChunkTerrain::getHeightAt` (a `const` member: only the returned value is kept). -/
def getHeightAt (lib : MathLib) (t : ChunkTerrain) (x z : ℚ) : ℚ :=
  match t.chunks_.find (t.worldToChunk x z) with
  | none => estimateHeight (getBiomeAt lib x z)
  | some chunk =>
    let blockX := staticCastInt (x / 2)
    let blockZ := staticCastInt (z / 2)
    chunk.blockPositions.foldl
      (fun maxY pos =>
        if staticCastInt (pos.x / 2) = blockX ∧ staticCastInt (pos.z / 2) = blockZ then
          max maxY (pos.y + 2)
        else maxY)
      0

/-- One iteration of the inner loop of `render`: the cube for index `i`.  The source
reads `blockPositions[i]` and `blockColors[i]`; an index outside `blockColors` is
undefined behaviour there and adds nothing here. -/
def renderBlock (chunk : Chunk) (renderer : Renderer) (i : Nat) : Renderer :=
  match chunk.blockPositions[i]?, chunk.blockColors[i]? with
  | some position, some color =>
    renderer.addCubeToBatch
      { position := position, size := { x := 2, y := 2, z := 2 }, color := color }
  | _, _ => renderer

/-- The inner loop of `render`: `for (size_t i = 0; i < chunk->blockPositions.size(); i++)`. -/
def renderBlocks (chunk : Chunk) (renderer : Renderer) : Renderer :=
  (List.range chunk.blockPositions.length).foldl (renderBlock chunk) renderer

/-- `ChunkTerrain::render`, a non-`const` member: the terrain after the call and the
renderer after the call. -/
def render (t : ChunkTerrain) (renderer : Renderer) (cameraPos : Vec3) :
    ChunkTerrain × Renderer :=
  let r0 := renderer.beginBatch
  let viewDistance : Int := 2
  let cameraChunk := t.worldToChunk cameraPos.x cameraPos.z
  let r1 := t.chunks_.foldl
    (fun r pair =>
      if !pair.2.isGenerated then r
      else if chunkDist pair.1 cameraChunk > viewDistance then r
      else renderBlocks pair.2 r)
    r0
  (t, r1.endBatch)

end ChunkTerrain

/-- The cubes of a chunk: block `i` with size `(2, 2, 2)` and colour `i`. -/
def Chunk.cubes (chunk : Chunk) : List Cube :=
  List.zipWith
    (fun position color =>
      { position := position, size := { x := 2, y := 2, z := 2 }, color := color })
    chunk.blockPositions chunk.blockColors

/-- The cubes of the stored chunks that are generated and at Chebyshev distance at most 2
from the chunk of the camera, in the iteration order of the store. -/
def ChunkTerrain.visibleCubes (t : ChunkTerrain) (cameraPos : Vec3) : List Cube :=
  (List.filter
    (fun e => e.2.isGenerated &&
      decide (chunkDist e.1 (t.worldToChunk cameraPos.x cameraPos.z) ≤ 2))
    t.chunks_).flatMap fun e => e.2.cubes

/-- Follows the spec's words for the height query: the maximum of `y + 2` over the blocks
whose grid column `(floor(block.x / 2), floor(block.z / 2))` equals the query column
`(floor(x / 2), floor(z / 2))`; 0 when no block matches. -/
def specColumnTop (chunk : Chunk) (x z : ℚ) : ℚ :=
  ((List.filter (fun pos => decide (⌊pos.x / 2⌋ = ⌊x / 2⌋ ∧ ⌊pos.z / 2⌋ = ⌊z / 2⌋))
    chunk.blockPositions).map fun pos => pos.y + 2).foldl max 0

/-- The stores reached from a freshly constructed terrain by a sequence of `update`
calls with the given player positions. -/
def ChunkTerrain.run (lib : MathLib) (chunkSize maxHeight renderDistance : Int)
    (positions : List Vec3) : ChunkTerrain :=
  positions.foldl (ChunkTerrain.update lib) (ChunkTerrain.new chunkSize maxHeight renderDistance)

/-- A terrain of chunk size 1, max height 4 and render distance 0 after one `update` with
the player at `(-1, 0, 0)`: the store holds the chunk `(-1, 0)`. -/
def negativeTerrain : ChunkTerrain :=
  ChunkTerrain.run flatLib 1 4 0 [{ x := -1, y := 0, z := 0 }]

/-- The chunk `(-1, 0)` of `negativeTerrain`: one Plains column of three blocks at
`x = -2`. -/
def negativeChunk : Chunk :=
  { coord := { x := -1, z := 0 },
    blockPositions :=
      [{ x := -2, y := 0, z := 0 }, { x := -2, y := 2, z := 0 }, { x := -2, y := 4, z := 0 }],
    blockColors :=
      [Color.rgb (5 / 10) (5 / 10) (5 / 10), Color.rgb (57 / 100) (39 / 100) (27 / 100),
        Color.rgb (4 / 10) (86 / 100) (51 / 100)],
    biome := BiomeType.PLAINS, isGenerated := true }

/-- A chunk record without blocks, as `generateChunk` holds it before its first column. -/
def emptyChunk : Chunk :=
  { coord := { x := 0, z := 0 }, blockPositions := [], blockColors := [],
    biome := BiomeType.PLAINS, isGenerated := true }

/-- A `FriendlyDragon` spawned at distance 10 from a player standing at the origin. -/
def sampleFriendlyDragon : Entity :=
  Entity.newDragon EntityType.FRIENDLY_DRAGON { x := 10, y := 0, z := 0 }

/-! ## entity.h / entity.cpp: the entity manager

The manager's only field is the collection `entities_`; a pointer returned by a query is
the index of the entity in the collection. -/

/-- `Entity::isAlive`: `combat_.getHealth() > 0`. -/
def Entity.isAlive (e : Entity) : Bool := decide (e.combat_.health_ > 0)

namespace EntityManager

/-- `EntityManager::removeDeadEntities`: the erase loop from the iterator position on. -/
def removeDeadEntities : List Entity → List Entity
  | [] => []
  | e :: rest =>
    if !e.isAlive then removeDeadEntities rest else e :: removeDeadEntities rest

/-- `EntityManager::update`: the `update` of every entity in collection order, then
`removeDeadEntities`.  The two `rand()` values available to the entity at index `i` are
`rands i`. -/
def update (sqrt : ℚ → ℚ) (entities : List Entity) (deltaTime : ℚ) (playerPos : Vec3)
    (rands : Nat → Nat × Nat) : List Entity :=
  removeDeadEntities
    (entities.enum.map fun p =>
      p.2.update sqrt deltaTime playerPos (rands p.1).1 (rands p.1).2)

end EntityManager

/-- `Entity::setAIState`. -/
def Entity.setAIState (e : Entity) (state : AIState) : Entity := { e with aiState_ := state }

/-- An `EnemyGoblin` at the origin that has been in state Patrol for 1000 s, with its
patrol target 10 units away. -/
def patrollingGoblin : Entity :=
  { Entity.newGoblin { x := 0, y := 0, z := 0 } with
    aiState_ := AIState.PATROL, aiTimer_ := 1000, patrolTarget_ := { x := 10, y := 0, z := 0 } }

/-- A player position at distance 20 from the origin. -/
def farPlayer : Vec3 := { x := 0, y := 0, z := 20 }

/-- An `EnemyGoblin` in state Chase that holds a Bow, at distance 27 from the origin. -/
def bowGoblin : Entity :=
  { Entity.newGoblin { x := 27, y := 0, z := 0 } with
    aiState_ := AIState.CHASE,
    combat_ := (Entity.newGoblin { x := 27, y := 0, z := 0 }).combat_.setWeapon WeaponType.BOW }

/-! ## renderer.h: `Vec3::length` / `Vec3::normalize`; combat.cpp: `Projectile` -/

/-- `Vec3::length`. -/
def Vec3.length (sqrt : ℚ → ℚ) (v : Vec3) : ℚ := sqrt (v.x * v.x + v.y * v.y + v.z * v.z)

/-- `Vec3::normalize`. -/
def Vec3.normalize (sqrt : ℚ → ℚ) (v : Vec3) : Vec3 :=
  let len := v.length sqrt
  if len > 0 then { x := v.x / len, y := v.y / len, z := v.z / len }
  else { x := 0, y := 0, z := 0 }

/-- The fields of `class Projectile`. -/
structure Projectile where
  position_ : Vec3
  direction_ : Vec3
  velocity_ : Vec3
  damage_ : ℚ
  lifetime_ : ℚ
  active_ : Bool
  deriving DecidableEq

/-- Constructor `Projectile::Projectile(pos, dir, damage, speed)`. -/
def Projectile.new (sqrt : ℚ → ℚ) (pos dir : Vec3) (damage speed : ℚ) : Projectile :=
  let len := sqrt (dir.x * dir.x + dir.y * dir.y + dir.z * dir.z)
  { position_ := pos, direction_ := dir, damage_ := damage, lifetime_ := 5, active_ := true,
    velocity_ :=
      if len > 1 / 10000 then
        { x := dir.x / len * speed, y := dir.y / len * speed, z := dir.z / len * speed }
      else { x := 0, y := 0, z := speed } }

/-- A stand-in for `std::sqrt` that is exact on `10^-20` (value `10^-10`) and is the
integer square root of the integer part elsewhere. -/
def tinySqrt (q : ℚ) : ℚ :=
  if q = 1 / 100000000000000000000 then 1 / 10000000000 else floorSqrt q

/-- A vector of length `10^-10`. -/
def tinyVector : Vec3 := { x := 1 / 10000000000, y := 0, z := 0 }

/-! ## Repeated `completeTraining` -/

/-- A sequence of `k` calls of `completeTraining(sessionId)`. -/
def DragonGameManager.completeTrainingTimes (t : DragonGameManager) (sessionId : Int) :
    Nat → DragonGameManager
  | 0 => t
  | k + 1 => (t.completeTrainingTimes sessionId k).completeTraining sessionId

/-- The dragon after the stat gain of `session` has been applied `k` times: `k * statGain`
on the trained stat; for Special `2 * k * statGain` on max HP, with current HP set to the
new max HP once a gain has been applied. -/
def TrainingSession.gainTimes (session : TrainingSession) (k : Nat) (dragon : BattleDragon) :
    BattleDragon :=
  match session.type with
  | TrainingType.STRENGTH => { dragon with attack := dragon.attack + k * session.statGain }
  | TrainingType.DEFENSE => { dragon with defense := dragon.defense + k * session.statGain }
  | TrainingType.SPEED => { dragon with speed := dragon.speed + k * session.statGain }
  | TrainingType.SPECIAL =>
    { dragon with
      maxHP := dragon.maxHP + 2 * k * session.statGain,
      currentHP := if k = 0 then dragon.currentHP else dragon.maxHP + 2 * k * session.statGain }

/-- Two dragons made by `createDragon`: a FIRE dragon of level 8388604 and a FIRE dragon
of level 3. -/
def veteranOps : List ManagerOp :=
  [ ManagerOp.createDragon Element.FIRE (Color.rgb 1 0 0) 8388604,
    ManagerOp.createDragon Element.FIRE (Color.rgb 0 0 1) 3 ]

/-- The dragon `createDragon(FIRE, red, 8388604)` makes as dragon 0: attack
`10 + 2 * 8388604 = 16777218`. -/
def veteranDragon : BattleDragon :=
  { BattleDragon.new with
    id := 0, element := Element.FIRE, color := Color.rgb 1 0 0, level := 8388604,
    maxHP := 83886140, currentHP := 83886140, attack := 16777218, defense := 8388609,
    speed := 8388614, isPlayer := true }

/-- The dragon `createDragon(FIRE, blue, 3)` makes as dragon 1: defense `5 + 3 = 8`. -/
def youngDragon : BattleDragon :=
  { BattleDragon.new with
    id := 1, element := Element.FIRE, color := Color.rgb 0 0 1, level := 3,
    maxHP := 130, currentHP := 130, attack := 16, defense := 8, speed := 13,
    isPlayer := true }

/-- The battle timer after the delta times are added one after the other as
`battleAnimTime_ += deltaTime` does, every sum rounded to binary32. -/
def accumulateTimer (start : ℚ) (deltas : List ℚ) : ℚ :=
  deltas.foldl (fun a d => binary32 (a + d)) start

/-- A battle of dragon 0 against dragon 1 in which the player has attacked with move 0:
the state is EnemyTurn with timer 0. -/
def enemyTurnOps : List ManagerOp :=
  battleOps ++ [ManagerOp.performBattleAction BattleAction.ATTACK 0]

/-- Two dragons and `startBattle(0, 1)`: the state is BattleStart with timer 0. -/
def battleStartOps : List ManagerOp :=
  [ ManagerOp.createDragon Element.FIRE (Color.rgb 1 0 0) 1,
    ManagerOp.createDragon Element.ICE (Color.rgb 0 0 1) 1, ManagerOp.startBattle 0 1 ]

/-- A stand-in for the math library: the Taylor polynomials of `sin` (degree 9) and `cos`
(degree 8) at 0.  For `|x| ≤ 2` they differ from `sin x` and `cos x` by less than
`3 / 10000`, and `cos 0 = 1` exactly. -/
def taylorLib : MathLib :=
  { sin := fun x => x - x ^ 3 / 6 + x ^ 5 / 120 - x ^ 7 / 5040 + x ^ 9 / 362880,
    cos := fun x => 1 - x ^ 2 / 2 + x ^ 4 / 24 - x ^ 6 / 720 + x ^ 8 / 40320 }

/-! # Theorems -/

/-! ## Rounding to binary32 -/

theorem roundHalfEven_intCast (n : Int) : roundHalfEven (n : ℚ) = n := by
  simp [roundHalfEven]

theorem roundHalfEven_of_lt (q : ℚ) (n : Int) (h1 : (n : ℚ) - 1 / 2 < q)
    (h2 : q < (n : ℚ) + 1 / 2) : roundHalfEven q = n := by
  unfold roundHalfEven
  by_cases hq : (n : ℚ) ≤ q
  · have hf : ⌊q⌋ = n := by
      rw [Int.floor_eq_iff]
      constructor <;> linarith
    rw [hf, if_pos (by linarith)]
  · have hf : ⌊q⌋ = n - 1 := by
      rw [Int.floor_eq_iff]
      push_cast
      constructor <;> linarith
    rw [hf]
    push_cast
    rw [if_neg (by linarith), if_pos (by linarith)]
    ring

theorem roundHalfEven_tie_up (n : Int) (hn : n % 2 = 0) :
    roundHalfEven ((n : ℚ) - 1 / 2) = n := by
  unfold roundHalfEven
  have hf : ⌊(n : ℚ) - 1 / 2⌋ = n - 1 := by
    rw [Int.floor_eq_iff]
    push_cast
    constructor <;> linarith
  rw [hf]
  push_cast
  rw [if_neg (by linarith), if_neg (by linarith), if_neg (by omega)]
  ring

theorem roundHalfEven_tie_down (n : Int) (hn : n % 2 = 0) :
    roundHalfEven ((n : ℚ) + 1 / 2) = n := by
  unfold roundHalfEven
  have hf : ⌊(n : ℚ) + 1 / 2⌋ = n := by
    rw [Int.floor_eq_iff]
    constructor <;> linarith
  rw [hf]
  rw [if_neg (by linarith), if_neg (by linarith), if_pos hn]

/-- The value of `binary32` on the binade `[2 ^ e, 2 ^ (e + 1))` of a normal exponent. -/
theorem binary32_of_binade (q : ℚ) (e : Int) (h1 : (2 : ℚ) ^ e ≤ |q|)
    (h2 : |q| < (2 : ℚ) ^ (e + 1)) (he : -126 ≤ e) :
    binary32 q = (roundHalfEven (q / 2 ^ (e - 23)) : ℚ) * 2 ^ (e - 23) := by
  have hpos : 0 < |q| := lt_of_lt_of_le (by positivity) h1
  have hq : q ≠ 0 := abs_pos.mp hpos
  have hlog : Int.log 2 |q| = e := by
    apply le_antisymm
    · have := (Int.lt_zpow_iff_log_lt (by norm_num : 1 < 2) hpos).mp (by exact_mod_cast h2)
      omega
    · exact (Int.zpow_le_iff_le_log (by norm_num : 1 < 2) hpos).mp (by exact_mod_cast h1)
  unfold binary32
  rw [if_neg hq, hlog, max_eq_left he]

/-- A positive value of the binade `[2 ^ e, 2 ^ (e + 1))` that lies within half a unit in
the last place of `n * 2 ^ (e - 23)` rounds to it. -/
theorem binary32_round (q : ℚ) (e n : Int) (h1 : (2 : ℚ) ^ e ≤ q)
    (h2 : q < (2 : ℚ) ^ (e + 1)) (he : -126 ≤ e)
    (hlo : (n : ℚ) - 1 / 2 < q / 2 ^ (e - 23)) (hhi : q / 2 ^ (e - 23) < (n : ℚ) + 1 / 2) :
    binary32 q = (n : ℚ) * 2 ^ (e - 23) := by
  have hq : 0 ≤ q := le_trans (by positivity) h1
  rw [binary32_of_binade q e (by rwa [abs_of_nonneg hq]) (by rwa [abs_of_nonneg hq]) he,
    roundHalfEven_of_lt _ n hlo hhi]

/-- A positive value of the binade `[2 ^ e, 2 ^ (e + 1))` half way between two neighbours
rounds to the one with the even significand `n`. -/
theorem binary32_tie (q : ℚ) (e n : Int) (h1 : (2 : ℚ) ^ e ≤ q)
    (h2 : q < (2 : ℚ) ^ (e + 1)) (he : -126 ≤ e) (hn : n % 2 = 0)
    (htie : q / 2 ^ (e - 23) = (n : ℚ) - 1 / 2 ∨ q / 2 ^ (e - 23) = (n : ℚ) + 1 / 2) :
    binary32 q = (n : ℚ) * 2 ^ (e - 23) := by
  have hq : 0 ≤ q := le_trans (by positivity) h1
  rw [binary32_of_binade q e (by rwa [abs_of_nonneg hq]) (by rwa [abs_of_nonneg hq]) he]
  rcases htie with h | h
  · rw [h, roundHalfEven_tie_up n hn]
  · rw [h, roundHalfEven_tie_down n hn]

/-- An integer multiple `m * 2 ^ z` of a power of two with `|m| < 2 ^ 24` and
`z ≥ -149` is a binary32 value: rounding leaves it unchanged. -/
theorem binary32_scaled (m : Int) (z : Int) (hm : |m| < 2 ^ 24) (hz : -149 ≤ z) :
    binary32 ((m : ℚ) * 2 ^ z) = (m : ℚ) * 2 ^ z := by
  by_cases h0 : m = 0
  · subst h0
    simp [binary32]
  have hm0 : (m : ℚ) ≠ 0 := by exact_mod_cast h0
  have hq : (m : ℚ) * 2 ^ z ≠ 0 := by positivity
  have hpos : 0 < |(m : ℚ) * 2 ^ z| := abs_pos.mpr hq
  have habs : |(m : ℚ) * 2 ^ z| = |(m : ℚ)| * 2 ^ z := by
    rw [abs_mul, abs_of_pos (by positivity : (0 : ℚ) < 2 ^ z)]
  have hm2 : |(m : ℚ)| < 2 ^ 24 := by exact_mod_cast hm
  have hhi : Int.log 2 |(m : ℚ) * 2 ^ z| < 24 + z := by
    apply (Int.lt_zpow_iff_log_lt (by norm_num : 1 < 2) hpos).mp
    push_cast
    rw [habs, zpow_add₀ (by norm_num : (2 : ℚ) ≠ 0)]
    exact mul_lt_mul_of_pos_right (by exact_mod_cast hm2) (by positivity)
  generalize hlog : Int.log 2 |(m : ℚ) * 2 ^ z| = e at hhi
  unfold binary32
  rw [if_neg hq, hlog]
  generalize hE : max e (-126) - 23 = ee
  have hEz : ee ≤ z := by
    rcases max_cases e (-126) with ⟨h, _⟩ | ⟨h, _⟩ <;> omega
  obtain ⟨j, hj⟩ : ∃ j : Nat, (j : Int) = z - ee := ⟨(z - ee).toNat, by omega⟩
  have hz2 : z = ee + (j : Int) := by omega
  have h2 : ((2 : ℚ) ^ z) = 2 ^ ee * 2 ^ j := by
    rw [hz2, zpow_add₀ (by norm_num : (2 : ℚ) ≠ 0), zpow_natCast]
  have hne : ((2 : ℚ) ^ ee) ≠ 0 := by positivity
  have hint : (m : ℚ) * 2 ^ z / 2 ^ ee = ((m * 2 ^ j : Int) : ℚ) := by
    rw [h2]
    push_cast
    field_simp
    ring
  rw [hint, roundHalfEven_intCast, h2]
  push_cast
  ring

/-- A dyadic rational `m / 2 ^ k` with `|m| < 2 ^ 24` is a binary32 value. -/
theorem binary32_dyadic (m : Int) (k : Nat) (hm : |m| < 2 ^ 24) (hk : k ≤ 149) :
    binary32 ((m : ℚ) / 2 ^ k) = (m : ℚ) / 2 ^ k := by
  have h := binary32_scaled m (-(k : Int)) hm (by omega)
  rw [zpow_neg, zpow_natCast, ← div_eq_mul_inv] at h
  exact h

/-- An integer of magnitude below `2 ^ 24` is a binary32 value. -/
theorem binary32_intCast (m : Int) (hm : |m| < 2 ^ 24) : binary32 (m : ℚ) = (m : ℚ) := by
  have h := binary32_dyadic m 0 hm (by omega)
  simpa using h

/-- A natural number below `2 ^ 24` is a binary32 value. -/
theorem binary32_natCast (n : Nat) (hn : n < 2 ^ 24) : binary32 (n : ℚ) = (n : ℚ) := by
  have h := binary32_intCast (n : Int) (by rw [abs_of_nonneg (by omega)]; exact_mod_cast hn)
  simpa using h

theorem binary32_three : binary32 3 = 3 := by
  simpa using binary32_natCast 3 (by norm_num)

theorem CombatComponent.call_maxHealth (c : CombatComponent) (k : HealthCall) :
    (c.call k).maxHealth_ = c.maxHealth_ := by
  cases k <;> rfl

theorem CombatComponent.call_healthInRange (c : CombatComponent) (k : HealthCall)
    (hc : c.healthInRange) (hk : 0 ≤ k.amount) : (c.call k).healthInRange := by
  obtain ⟨h0, h1⟩ := hc
  cases k with
  | takeDamage a =>
    have ha : 0 ≤ a := hk
    refine ⟨le_max_left _ _, ?_⟩
    show max 0 (c.health_ - a) ≤ c.maxHealth_
    exact max_le (le_trans h0 h1) (by linarith)
  | heal a =>
    have ha : 0 ≤ a := hk
    refine ⟨?_, min_le_left _ _⟩
    show 0 ≤ min c.maxHealth_ (c.health_ + a)
    exact le_min (le_trans h0 h1) (by linarith)

/-- C1 (counterexample): a component constructed with `maxHealth = 100` that receives
`takeDamage(-50)` has health 150, which is above `maxHealth`; the health bound fails
after a call with a negative amount. -/
theorem takeDamage_negative_exceeds_maxHealth :
    ((CombatComponent.new 100).run [HealthCall.takeDamage (-50)]).health_ = 150 ∧
      ¬ ((CombatComponent.new 100).run [HealthCall.takeDamage (-50)]).healthInRange := by
  have h : ((CombatComponent.new 100).run [HealthCall.takeDamage (-50)]).health_ = 150 := by
    simp [CombatComponent.run, CombatComponent.call, CombatComponent.takeDamage,
      CombatComponent.new]
    norm_num
  refine ⟨h, ?_⟩
  intro hr
  have h2 := hr.2
  rw [h] at h2
  simp [CombatComponent.run, CombatComponent.call, CombatComponent.takeDamage,
    CombatComponent.new] at h2
  norm_num at h2

/-- C1 (amended): from a component whose health is within `[0, maxHealth]`, every finite
sequence of `takeDamage(a)` and `heal(a)` calls whose amounts are all non-negative
leaves health within `[0, maxHealth]` (the statement ranges over all sequences, hence
over every prefix: the bound holds after each call). -/
theorem health_in_range_of_nonneg_amounts (c : CombatComponent) (calls : List HealthCall)
    (hc : c.healthInRange) (hcalls : ∀ k ∈ calls, 0 ≤ k.amount) :
    (c.run calls).healthInRange := by
  induction calls generalizing c with
  | nil => exact hc
  | cons k rest ih =>
    have hk : 0 ≤ k.amount := hcalls k (List.mem_cons_self _ _)
    have hrest : ∀ j ∈ rest, 0 ≤ j.amount := fun j hj => hcalls j (List.mem_cons_of_mem _ hj)
    exact ih (c.call k) (c.call_healthInRange k hc hk) hrest

theorem health_in_range_of_nonneg_amounts_witness :
    (CombatComponent.new 100).healthInRange ∧
      (∀ k ∈ [HealthCall.takeDamage 30, HealthCall.heal 50], 0 ≤ k.amount) ∧
      ((CombatComponent.new 100).run
        [HealthCall.takeDamage 30, HealthCall.heal 50]).healthInRange :=
  have h1 : (CombatComponent.new 100).healthInRange := by
    simp [CombatComponent.healthInRange, CombatComponent.new]
  have h2 : ∀ k ∈ [HealthCall.takeDamage 30, HealthCall.heal 50], 0 ≤ k.amount := by
    simp [HealthCall.amount]
  ⟨h1, h2, health_in_range_of_nonneg_amounts _ _ h1 h2⟩

/-! ## Battle damage -/

theorem staticCastInt_nonneg (q : ℚ) (h : 0 ≤ q) :
    ((staticCastInt q : Int) : ℚ) ≤ q ∧ q < (staticCastInt q : ℚ) + 1 := by
  simp only [staticCastInt, if_pos h]
  exact ⟨Int.floor_le q, Int.lt_floor_add_one q⟩

theorem staticCastInt_neg (q : ℚ) (h : q < 0) :
    ((staticCastInt q : Int) : ℚ) - 1 < q ∧ q ≤ (staticCastInt q : ℚ) := by
  simp only [staticCastInt, if_neg (not_le.mpr h)]
  have := Int.ceil_lt_add_one q
  exact ⟨by linarith, Int.le_ceil q⟩

theorem staticCastInt_intCast (n : Int) : staticCastInt (n : ℚ) = n := by
  unfold staticCastInt
  split <;> simp

theorem DragonGameManager.getElementMultiplier_cases (a d : Element) :
    DragonGameManager.getElementMultiplier a d = 3 / 2 ∨
      DragonGameManager.getElementMultiplier a d = 1 / 2 ∨
      DragonGameManager.getElementMultiplier a d = 1 := by
  unfold DragonGameManager.getElementMultiplier
  split_ifs <;> simp

/-- When none of the five float operations of `calculateDamage` rounds, the result is the
truncated spec bracket. -/
theorem calculateDamage_of_exact (attacker defender : BattleDragon) (move : BattleMove)
    (h1 : binary32 ((move.damage + attacker.attack : Int) : ℚ) =
      ((move.damage + attacker.attack : Int) : ℚ))
    (h2 : binary32 (defender.defense : ℚ) = (defender.defense : ℚ))
    (h3 : binary32 ((defender.defense : ℚ) * (1 / 2)) = (defender.defense : ℚ) * (1 / 2))
    (h4 : binary32 (((move.damage + attacker.attack : Int) : ℚ) -
        (defender.defense : ℚ) * (1 / 2)) =
      ((move.damage + attacker.attack : Int) : ℚ) - (defender.defense : ℚ) * (1 / 2))
    (h5 : binary32 ((((move.damage + attacker.attack : Int) : ℚ) -
        (defender.defense : ℚ) * (1 / 2)) *
          DragonGameManager.getElementMultiplier move.element defender.element) =
      (((move.damage + attacker.attack : Int) : ℚ) - (defender.defense : ℚ) * (1 / 2)) *
        DragonGameManager.getElementMultiplier move.element defender.element) :
    DragonGameManager.calculateDamage attacker defender move =
      max 1 (staticCastInt (damageBracket attacker defender move)) := by
  simp only [DragonGameManager.calculateDamage, damageBracket]
  rw [h1, h2, h3, h4, h5]
  push_cast
  rfl

/-- While the int sum and the defense are at most `2 ^ 20` in magnitude, every float
operation of `calculateDamage` is exact and the result is the truncated spec bracket. -/
theorem calculateDamage_eq_bracket (attacker defender : BattleDragon) (move : BattleMove)
    (hs : |move.damage + attacker.attack| ≤ 2 ^ 20) (hd : |defender.defense| ≤ 2 ^ 20) :
    DragonGameManager.calculateDamage attacker defender move =
      max 1 (staticCastInt (damageBracket attacker defender move)) := by
  simp only [DragonGameManager.calculateDamage, damageBracket]
  generalize hsd : move.damage + attacker.attack = s at hs
  generalize defender.defense = d at hd
  have hcast : (move.damage : ℚ) + (attacker.attack : ℚ) = (s : ℚ) := by
    rw [← hsd]; push_cast; rfl
  rw [hcast]
  obtain ⟨hs1, hs2⟩ := abs_le.mp hs
  obtain ⟨hd1, hd2⟩ := abs_le.mp hd
  have e1 : binary32 (s : ℚ) = (s : ℚ) :=
    binary32_intCast s (abs_lt.mpr ⟨by omega, by omega⟩)
  have e2 : binary32 (d : ℚ) = (d : ℚ) :=
    binary32_intCast d (abs_lt.mpr ⟨by omega, by omega⟩)
  have e3 : binary32 ((d : ℚ) * (1 / 2)) = (d : ℚ) * (1 / 2) := by
    have h := binary32_dyadic d 1 (abs_lt.mpr ⟨by omega, by omega⟩) (by omega)
    have hx : (d : ℚ) * (1 / 2) = (d : ℚ) / 2 ^ 1 := by ring
    rw [hx]; exact h
  have e4 : binary32 ((s : ℚ) - (d : ℚ) * (1 / 2)) = (s : ℚ) - (d : ℚ) * (1 / 2) := by
    have h := binary32_dyadic (2 * s - d) 1 (abs_lt.mpr ⟨by omega, by omega⟩) (by omega)
    have hx : (s : ℚ) - (d : ℚ) * (1 / 2) = ((2 * s - d : Int) : ℚ) / 2 ^ 1 := by
      push_cast; ring
    rw [hx]; exact h
  rw [e1, e2, e3, e4]
  have e5 : binary32 (((s : ℚ) - (d : ℚ) * (1 / 2)) *
      DragonGameManager.getElementMultiplier move.element defender.element) =
      ((s : ℚ) - (d : ℚ) * (1 / 2)) *
        DragonGameManager.getElementMultiplier move.element defender.element := by
    rcases DragonGameManager.getElementMultiplier_cases move.element defender.element with
      hm | hm | hm
    · rw [hm]
      have h := binary32_dyadic (3 * (2 * s - d)) 2 (abs_lt.mpr ⟨by omega, by omega⟩)
        (by omega)
      have hx : ((s : ℚ) - (d : ℚ) * (1 / 2)) * (3 / 2) =
          ((3 * (2 * s - d) : Int) : ℚ) / 2 ^ 2 := by
        push_cast; ring
      rw [hx]; exact h
    · rw [hm]
      have h := binary32_dyadic (2 * s - d) 2 (abs_lt.mpr ⟨by omega, by omega⟩) (by omega)
      have hx : ((s : ℚ) - (d : ℚ) * (1 / 2)) * (1 / 2) =
          ((2 * s - d : Int) : ℚ) / 2 ^ 2 := by
        push_cast; ring
      rw [hx]; exact h
    · rw [hm, mul_one]
      exact e4
  rw [e5]

/-- C5 (counterexample): for attack 10, defense 5, a FIRE move of damage 25 and an ICE
defender, `calculateDamage` does not return 49. -/
theorem calculateDamage_sample_ne_49 :
    DragonGameManager.calculateDamage sampleAttacker sampleDefender fireBreath ≠ 49 := by
  have h : DragonGameManager.calculateDamage sampleAttacker sampleDefender fireBreath = 48 := by
    rw [calculateDamage_eq_bracket _ _ _ (by decide) (by decide)]
    simp [damageBracket, DragonGameManager.getElementMultiplier,
      sampleAttacker, sampleDefender, fireBreath, BattleDragon.new, staticCastInt]
    norm_num
  rw [h]
  decide

/-- C5 (amended): for attack 10, defense 5, a FIRE move of damage 25 and an ICE defender
the element multiplier is 1.5, the bracket is `(25 + 10 - 2.5) * 1.5 = 48.75`, and
`calculateDamage` returns `max(1, trunc(48.75)) = 48` (the float is truncated toward
zero, not rounded). -/
theorem calculateDamage_sample_eq_48 :
    DragonGameManager.getElementMultiplier fireBreath.element sampleDefender.element = 3 / 2 ∧
      damageBracket sampleAttacker sampleDefender fireBreath = 195 / 4 ∧
      DragonGameManager.calculateDamage sampleAttacker sampleDefender fireBreath = 48 := by
  refine ⟨?_, ?_, ?_⟩
  · simp [DragonGameManager.getElementMultiplier, sampleDefender, fireBreath]
  · simp [damageBracket, DragonGameManager.getElementMultiplier, sampleAttacker,
      sampleDefender, fireBreath, BattleDragon.new]
    norm_num
  · rw [calculateDamage_eq_bracket _ _ _ (by decide) (by decide)]
    simp [damageBracket, DragonGameManager.getElementMultiplier,
      sampleAttacker, sampleDefender, fireBreath, BattleDragon.new, staticCastInt]
    norm_num

/-- C6 (counterexample): `createDragon(FIRE, red, 8388604)` and `createDragon(FIRE, blue, 3)`
make a dragon of attack 16777218 and a dragon of defense 8.  For the move Fire Breath
(damage 25, multiplier 1 against FIRE) the spec bracket is `25 + 16777218 - 4 = 16777239`,
but `calculateDamage` returns 16777240: the int sum 16777243 is stored in a float and
rounds to 16777244 before the defense term is subtracted. -/
theorem calculateDamage_rounds_large_sum :
    (DragonGameManager.exec veteranOps).dragons_ = [veteranDragon, youngDragon] ∧
      DragonGameManager.getElementMultiplier fireBreath.element youngDragon.element = 1 ∧
      damageBracket veteranDragon youngDragon fireBreath = 16777239 ∧
      binary32 ((fireBreath.damage + veteranDragon.attack : Int) : ℚ) = 16777244 ∧
      DragonGameManager.calculateDamage veteranDragon youngDragon fireBreath = 16777240 ∧
      DragonGameManager.calculateDamage veteranDragon youngDragon fireBreath ≠
        max 1 (staticCastInt (damageBracket veteranDragon youngDragon fireBreath)) := by
  have hm : DragonGameManager.getElementMultiplier fireBreath.element youngDragon.element =
      1 := by
    simp [DragonGameManager.getElementMultiplier, youngDragon, fireBreath]
  have hb : damageBracket veteranDragon youngDragon fireBreath = 16777239 := by
    simp [damageBracket, DragonGameManager.getElementMultiplier, veteranDragon, youngDragon,
      fireBreath, BattleDragon.new]
    norm_num
  have h1 : binary32 (16777243 : ℚ) = 16777244 := by
    rw [binary32_tie 16777243 24 8388622 (by norm_num) (by norm_num) (by norm_num)
      (by norm_num) (Or.inl (by norm_num))]
    norm_num
  have h2 : binary32 (8 : ℚ) = 8 := by
    have h := binary32_intCast 8 (by norm_num)
    simpa using h
  have h3 : binary32 (4 : ℚ) = 4 := by
    have h := binary32_intCast 4 (by norm_num)
    simpa using h
  have h4 : binary32 (16777240 : ℚ) = 16777240 := by
    have h := binary32_scaled 8388620 1 (by norm_num) (by norm_num)
    norm_num at h
    exact h
  have hc : DragonGameManager.calculateDamage veteranDragon youngDragon fireBreath =
      16777240 := by
    simp only [DragonGameManager.calculateDamage, hm]
    simp only [veteranDragon, youngDragon, fireBreath, BattleDragon.new]
    norm_num [h1, h2, h3, h4, staticCastInt]
  refine ⟨?_, hm, hb, ?_, hc, ?_⟩
  · simp [DragonGameManager.exec, veteranOps, DragonGameManager.step,
      DragonGameManager.createDragon, DragonGameManager.new, BattleDragon.new, veteranDragon,
      youngDragon]
  · simp only [veteranDragon, fireBreath, BattleDragon.new]
    norm_num [h1]
  · rw [hc, hb]
    simp [staticCastInt]

/-- C6 (amended): `calculateDamage` returns `max(1, v)` with `v` the integer value
(truncation toward zero) of the bracket computed in binary32: the int sum
`move.damage + attacker.attack` and the defense are converted to float and every float
operation rounds to nearest.  Whenever none of these operations rounds, and in particular
while `|move.damage + attacker.attack| ≤ 2 ^ 20` and `|defender.defense| ≤ 2 ^ 20`, `v` is
the integer value of
`(move.damage + attacker.attack - 0.5 * defender.defense) * getElementMultiplier(...)`:
`v` has the sign of that value and `|v| ≤ |value| < |v| + 1`.  The result is at least 1
for every input, also when the bracket is zero or negative. -/
theorem calculateDamage_is_max_one_trunc (attacker defender : BattleDragon)
    (move : BattleMove) :
    DragonGameManager.calculateDamage attacker defender move =
        max 1 (staticCastInt (binary32 (binary32
          (binary32 ((move.damage + attacker.attack : Int) : ℚ) -
            binary32 (binary32 (defender.defense : ℚ) * (1 / 2))) *
          DragonGameManager.getElementMultiplier move.element defender.element))) ∧
      (binary32 ((move.damage + attacker.attack : Int) : ℚ) =
          ((move.damage + attacker.attack : Int) : ℚ) →
        binary32 (defender.defense : ℚ) = (defender.defense : ℚ) →
        binary32 ((defender.defense : ℚ) * (1 / 2)) = (defender.defense : ℚ) * (1 / 2) →
        binary32 (((move.damage + attacker.attack : Int) : ℚ) -
            (defender.defense : ℚ) * (1 / 2)) =
          ((move.damage + attacker.attack : Int) : ℚ) - (defender.defense : ℚ) * (1 / 2) →
        binary32 ((((move.damage + attacker.attack : Int) : ℚ) -
            (defender.defense : ℚ) * (1 / 2)) *
              DragonGameManager.getElementMultiplier move.element defender.element) =
          (((move.damage + attacker.attack : Int) : ℚ) - (defender.defense : ℚ) * (1 / 2)) *
            DragonGameManager.getElementMultiplier move.element defender.element →
        DragonGameManager.calculateDamage attacker defender move =
          max 1 (staticCastInt (damageBracket attacker defender move))) ∧
      (|move.damage + attacker.attack| ≤ 2 ^ 20 → |defender.defense| ≤ 2 ^ 20 →
        ∃ v : Int,
          DragonGameManager.calculateDamage attacker defender move = max 1 v ∧
          |(v : ℚ)| ≤ |damageBracket attacker defender move| ∧
          |damageBracket attacker defender move| < |(v : ℚ)| + 1 ∧
          0 ≤ (v : ℚ) * damageBracket attacker defender move) ∧
      1 ≤ DragonGameManager.calculateDamage attacker defender move := by
  refine ⟨rfl, calculateDamage_of_exact attacker defender move, ?_, le_max_left _ _⟩
  intro hs hd
  refine ⟨staticCastInt (damageBracket attacker defender move),
    calculateDamage_eq_bracket attacker defender move hs hd, ?_, ?_, ?_⟩
  · rcases le_or_lt 0 (damageBracket attacker defender move) with h | h
    · obtain ⟨h1, _⟩ := staticCastInt_nonneg _ h
      have hv : (0 : ℚ) ≤ (staticCastInt (damageBracket attacker defender move) : ℚ) := by
        simp only [staticCastInt, if_pos h]
        exact_mod_cast Int.floor_nonneg.mpr h
      rw [abs_of_nonneg hv, abs_of_nonneg h]
      exact h1
    · obtain ⟨_, h2⟩ := staticCastInt_neg _ h
      have hv : (staticCastInt (damageBracket attacker defender move) : ℚ) ≤ 0 := by
        simp only [staticCastInt, if_neg (not_le.mpr h)]
        exact_mod_cast Int.ceil_le.mpr (by exact_mod_cast h.le)
      rw [abs_of_nonpos hv, abs_of_neg h]
      linarith
  · rcases le_or_lt 0 (damageBracket attacker defender move) with h | h
    · obtain ⟨_, h2⟩ := staticCastInt_nonneg _ h
      have hv : (0 : ℚ) ≤ (staticCastInt (damageBracket attacker defender move) : ℚ) := by
        simp only [staticCastInt, if_pos h]
        exact_mod_cast Int.floor_nonneg.mpr h
      rw [abs_of_nonneg hv, abs_of_nonneg h]
      exact h2
    · obtain ⟨h1, _⟩ := staticCastInt_neg _ h
      have hv : (staticCastInt (damageBracket attacker defender move) : ℚ) ≤ 0 := by
        simp only [staticCastInt, if_neg (not_le.mpr h)]
        exact_mod_cast Int.ceil_le.mpr (by exact_mod_cast h.le)
      rw [abs_of_nonpos hv, abs_of_neg h]
      linarith
  · rcases le_or_lt 0 (damageBracket attacker defender move) with h | h
    · have hv : (0 : ℚ) ≤ (staticCastInt (damageBracket attacker defender move) : ℚ) := by
        simp only [staticCastInt, if_pos h]
        exact_mod_cast Int.floor_nonneg.mpr h
      exact mul_nonneg hv h
    · have hv : (staticCastInt (damageBracket attacker defender move) : ℚ) ≤ 0 := by
        simp only [staticCastInt, if_neg (not_le.mpr h)]
        exact_mod_cast Int.ceil_le.mpr (by exact_mod_cast h.le)
      exact mul_nonneg_of_nonpos_of_nonpos hv h.le

theorem calculateDamage_is_max_one_trunc_witness :
    |fireBreath.damage + sampleAttacker.attack| ≤ 2 ^ 20 ∧
      |sampleDefender.defense| ≤ 2 ^ 20 ∧
      ∃ v : Int,
        DragonGameManager.calculateDamage sampleAttacker sampleDefender fireBreath =
          max 1 v ∧
        |(v : ℚ)| ≤ |damageBracket sampleAttacker sampleDefender fireBreath| :=
  have hs : |fireBreath.damage + sampleAttacker.attack| ≤ 2 ^ 20 := by decide
  have hd : |sampleDefender.defense| ≤ 2 ^ 20 := by decide
  match (calculateDamage_is_max_one_trunc sampleAttacker sampleDefender fireBreath).2.2.1
    hs hd with
  | ⟨v, h1, h2, _⟩ => ⟨hs, hd, v, h1, h2⟩

/-! ## Batch renderer -/

theorem Renderer.addCubes_snoc (r : Renderer) (cubes : List Cube) (c : Cube) :
    r.addCubes (cubes ++ [c]) = (r.addCubes cubes).addCubeToBatch c := by
  simp [Renderer.addCubes, List.foldl_append]

theorem Renderer.addCubes_drawCalls (r : Renderer) (cubes : List Cube) :
    (r.addCubes cubes).drawCalls = r.drawCalls := by
  induction cubes using List.reverseRecOn with
  | nil => rfl
  | append_singleton cs c ih => rw [Renderer.addCubes_snoc]; exact ih

theorem Renderer.addCubes_vertices_length (r : Renderer) (cubes : List Cube) :
    (r.addCubes cubes).batchVertices_.length = r.batchVertices_.length + 24 * cubes.length := by
  induction cubes using List.reverseRecOn with
  | nil => rfl
  | append_singleton cs c ih =>
    rw [Renderer.addCubes_snoc]
    simp only [Renderer.addCubeToBatch, List.length_append, ih, Renderer.cubeVerts,
      List.length_cons, List.length_nil]
    omega

theorem Renderer.offsetIndices_length (offset : Nat) :
    (Renderer.offsetIndices offset).length = 36 := by
  simp [Renderer.offsetIndices, Renderer.cubeIndices]

theorem Renderer.addCubes_indices_length (r : Renderer) (cubes : List Cube) :
    (r.addCubes cubes).batchIndices_.length = r.batchIndices_.length + 36 * cubes.length := by
  induction cubes using List.reverseRecOn with
  | nil => rfl
  | append_singleton cs c ih =>
    rw [Renderer.addCubes_snoc]
    simp only [Renderer.addCubeToBatch, List.length_append, ih, Renderer.offsetIndices_length,
      List.length_cons, List.length_nil]
    omega

theorem Renderer.addCubes_offset (r : Renderer) (cubes : List Cube) :
    ((r.beginBatch).addCubes cubes).batchIndexOffset_ = (24 * cubes.length) % uintModulus := by
  induction cubes using List.reverseRecOn with
  | nil => rfl
  | append_singleton cs c ih =>
    rw [Renderer.addCubes_snoc]
    simp only [Renderer.addCubeToBatch, ih, List.length_append, List.length_cons,
      List.length_nil]
    unfold uintModulus
    omega

theorem Renderer.batch_drawCalls (r : Renderer) (cubes : List Cube) :
    (r.batch cubes).drawCalls =
      if cubes.isEmpty then r.drawCalls
      else r.drawCalls ++
        [{ vertices := ((r.beginBatch).addCubes cubes).batchVertices_,
           indices := ((r.beginBatch).addCubes cubes).batchIndices_ }] := by
  have hlen := Renderer.addCubes_vertices_length r.beginBatch cubes
  have hdc := Renderer.addCubes_drawCalls r.beginBatch cubes
  cases cubes with
  | nil => rfl
  | cons c cs =>
    have hne : ((r.beginBatch).addCubes (c :: cs)).batchVertices_.isEmpty = false := by
      cases hv : ((r.beginBatch).addCubes (c :: cs)).batchVertices_ with
      | nil => rw [hv] at hlen; simp [Renderer.beginBatch] at hlen
      | cons _ _ => rfl
    simp only [Renderer.batch, Renderer.endBatch, hne, hdc, List.isEmpty_cons]
    simp [Renderer.beginBatch]

/-- C7 (counterexample): one `beginBatch` / `endBatch` pair in which no cube is added
issues no draw call, so after one pair the number of draw calls (0) differs from the
number of pairs (1); `EntityManager::render` with an empty entity list is such a pair. -/
theorem empty_batch_issues_no_draw_call :
    (Renderer.new.batches [[]]).drawCalls.length = 0 ∧
      (Renderer.new.batches [[]]).drawCalls.length ≠
        Renderer.new.drawCalls.length + [([] : List Cube)].length ∧
      (EntityManager.render goblinRender [] Renderer.new).drawCalls.length = 0 := by
  refine ⟨rfl, ?_, rfl⟩
  decide

/-- C7 (amended): for every sequence of `beginBatch` / `endBatch` pairs, the number of
draw calls issued equals the number of pairs in which at least one cube was added,
independent of how many cubes each of those pairs holds; a pair in which no cube was
added issues no draw call. -/
theorem draw_calls_eq_nonempty_batches (r : Renderer) (passes : List (List Cube)) :
    (r.batches passes).drawCalls.length =
      r.drawCalls.length + (passes.filter fun cubes => !cubes.isEmpty).length := by
  induction passes generalizing r with
  | nil => rfl
  | cons cubes rest ih =>
    have hstep : (r.batches (cubes :: rest)) = (r.batch cubes).batches rest := rfl
    rw [hstep, ih, Renderer.batch_drawCalls]
    cases cubes with
    | nil => simp
    | cons c cs => simp; omega

theorem Renderer.cubeIndices_lt (j : Nat) (hj : j < 36) :
    ∃ c, Renderer.cubeIndices[j]? = some c ∧ c < 24 := by
  unfold Renderer.cubeIndices
  interval_cases j <;> simp

theorem Renderer.addCubes_index_block (r : Renderer) (cubes : List Cube)
    (h : 24 * cubes.length ≤ uintModulus) (k j : Nat) (hk : k < cubes.length) (hj : j < 36) :
    ∃ i, ((r.beginBatch).addCubes cubes).batchIndices_[36 * k + j]? = some i ∧
      24 * k ≤ i ∧ i < 24 * k + 24 := by
  induction cubes using List.reverseRecOn with
  | nil => simp at hk
  | append_singleton cs c ih =>
    have hlen : ((r.beginBatch).addCubes cs).batchIndices_.length = 36 * cs.length := by
      rw [Renderer.addCubes_indices_length]; simp [Renderer.beginBatch]
    have hoff := Renderer.addCubes_offset r cs
    simp only [List.length_append, List.length_cons, List.length_nil] at h hk
    rw [Renderer.addCubes_snoc]
    simp only [Renderer.addCubeToBatch]
    rcases Nat.lt_or_ge k cs.length with hlt | hge
    · obtain ⟨i, hi, hb⟩ := ih (by omega) hlt
      refine ⟨i, ?_, hb⟩
      rw [List.getElem?_append_left (by omega)]
      exact hi
    · have hkeq : k = cs.length := by omega
      obtain ⟨c0, hc0, hc24⟩ := Renderer.cubeIndices_lt j hj
      have hmod : (24 * cs.length) % uintModulus = 24 * cs.length :=
        Nat.mod_eq_of_lt (by omega)
      refine ⟨c0 + 24 * k, ?_, by omega, by omega⟩
      rw [List.getElem?_append_right (by omega), hlen, hoff, hmod, hkeq]
      have hidx : 36 * cs.length + j - 36 * cs.length = j := by omega
      rw [hidx]
      simp only [Renderer.offsetIndices, List.getElem?_map, hc0, Option.map_some']
      congr 1
      exact Nat.mod_eq_of_lt (by omega)

theorem Renderer.addCubes_indices_extend (r : Renderer) (xs ys : List Cube) :
    ∃ rest, (r.addCubes (xs ++ ys)).batchIndices_ = (r.addCubes xs).batchIndices_ ++ rest := by
  induction ys using List.reverseRecOn with
  | nil => exact ⟨[], by simp⟩
  | append_singleton ys c ih =>
    obtain ⟨rest, hrest⟩ := ih
    rw [← List.append_assoc, Renderer.addCubes_snoc]
    simp only [Renderer.addCubeToBatch]
    exact ⟨rest ++ Renderer.offsetIndices (r.addCubes (xs ++ ys)).batchIndexOffset_,
      by rw [hrest, List.append_assoc]⟩

/-- The indices of cube `k` lie in `[24 * k, 24 * k + 24)` as long as `24 * (k + 1)` does
not exceed the range of `unsigned int`, whatever is added to the batch after it. -/
theorem Renderer.addCubes_index_range (r : Renderer) (cubes : List Cube) (k j : Nat)
    (hk : k < cubes.length) (hj : j < 36) (hb : 24 * (k + 1) ≤ uintModulus) :
    ∃ i, ((r.beginBatch).addCubes cubes).batchIndices_[36 * k + j]? = some i ∧
      24 * k ≤ i ∧ i < 24 * k + 24 := by
  have hlen : (cubes.take (k + 1)).length = k + 1 := by
    rw [List.length_take]; omega
  obtain ⟨i, hi, hrange⟩ := Renderer.addCubes_index_block r (cubes.take (k + 1))
    (by rw [hlen]; exact hb) k j (by omega) hj
  obtain ⟨rest, hrest⟩ := Renderer.addCubes_indices_extend r.beginBatch (cubes.take (k + 1))
    (cubes.drop (k + 1))
  rw [List.take_append_drop] at hrest
  have hl : ((r.beginBatch).addCubes (cubes.take (k + 1))).batchIndices_.length =
      36 * (k + 1) := by
    rw [Renderer.addCubes_indices_length, hlen]; simp [Renderer.beginBatch]
  refine ⟨i, ?_, hrange⟩
  rw [hrest, List.getElem?_append_left (by omega)]
  exact hi

/-- C8: after `beginBatch()` followed by `n` calls of `addCubeToBatch`, the vertex
accumulator holds exactly `24 * n` vertices and the index accumulator exactly `36 * n`
indices, for every `n`; the 36 indices appended by the k-th call (positions
`36 * k .. 36 * k + 35`, `k = 0 .. n - 1`) all lie in `[24 * k, 24 * k + 24)`, for every
cube `k` whose vertex numbers fit the `unsigned int` index type (`24 * (k + 1) ≤ 2 ^ 32`,
which holds for every batch that fits into memory: a cube takes 24 vertices of 40 bytes);
for `n = 3` the following `endBatch` issues exactly one draw call, submitting 72 vertices
and 108 indices. -/
theorem addCubeToBatch_accumulates (r : Renderer) (cubes : List Cube) :
    ((r.beginBatch).addCubes cubes).batchVertices_.length = 24 * cubes.length ∧
      ((r.beginBatch).addCubes cubes).batchIndices_.length = 36 * cubes.length ∧
      (∀ k j : Nat, k < cubes.length → j < 36 → 24 * (k + 1) ≤ uintModulus →
        ∃ i, ((r.beginBatch).addCubes cubes).batchIndices_[36 * k + j]? = some i ∧
          24 * k ≤ i ∧ i < 24 * k + 24) ∧
      (cubes.length = 3 →
        ∃ dc : DrawCall, (r.batch cubes).drawCalls = r.drawCalls ++ [dc] ∧
          dc.vertices.length = 72 ∧ dc.indices.length = 108) := by
  have hv : ((r.beginBatch).addCubes cubes).batchVertices_.length = 24 * cubes.length := by
    rw [Renderer.addCubes_vertices_length]; simp [Renderer.beginBatch]
  have hi : ((r.beginBatch).addCubes cubes).batchIndices_.length = 36 * cubes.length := by
    rw [Renderer.addCubes_indices_length]; simp [Renderer.beginBatch]
  refine ⟨hv, hi, fun k j hk hj hb => Renderer.addCubes_index_range r cubes k j hk hj hb, ?_⟩
  intro h3
  refine ⟨{ vertices := ((r.beginBatch).addCubes cubes).batchVertices_,
            indices := ((r.beginBatch).addCubes cubes).batchIndices_ }, ?_, ?_, ?_⟩
  · rw [Renderer.batch_drawCalls]
    have hne : cubes.isEmpty = false := by
      cases cubes with
      | nil => simp at h3
      | cons _ _ => rfl
    rw [hne]
    rfl
  · simp only [hv, h3]
  · simp only [hi, h3]

theorem addCubeToBatch_accumulates_witness :
    ((Renderer.new.beginBatch).addCubes
        [unitCube, unitCube, unitCube]).batchVertices_.length = 72 ∧
      (∃ i, ((Renderer.new.beginBatch).addCubes
          [unitCube, unitCube, unitCube]).batchIndices_[36 * 2 + 35]? = some i ∧
        24 * 2 ≤ i ∧ i < 24 * 2 + 24) ∧
      ∃ dc : DrawCall,
        (Renderer.new.batch [unitCube, unitCube, unitCube]).drawCalls =
          Renderer.new.drawCalls ++ [dc] ∧
        dc.vertices.length = 72 ∧ dc.indices.length = 108 :=
  ⟨(addCubeToBatch_accumulates Renderer.new [unitCube, unitCube, unitCube]).1,
    (addCubeToBatch_accumulates Renderer.new [unitCube, unitCube, unitCube]).2.2.1 2 35
      (by decide) (by decide) (by simp [uintModulus]),
    (addCubeToBatch_accumulates Renderer.new [unitCube, unitCube, unitCube]).2.2.2 rfl⟩

/-! ## Chunk store -/

theorem ChunkCoord.lt_iff (a b : ChunkCoord) :
    a.lt b = true ↔ a.x < b.x ∨ (a.x = b.x ∧ a.z < b.z) := by
  unfold ChunkCoord.lt
  by_cases h : a.x = b.x
  · simp [h]
  · simp [h]

theorem ChunkCoord.lt_irrefl (a : ChunkCoord) : a.lt a = false := by
  simp [ChunkCoord.lt]

theorem ChunkCoord.eq_of_not_lt (a b : ChunkCoord) (h1 : a.lt b = false)
    (h2 : b.lt a = false) : a = b := by
  have h1n : ¬ (a.lt b = true) := by simp [h1]
  have h2n : ¬ (b.lt a = true) := by simp [h2]
  rw [ChunkCoord.lt_iff] at h1n h2n
  obtain ⟨ax, az⟩ := a
  obtain ⟨bx, bz⟩ := b
  simp only at h1n h2n
  have hx : ax = bx := by omega
  have hz : az = bz := by omega
  rw [hx, hz]

theorem ChunkCoord.lt_trans (a b c : ChunkCoord) (h1 : a.lt b = true) (h2 : b.lt c = true) :
    a.lt c = true := by
  rw [ChunkCoord.lt_iff] at h1 h2 ⊢
  omega

theorem ChunkMap.find_nil (c : ChunkCoord) : ChunkMap.find [] c = none := rfl

theorem ChunkMap.find_cons (k : ChunkCoord) (v : Chunk) (rest : ChunkMap) (c : ChunkCoord) :
    ChunkMap.find ((k, v) :: rest) c = if c = k then some v else ChunkMap.find rest c := by
  unfold ChunkMap.find
  rw [List.lookup_cons]
  by_cases h : c = k
  · simp [h]
  · have hb : (c == k) = false := by simpa using h
    simp [h, hb]

theorem ChunkMap.find_assign (m : ChunkMap) (c c2 : ChunkCoord) (ch : Chunk) :
    (m.assign c ch).find c2 = if c2 = c then some ch else m.find c2 := by
  induction m with
  | nil => simp [ChunkMap.assign, ChunkMap.find_cons, ChunkMap.find_nil]
  | cons e rest ih =>
    obtain ⟨k, v⟩ := e
    simp only [ChunkMap.assign]
    by_cases h1 : c.lt k = true
    · rw [if_pos h1, ChunkMap.find_cons]
    · have h1f : c.lt k = false := by simpa using h1
      by_cases h2 : k.lt c = true
      · rw [if_neg h1, if_pos h2, ChunkMap.find_cons, ChunkMap.find_cons, ih]
        have hne : ¬ c = k := by
          intro hkc
          rw [hkc, ChunkCoord.lt_irrefl] at h2
          exact Bool.noConfusion h2
        by_cases hc : c2 = c
        · subst hc
          simp [hne]
        · simp [hc]
      · have h2f : k.lt c = false := by simpa using h2
        have hkc : c = k := ChunkCoord.eq_of_not_lt c k h1f h2f
        subst hkc
        rw [if_neg h1, if_neg h2, ChunkMap.find_cons, ChunkMap.find_cons]
        by_cases hc : c2 = c
        · simp [hc]
        · simp [hc]

theorem ChunkMap.find_filter (m : ChunkMap) (q : ChunkCoord → Bool) (c : ChunkCoord) :
    ChunkMap.find (List.filter (fun e => q e.1) m) c = if q c then m.find c else none := by
  induction m with
  | nil => simp [ChunkMap.find_nil]
  | cons e rest ih =>
    obtain ⟨k, v⟩ := e
    by_cases hk : q k = true
    · rw [List.filter_cons_of_pos (by simpa using hk), ChunkMap.find_cons, ChunkMap.find_cons, ih]
      by_cases hc : c = k
      · subst hc; simp [hk]
      · simp [hc]
    · have hkf : q k = false := by simpa using hk
      rw [List.filter_cons_of_neg (by simpa using hkf), ChunkMap.find_cons, ih]
      by_cases hc : c = k
      · subst hc; simp [hkf]
      · simp [hc]

theorem ChunkMap.mem_of_find (m : ChunkMap) (c : ChunkCoord) (ch : Chunk)
    (h : m.find c = some ch) : (c, ch) ∈ m := by
  induction m with
  | nil => simp [ChunkMap.find_nil] at h
  | cons e rest ih =>
    obtain ⟨k, v⟩ := e
    rw [ChunkMap.find_cons] at h
    by_cases hc : c = k
    · subst hc
      simp at h
      subst h
      exact List.mem_cons_self _ _
    · simp [hc] at h
      exact List.mem_cons_of_mem _ (ih h)

theorem ChunkMap.find_isSome_of_mem (m : ChunkMap) (e : ChunkCoord × Chunk) (h : e ∈ m) :
    (m.find e.1).isSome = true := by
  induction m with
  | nil => simp at h
  | cons e2 rest ih =>
    obtain ⟨k, v⟩ := e2
    rw [ChunkMap.find_cons]
    by_cases hc : e.1 = k
    · simp [hc]
    · simp only [hc, if_false]
      rcases List.mem_cons.mp h with h1 | h1
      · exact absurd (by rw [h1]) hc
      · exact ih h1

theorem ChunkMap.mem_assign (m : ChunkMap) (c : ChunkCoord) (ch : Chunk)
    (e : ChunkCoord × Chunk) (h : e ∈ m.assign c ch) : e = (c, ch) ∨ e ∈ m := by
  induction m with
  | nil => simpa [ChunkMap.assign] using h
  | cons e2 rest ih =>
    obtain ⟨k, v⟩ := e2
    simp only [ChunkMap.assign] at h
    split_ifs at h with h1 h2
    · rcases List.mem_cons.mp h with h3 | h3
      · exact Or.inl h3
      · exact Or.inr h3
    · rcases List.mem_cons.mp h with h3 | h3
      · exact Or.inr (h3 ▸ List.mem_cons_self _ _)
      · rcases ih h3 with h4 | h4
        · exact Or.inl h4
        · exact Or.inr (List.mem_cons_of_mem _ h4)
    · rcases List.mem_cons.mp h with h3 | h3
      · exact Or.inl h3
      · exact Or.inr (List.mem_cons_of_mem _ h3)

theorem ChunkMap.assign_wf (m : ChunkMap) (c : ChunkCoord) (ch : Chunk) (h : m.WF) :
    (m.assign c ch).WF := by
  induction m with
  | nil => simp [ChunkMap.assign, ChunkMap.WF]
  | cons e rest ih =>
    obtain ⟨k, v⟩ := e
    unfold ChunkMap.WF at h ih ⊢
    rw [List.pairwise_cons] at h
    obtain ⟨hk, hrest⟩ := h
    simp only [ChunkMap.assign]
    by_cases h1 : c.lt k = true
    · simp only [h1, if_true]
      refine List.pairwise_cons.mpr ⟨?_, List.pairwise_cons.mpr ⟨hk, hrest⟩⟩
      intro e he
      rcases List.mem_cons.mp he with h3 | h3
      · rw [h3]; exact h1
      · exact ChunkCoord.lt_trans _ _ _ h1 (hk e h3)
    · have h1f : c.lt k = false := by simpa using h1
      by_cases h2 : k.lt c = true
      · simp only [h1f, h2, if_true]
        refine List.pairwise_cons.mpr ⟨?_, ih hrest⟩
        intro e he
        rcases ChunkMap.mem_assign rest c ch e he with h3 | h3
        · rw [h3]; exact h2
        · exact hk e h3
      · have h2f : k.lt c = false := by simpa using h2
        have hkc : c = k := ChunkCoord.eq_of_not_lt c k h1f h2f
        subst hkc
        simp only [h1f]
        exact List.pairwise_cons.mpr ⟨hk, hrest⟩

theorem ChunkMap.keys_nodup_of_wf (m : ChunkMap) (h : m.WF) : (m.map Prod.fst).Nodup := by
  unfold ChunkMap.WF at h
  unfold List.Nodup
  rw [List.pairwise_map]
  refine List.Pairwise.imp ?_ h
  intro a b hab heq
  rw [heq, ChunkCoord.lt_irrefl] at hab
  exact Bool.noConfusion hab

/-! ## Chunk streaming -/

theorem mem_intRange (lo hi i : Int) : i ∈ intRange lo hi ↔ lo ≤ i ∧ i ≤ hi := by
  unfold intRange
  rw [List.mem_map]
  constructor
  · rintro ⟨n, hn, rfl⟩
    rw [List.mem_range] at hn
    omega
  · rintro ⟨h1, h2⟩
    refine ⟨(i - lo).toNat, ?_, ?_⟩
    · rw [List.mem_range]; omega
    · omega

theorem ChunkTerrain.mem_coordsAround (pc c : ChunkCoord) (rd : Int) :
    c ∈ ChunkTerrain.coordsAround pc rd ↔ chunkDist c pc ≤ rd := by
  unfold ChunkTerrain.coordsAround chunkDist
  rw [List.mem_flatMap, max_le_iff, abs_le, abs_le]
  constructor
  · rintro ⟨x, hx, hc⟩
    rw [List.mem_map] at hc
    obtain ⟨z, hz, rfl⟩ := hc
    rw [mem_intRange] at hx hz
    simp only
    omega
  · rintro ⟨⟨h1, h2⟩, ⟨h3, h4⟩⟩
    refine ⟨c.x - pc.x, (mem_intRange _ _ _).mpr ⟨h1, h2⟩, ?_⟩
    rw [List.mem_map]
    refine ⟨c.z - pc.z, (mem_intRange _ _ _).mpr ⟨h3, h4⟩, ?_⟩
    obtain ⟨cx, cz⟩ := c
    simp only [ChunkCoord.mk.injEq]
    omega

theorem ChunkTerrain.generateIfAbsent_fields (lib : MathLib) (t : ChunkTerrain)
    (k : ChunkCoord) :
    (ChunkTerrain.generateIfAbsent lib t k).chunkSize_ = t.chunkSize_ ∧
      (ChunkTerrain.generateIfAbsent lib t k).maxHeight_ = t.maxHeight_ ∧
      (ChunkTerrain.generateIfAbsent lib t k).renderDistance_ = t.renderDistance_ ∧
      (ChunkTerrain.generateIfAbsent lib t k).lastPlayerChunk_ = t.lastPlayerChunk_ := by
  unfold ChunkTerrain.generateIfAbsent ChunkTerrain.generateChunk
  split <;> simp

theorem ChunkTerrain.generateAll_fields (lib : MathLib) (cs : List ChunkCoord)
    (t : ChunkTerrain) :
    (cs.foldl (ChunkTerrain.generateIfAbsent lib) t).chunkSize_ = t.chunkSize_ ∧
      (cs.foldl (ChunkTerrain.generateIfAbsent lib) t).maxHeight_ = t.maxHeight_ ∧
      (cs.foldl (ChunkTerrain.generateIfAbsent lib) t).renderDistance_ = t.renderDistance_ ∧
      (cs.foldl (ChunkTerrain.generateIfAbsent lib) t).lastPlayerChunk_ =
        t.lastPlayerChunk_ := by
  induction cs generalizing t with
  | nil => exact ⟨rfl, rfl, rfl, rfl⟩
  | cons k rest ih =>
    obtain ⟨h1, h2, h3, h4⟩ := ih (ChunkTerrain.generateIfAbsent lib t k)
    obtain ⟨g1, g2, g3, g4⟩ := ChunkTerrain.generateIfAbsent_fields lib t k
    simp only [List.foldl_cons]
    exact ⟨h1.trans g1, h2.trans g2, h3.trans g3, h4.trans g4⟩

theorem ChunkTerrain.generateIfAbsent_keeps (lib : MathLib) (t : ChunkTerrain)
    (k c : ChunkCoord) (ch : Chunk) (h : t.chunks_.find c = some ch) :
    (ChunkTerrain.generateIfAbsent lib t k).chunks_.find c = some ch := by
  unfold ChunkTerrain.generateIfAbsent
  by_cases hk : (t.chunks_.find k).isNone = true
  · rw [if_pos hk]
    simp only [ChunkTerrain.generateChunk]
    rw [ChunkMap.find_assign]
    have hne : ¬ c = k := by
      intro hck
      rw [hck] at h
      rw [h] at hk
      simp at hk
    rw [if_neg hne]
    exact h
  · rw [if_neg hk]
    exact h

theorem ChunkTerrain.generateIfAbsent_present (lib : MathLib) (t : ChunkTerrain)
    (k : ChunkCoord) : ((ChunkTerrain.generateIfAbsent lib t k).chunks_.find k).isSome = true := by
  unfold ChunkTerrain.generateIfAbsent
  by_cases hk : (t.chunks_.find k).isNone = true
  · rw [if_pos hk]
    simp only [ChunkTerrain.generateChunk]
    rw [ChunkMap.find_assign]
    simp
  · rw [if_neg hk]
    cases hf : t.chunks_.find k with
    | none => rw [hf] at hk; simp at hk
    | some _ => rfl

theorem ChunkTerrain.generateAll_keeps (lib : MathLib) (cs : List ChunkCoord)
    (t : ChunkTerrain) (c : ChunkCoord) (ch : Chunk) (h : t.chunks_.find c = some ch) :
    (cs.foldl (ChunkTerrain.generateIfAbsent lib) t).chunks_.find c = some ch := by
  induction cs generalizing t with
  | nil => exact h
  | cons k rest ih =>
    exact ih (ChunkTerrain.generateIfAbsent lib t k)
      (ChunkTerrain.generateIfAbsent_keeps lib t k c ch h)

theorem ChunkTerrain.generateAll_present (lib : MathLib) (cs : List ChunkCoord)
    (t : ChunkTerrain) (c : ChunkCoord) (h : c ∈ cs) :
    ((cs.foldl (ChunkTerrain.generateIfAbsent lib) t).chunks_.find c).isSome = true := by
  induction cs generalizing t with
  | nil => simp at h
  | cons k rest ih =>
    simp only [List.foldl_cons]
    by_cases hck : c = k
    · subst hck
      have hp := ChunkTerrain.generateIfAbsent_present lib t c
      cases hf : (ChunkTerrain.generateIfAbsent lib t c).chunks_.find c with
      | none => rw [hf] at hp; simp at hp
      | some ch => rw [ChunkTerrain.generateAll_keeps lib rest _ c ch hf]; rfl
    · rcases List.mem_cons.mp h with h1 | h1
      · exact absurd h1 hck
      · exact ih _ h1

theorem ChunkTerrain.generateAll_id (lib : MathLib) (cs : List ChunkCoord) (t : ChunkTerrain)
    (h : ∀ c ∈ cs, (t.chunks_.find c).isSome = true) :
    cs.foldl (ChunkTerrain.generateIfAbsent lib) t = t := by
  induction cs with
  | nil => rfl
  | cons k rest ih =>
    have hk := h k (List.mem_cons_self _ _)
    have hstep : ChunkTerrain.generateIfAbsent lib t k = t := by
      unfold ChunkTerrain.generateIfAbsent
      cases hf : t.chunks_.find k with
      | none => rw [hf] at hk; simp at hk
      | some _ => simp
    simp only [List.foldl_cons, hstep]
    exact ih (fun c hc => h c (List.mem_cons_of_mem _ hc))

theorem ChunkTerrain.generateAll_wf (lib : MathLib) (cs : List ChunkCoord) (t : ChunkTerrain)
    (h : t.chunks_.WF) : (cs.foldl (ChunkTerrain.generateIfAbsent lib) t).chunks_.WF := by
  induction cs generalizing t with
  | nil => exact h
  | cons k rest ih =>
    apply ih
    unfold ChunkTerrain.generateIfAbsent
    split
    · exact ChunkMap.assign_wf _ _ _ h
    · exact h

theorem ChunkTerrain.update_eq (lib : MathLib) (t : ChunkTerrain) (p : Vec3) :
    t.update lib p =
      { chunkSize_ := t.chunkSize_, maxHeight_ := t.maxHeight_,
        renderDistance_ := t.renderDistance_,
        chunks_ := List.filter
          (fun e => !decide (chunkDist e.1 (t.worldToChunk p.x p.z) > t.renderDistance_ + 2))
          ((ChunkTerrain.coordsAround (t.worldToChunk p.x p.z) t.renderDistance_).foldl
            (ChunkTerrain.generateIfAbsent lib) t).chunks_,
        lastPlayerChunk_ := t.worldToChunk p.x p.z } := by
  obtain ⟨h1, h2, h3, _⟩ := ChunkTerrain.generateAll_fields lib
    (ChunkTerrain.coordsAround (t.worldToChunk p.x p.z) t.renderDistance_) t
  simp only [ChunkTerrain.update, ChunkTerrain.unloadDistantChunks, ChunkTerrain.worldToChunk,
    h1, h2, h3] at *

theorem ChunkTerrain.update_find (lib : MathLib) (t : ChunkTerrain) (p : Vec3)
    (c : ChunkCoord) :
    (t.update lib p).chunks_.find c =
      if chunkDist c (t.worldToChunk p.x p.z) ≤ t.renderDistance_ + 2 then
        ((ChunkTerrain.coordsAround (t.worldToChunk p.x p.z) t.renderDistance_).foldl
          (ChunkTerrain.generateIfAbsent lib) t).chunks_.find c
      else none := by
  rw [ChunkTerrain.update_eq]
  have hf := ChunkMap.find_filter
    ((ChunkTerrain.coordsAround (t.worldToChunk p.x p.z) t.renderDistance_).foldl
      (ChunkTerrain.generateIfAbsent lib) t).chunks_
    (fun k => !decide (chunkDist k (t.worldToChunk p.x p.z) > t.renderDistance_ + 2)) c
  simp only at hf
  rw [hf]
  by_cases hd : chunkDist c (t.worldToChunk p.x p.z) ≤ t.renderDistance_ + 2
  · have hn : ¬ chunkDist c (t.worldToChunk p.x p.z) > t.renderDistance_ + 2 := not_lt.mpr hd
    simp [hd, hn]
  · have hn : chunkDist c (t.worldToChunk p.x p.z) > t.renderDistance_ + 2 := not_le.mp hd
    simp [hd, hn]

/-- C2: for every chunk store, player position `p` and `renderDistance ≥ 0`
(`chunkSize > 0`): after `ChunkTerrain::update(p)` every chunk coordinate at Chebyshev
distance `≤ renderDistance` from `worldToChunk(p)` is present in the store, and no stored
chunk coordinate has Chebyshev distance `> renderDistance + 2` from `worldToChunk(p)`. -/
theorem update_loads_near_and_evicts_far (lib : MathLib) (t : ChunkTerrain) (p : Vec3)
    (_hrd : 0 ≤ t.renderDistance_) (_hcs : 0 < t.chunkSize_) :
    (∀ c : ChunkCoord, chunkDist c (t.worldToChunk p.x p.z) ≤ t.renderDistance_ →
        ((t.update lib p).chunks_.find c).isSome = true) ∧
      (∀ e ∈ (t.update lib p).chunks_,
        ¬ chunkDist e.1 (t.worldToChunk p.x p.z) > t.renderDistance_ + 2) := by
  constructor
  · intro c hc
    rw [ChunkTerrain.update_find, if_pos (by omega)]
    exact ChunkTerrain.generateAll_present lib _ t c
      ((ChunkTerrain.mem_coordsAround _ _ _).mpr hc)
  · intro e he
    rw [ChunkTerrain.update_eq] at he
    simp only [List.mem_filter] at he
    simpa using he.2

theorem update_loads_near_and_evicts_far_witness :
    0 ≤ sampleTerrain.renderDistance_ ∧ 0 < sampleTerrain.chunkSize_ ∧
      ((sampleTerrain.update flatLib origin).chunks_.find { x := 1, z := -1 }).isSome = true :=
  have h1 : 0 ≤ sampleTerrain.renderDistance_ := by decide
  have h2 : 0 < sampleTerrain.chunkSize_ := by decide
  have h3 : chunkDist { x := 1, z := -1 }
      (sampleTerrain.worldToChunk origin.x origin.z) ≤ sampleTerrain.renderDistance_ := by
    simp [chunkDist, ChunkTerrain.worldToChunk, sampleTerrain, ChunkTerrain.new, origin,
      staticCastInt]
  ⟨h1, h2, (update_loads_near_and_evicts_far flatLib sampleTerrain origin h1 h2).1 _ h3⟩

/-- C3: every chunk that is stored before `ChunkTerrain::update(p)` and whose coordinate
has Chebyshev distance `≤ renderDistance + 2` from `worldToChunk(p)` is still stored after
the call with exactly the same content; a stored chunk is removed only if its distance
exceeds `renderDistance + 2`, and an existing chunk is never regenerated. -/
theorem update_keeps_near_chunks (lib : MathLib) (t : ChunkTerrain) (p : Vec3)
    (c : ChunkCoord) (ch : Chunk) (h : t.chunks_.find c = some ch) :
    (chunkDist c (t.worldToChunk p.x p.z) ≤ t.renderDistance_ + 2 →
        (t.update lib p).chunks_.find c = some ch) ∧
      ((t.update lib p).chunks_.find c = none →
        chunkDist c (t.worldToChunk p.x p.z) > t.renderDistance_ + 2) ∧
      (∀ ch2 : Chunk, (t.update lib p).chunks_.find c = some ch2 → ch2 = ch) := by
  have hkeep := ChunkTerrain.generateAll_keeps lib
    (ChunkTerrain.coordsAround (t.worldToChunk p.x p.z) t.renderDistance_) t c ch h
  have hfind := ChunkTerrain.update_find lib t p c
  rw [hkeep] at hfind
  refine ⟨?_, ?_, ?_⟩
  · intro hd
    rw [hfind, if_pos hd]
  · intro hnone
    by_contra hd
    rw [hfind, if_pos (not_lt.mp hd)] at hnone
    exact Option.noConfusion hnone
  · intro ch2 h2
    rw [hfind] at h2
    split_ifs at h2
    exact (Option.some.inj h2).symm

theorem update_keeps_near_chunks_witness :
    sampleTerrain.chunks_.find { x := 0, z := 0 } = some sampleChunk ∧
      (sampleTerrain.update flatLib origin).chunks_.find { x := 0, z := 0 } =
        some sampleChunk :=
  have h : sampleTerrain.chunks_.find { x := 0, z := 0 } = some sampleChunk := by
    simp [sampleTerrain, ChunkMap.find, List.lookup]
  have hd : chunkDist { x := 0, z := 0 } (sampleTerrain.worldToChunk origin.x origin.z) ≤
      sampleTerrain.renderDistance_ + 2 := by
    simp [chunkDist, ChunkTerrain.worldToChunk, sampleTerrain, ChunkTerrain.new, origin,
      staticCastInt]
  ⟨h, (update_keeps_near_chunks flatLib sampleTerrain origin _ _ h).1 hd⟩

/-- C4: for every chunk store (a `std::map`, keys strictly increasing) and player position
`p`, calling `ChunkTerrain::update(p)` twice in a row yields the same terrain state as
calling it once (the second call generates and evicts nothing), and the store after
`update` again has strictly increasing keys: no coordinate has two chunks. -/
theorem update_twice_eq_update_once (lib : MathLib) (t : ChunkTerrain) (p : Vec3)
    (hwf : t.chunks_.WF) :
    (t.update lib p).update lib p = t.update lib p ∧
      (t.update lib p).chunks_.WF ∧
      ((t.update lib p).chunks_.map Prod.fst).Nodup := by
  have hwf2 : (t.update lib p).chunks_.WF := by
    rw [ChunkTerrain.update_eq]
    exact List.Pairwise.sublist (List.filter_sublist _)
      (ChunkTerrain.generateAll_wf lib _ t hwf)
  refine ⟨?_, hwf2, ChunkMap.keys_nodup_of_wf _ hwf2⟩
  have hpc : (t.update lib p).worldToChunk p.x p.z = t.worldToChunk p.x p.z := by
    rw [ChunkTerrain.update_eq]; rfl
  have hrd : (t.update lib p).renderDistance_ = t.renderDistance_ := by
    rw [ChunkTerrain.update_eq]
  have hpresent : ∀ c ∈ ChunkTerrain.coordsAround (t.worldToChunk p.x p.z) t.renderDistance_,
      ((t.update lib p).chunks_.find c).isSome = true := by
    intro c hc
    have hd := (ChunkTerrain.mem_coordsAround _ _ _).mp hc
    rw [ChunkTerrain.update_find, if_pos (by omega)]
    exact ChunkTerrain.generateAll_present lib _ t c hc
  have hid := ChunkTerrain.generateAll_id lib _ (t.update lib p) hpresent
  rw [ChunkTerrain.update_eq lib (t.update lib p) p, hpc, hrd, hid]
  rw [ChunkTerrain.update_eq lib t p]
  simp only [List.filter_filter, Bool.and_self]

theorem update_twice_eq_update_once_witness :
    sampleTerrain.chunks_.WF ∧
      (sampleTerrain.update flatLib origin).update flatLib origin =
        sampleTerrain.update flatLib origin :=
  have h : sampleTerrain.chunks_.WF := by
    simp [ChunkMap.WF, sampleTerrain]
  ⟨h, (update_twice_eq_update_once flatLib sampleTerrain origin h).1⟩

/-! ## Dragon game manager: invalid ids -/

theorem idOutOfRange_of (id : Int) (size : Nat) (h : id < 0 ∨ (size : Int) ≤ id) :
    idOutOfRange id size = true := by
  unfold idOutOfRange
  rcases h with h | h
  · simp [h]
  · simp [h]

/-- C9: for every manager state and every id that is negative or `≥` the size of the
owning collection: `updateEgg`, `updateBreeding`, `updateTraining`, `completeTraining`
and `startBattle` leave the whole manager state unchanged; `isEggReadyToHatch`,
`isBreedingComplete` and `isTrainingComplete` return false; `hatchEgg`, `startBreeding`
and `startTraining` return -1 and leave the state unchanged; `getDragon` and
`getBreedingResult` return null. -/
theorem invalid_ids_are_silent_noops (t : DragonGameManager) (id other : Int) (dt : ℚ)
    (ty : TrainingType) :
    ((id < 0 ∨ (t.eggs_.length : Int) ≤ id) →
        t.updateEgg id dt = t ∧ t.isEggReadyToHatch id = false ∧ t.hatchEgg id = (t, -1)) ∧
      ((id < 0 ∨ (t.breedingPairs_.length : Int) ≤ id) →
        t.updateBreeding id dt = t ∧ t.isBreedingComplete id = false ∧
          t.getBreedingResult id = none) ∧
      ((id < 0 ∨ (t.trainingSessions_.length : Int) ≤ id) →
        t.updateTraining id dt = t ∧ t.completeTraining id = t ∧
          t.isTrainingComplete id = false) ∧
      ((id < 0 ∨ (t.dragons_.length : Int) ≤ id) →
        t.startBattle id other = t ∧ t.startBattle other id = t ∧
          t.startBreeding id other = (t, -1) ∧ t.startBreeding other id = (t, -1) ∧
          t.startTraining id ty = (t, -1) ∧ t.getDragon id = none) := by
  refine ⟨?_, ?_, ?_, ?_⟩
  · intro h
    have ho := idOutOfRange_of _ _ h
    simp [DragonGameManager.updateEgg, DragonGameManager.isEggReadyToHatch,
      DragonGameManager.hatchEgg, ho]
  · intro h
    have ho := idOutOfRange_of _ _ h
    simp [DragonGameManager.updateBreeding, DragonGameManager.isBreedingComplete,
      DragonGameManager.getBreedingResult, ho]
  · intro h
    have ho := idOutOfRange_of _ _ h
    simp [DragonGameManager.updateTraining, DragonGameManager.completeTraining,
      DragonGameManager.isTrainingComplete, ho]
  · intro h
    have ho := idOutOfRange_of _ _ h
    refine ⟨?_, ?_, ?_, ?_, ?_, ?_⟩
    · simp [DragonGameManager.startBattle, ho]
    · unfold DragonGameManager.startBattle
      split
      · rfl
      · simp [ho]
    · simp [DragonGameManager.startBreeding, ho]
    · unfold DragonGameManager.startBreeding
      split
      · rfl
      · simp [ho]
    · simp [DragonGameManager.startTraining, ho]
    · simp [DragonGameManager.getDragon, ho]

/-! ## Dragon game manager: append-only collections -/

theorem map_set_of_key_eq {α β : Type} (key : α → β) (l : List α) (i : Nat) (a b : α)
    (h : l[i]? = some a) (hk : key b = key a) : (l.set i b).map key = l.map key := by
  induction l generalizing i with
  | nil => rfl
  | cons x rest ih =>
    cases i with
    | zero =>
      simp only [List.getElem?_cons_zero, Option.some.injEq] at h
      simp [List.set, hk, h]
    | succ n =>
      simp only [List.getElem?_cons_succ] at h
      simp [List.set, ih n h]

theorem DragonGameManager.AppendOnly.of_keys (old new : DragonGameManager)
    (h1 : new.eggs_.map eggKey = old.eggs_.map eggKey)
    (h2 : new.dragons_.map dragonKey = old.dragons_.map dragonKey)
    (h3 : new.breedingPairs_.map pairKey = old.breedingPairs_.map pairKey)
    (h4 : new.trainingSessions_.map sessionKey = old.trainingSessions_.map sessionKey) :
    old.AppendOnly new :=
  ⟨Or.inl h1, Or.inl h2, Or.inl h3, Or.inl h4⟩

theorem DragonGameManager.AppendOnly.refl (t : DragonGameManager) : t.AppendOnly t :=
  DragonGameManager.AppendOnly.of_keys t t rfl rfl rfl rfl

theorem DragonGameManager.createDragon_appendOnly (t : DragonGameManager) (e : Element)
    (c : Color) (l : Int) : t.AppendOnly (t.createDragon e c l).1 := by
  refine ⟨Or.inl rfl, Or.inr ⟨{ BattleDragon.new with
    id := (t.dragons_.length : Int), element := e, color := c, level := l,
    maxHP := 100 + l * 10, currentHP := 100 + l * 10, attack := 10 + l * 2,
    defense := 5 + l, speed := 10 + l, isPlayer := true }, rfl, ?_⟩, Or.inl rfl, Or.inl rfl⟩
  simp [DragonGameManager.createDragon]

theorem DragonGameManager.createEgg_appendOnly (t : DragonGameManager) (e : Element)
    (c : Color) : t.AppendOnly (t.createEgg e c).1 := by
  refine ⟨Or.inr ⟨{ DragonEgg.new with
    id := (t.eggs_.length : Int), element := e, shellColor := c, hatchTime := 60,
    state := EggState.INCUBATING }, rfl, ?_⟩, Or.inl rfl, Or.inl rfl, Or.inl rfl⟩
  simp [DragonGameManager.createEgg]

theorem DragonGameManager.updateEgg_appendOnly (t : DragonGameManager) (i : Int) (dt : ℚ) :
    t.AppendOnly (t.updateEgg i dt) := by
  unfold DragonGameManager.updateEgg
  by_cases ho : idOutOfRange i t.eggs_.length = true
  · rw [if_pos ho]; exact DragonGameManager.AppendOnly.refl t
  rw [if_neg ho]
  cases hegg : t.eggs_[i.toNat]? with
  | none => exact DragonGameManager.AppendOnly.refl t
  | some egg =>
    dsimp only
    by_cases hs : egg.state ≠ EggState.INCUBATING
    · rw [if_pos hs]; exact DragonGameManager.AppendOnly.refl t
    rw [if_neg hs]
    refine DragonGameManager.AppendOnly.of_keys _ _ ?_ rfl rfl rfl
    exact map_set_of_key_eq eggKey _ _ egg _ hegg (by split <;> rfl)

theorem DragonGameManager.hatchEgg_appendOnly (t : DragonGameManager) (i : Int) :
    t.AppendOnly (t.hatchEgg i).1 := by
  unfold DragonGameManager.hatchEgg
  by_cases ho : idOutOfRange i t.eggs_.length = true
  · rw [if_pos ho]; exact DragonGameManager.AppendOnly.refl t
  rw [if_neg ho]
  cases hegg : t.eggs_[i.toNat]? with
  | none => exact DragonGameManager.AppendOnly.refl t
  | some egg =>
    dsimp only
    by_cases hs : egg.state ≠ EggState.READY_TO_HATCH
    · rw [if_pos hs]; exact DragonGameManager.AppendOnly.refl t
    rw [if_neg hs]
    obtain ⟨_, hd, _, _⟩ := DragonGameManager.createDragon_appendOnly t egg.element
      egg.shellColor 1
    refine ⟨Or.inl ?_, hd, Or.inl rfl, Or.inl rfl⟩
    exact map_set_of_key_eq eggKey _ _ egg _ hegg rfl

theorem DragonGameManager.startBreeding_appendOnly (t : DragonGameManager) (a b : Int) :
    t.AppendOnly (t.startBreeding a b).1 := by
  unfold DragonGameManager.startBreeding
  by_cases h1 : idOutOfRange a t.dragons_.length = true
  · rw [if_pos h1]; exact DragonGameManager.AppendOnly.refl t
  rw [if_neg h1]
  by_cases h2 : idOutOfRange b t.dragons_.length = true
  · rw [if_pos h2]; exact DragonGameManager.AppendOnly.refl t
  rw [if_neg h2]
  by_cases h3 : a = b
  · rw [if_pos h3]; exact DragonGameManager.AppendOnly.refl t
  rw [if_neg h3]
  refine ⟨Or.inl rfl, Or.inl rfl, Or.inr ⟨{ BreedingPair.new with
    parent1Id := a, parent2Id := b, breedingTime := 30 }, ?_⟩, Or.inl rfl⟩
  simp

theorem DragonGameManager.updateBreeding_appendOnly (t : DragonGameManager) (i : Int)
    (dt : ℚ) : t.AppendOnly (t.updateBreeding i dt) := by
  unfold DragonGameManager.updateBreeding
  by_cases ho : idOutOfRange i t.breedingPairs_.length = true
  · rw [if_pos ho]; exact DragonGameManager.AppendOnly.refl t
  rw [if_neg ho]
  cases hpair : t.breedingPairs_[i.toNat]? with
  | none => exact DragonGameManager.AppendOnly.refl t
  | some pair =>
    dsimp only
    by_cases hc : pair.isComplete = true
    · rw [if_pos hc]; exact DragonGameManager.AppendOnly.refl t
    rw [if_neg hc]
    by_cases hprog : (pair.elapsedTime + dt) / pair.breedingTime ≥ 1
    · rw [if_pos hprog]
      cases hp1 : t.dragons_[pair.parent1Id.toNat]? with
      | none => exact DragonGameManager.AppendOnly.refl t
      | some parent1 =>
        cases hp2 : t.dragons_[pair.parent2Id.toNat]? with
        | none => exact DragonGameManager.AppendOnly.refl t
        | some parent2 =>
          dsimp only
          refine ⟨Or.inr ⟨{ DragonEgg.new with
            id := (t.eggs_.length : Int),
            element := DragonGameManager.combineElements parent1.element parent2.element,
            shellColor := DragonGameManager.combineColors parent1.color parent2.color,
            hatchTime := 60 }, rfl, ?_⟩, Or.inl rfl, Or.inl ?_, Or.inl rfl⟩
          · simp
          · exact map_set_of_key_eq pairKey _ _ pair _ hpair rfl
    · rw [if_neg hprog]
      refine DragonGameManager.AppendOnly.of_keys _ _ rfl rfl ?_ rfl
      exact map_set_of_key_eq pairKey _ _ pair _ hpair rfl

theorem DragonGameManager.startBattle_appendOnly (t : DragonGameManager) (a b : Int) :
    t.AppendOnly (t.startBattle a b) := by
  unfold DragonGameManager.startBattle
  by_cases h1 : idOutOfRange a t.dragons_.length = true
  · rw [if_pos h1]; exact DragonGameManager.AppendOnly.refl t
  rw [if_neg h1]
  by_cases h2 : idOutOfRange b t.dragons_.length = true
  · rw [if_pos h2]; exact DragonGameManager.AppendOnly.refl t
  rw [if_neg h2]
  exact DragonGameManager.AppendOnly.of_keys _ _ rfl rfl rfl rfl

theorem DragonGameManager.deref_some (t : DragonGameManager) (p : Option Nat) (i : Nat)
    (hp : p = some i) : t.deref p = t.dragons_[i]? := by
  subst hp; rfl

theorem DragonGameManager.updateBattle_appendOnly (t : DragonGameManager) (dt : ℚ)
    (r : Nat) : t.AppendOnly (t.updateBattle dt r) := by
  unfold DragonGameManager.updateBattle
  dsimp only
  cases hst : t.battleState_ with
  | BATTLE_START =>
    dsimp only
    split
    · exact DragonGameManager.AppendOnly.of_keys _ _ rfl rfl rfl rfl
    · exact DragonGameManager.AppendOnly.of_keys _ _ rfl rfl rfl rfl
  | ENEMY_TURN =>
    dsimp only
    by_cases htime : binary32 (t.battleAnimTime_ + dt) > 1
    · rw [if_pos htime]
      split
      · rename_i move pi player enemy hmove hpi hplayer henemy
        refine DragonGameManager.AppendOnly.of_keys _ _ rfl ?_ rfl rfl
        have hget : t.dragons_[pi]? = some player := by
          rw [hpi] at hplayer
          exact hplayer
        exact map_set_of_key_eq dragonKey _ _ player _ hget rfl
      · exact DragonGameManager.AppendOnly.of_keys _ _ rfl rfl rfl rfl
    · rw [if_neg htime]
      exact DragonGameManager.AppendOnly.of_keys _ _ rfl rfl rfl rfl
  | IDLE => exact DragonGameManager.AppendOnly.of_keys _ _ rfl rfl rfl rfl
  | SELECTING_DRAGON => exact DragonGameManager.AppendOnly.of_keys _ _ rfl rfl rfl rfl
  | PLAYER_TURN => exact DragonGameManager.AppendOnly.of_keys _ _ rfl rfl rfl rfl
  | BATTLE_END => exact DragonGameManager.AppendOnly.of_keys _ _ rfl rfl rfl rfl
  | VICTORY => exact DragonGameManager.AppendOnly.of_keys _ _ rfl rfl rfl rfl
  | DEFEAT => exact DragonGameManager.AppendOnly.of_keys _ _ rfl rfl rfl rfl

theorem DragonGameManager.performBattleAction_appendOnly (t : DragonGameManager)
    (action : BattleAction) (moveIndex : Int) :
    t.AppendOnly (t.performBattleAction action moveIndex) := by
  unfold DragonGameManager.performBattleAction
  by_cases hst : t.battleState_ ≠ BattleState.PLAYER_TURN
  · rw [if_pos hst]; exact DragonGameManager.AppendOnly.refl t
  rw [if_neg hst]
  split
  · split
    · rename_i move pi ei player enemy hmove hpi hei hplayer henemy
      have hgetE : t.dragons_[ei]? = some enemy := by
        rw [DragonGameManager.deref_some t _ ei hei] at henemy
        exact henemy
      have hset : (t.dragons_.set ei
          { enemy with currentHP := enemy.currentHP -
            DragonGameManager.calculateDamage player enemy move }).map dragonKey =
          t.dragons_.map dragonKey :=
        map_set_of_key_eq dragonKey _ _ enemy _ hgetE rfl
      dsimp only
      split
      · split
        · rename_i player1 hplayer1
          refine DragonGameManager.AppendOnly.of_keys _ _ rfl ?_ rfl rfl
          exact (map_set_of_key_eq dragonKey _ _ player1
            { player1 with level := player1.level + 1 } hplayer1 rfl).trans hset
        · exact DragonGameManager.AppendOnly.refl t
      · exact DragonGameManager.AppendOnly.of_keys _ _ rfl hset rfl rfl
    · exact DragonGameManager.AppendOnly.refl t
  · exact DragonGameManager.AppendOnly.refl t

theorem DragonGameManager.startTraining_appendOnly (t : DragonGameManager) (i : Int)
    (ty : TrainingType) : t.AppendOnly (t.startTraining i ty).1 := by
  unfold DragonGameManager.startTraining
  by_cases h1 : idOutOfRange i t.dragons_.length = true
  · rw [if_pos h1]; exact DragonGameManager.AppendOnly.refl t
  rw [if_neg h1]
  refine ⟨Or.inl rfl, Or.inl rfl, Or.inl rfl, Or.inr ⟨{ TrainingSession.new with
    dragonId := i, type := ty, duration := 45, statGain := 5 }, ?_⟩⟩
  simp

theorem DragonGameManager.updateTraining_appendOnly (t : DragonGameManager) (i : Int)
    (dt : ℚ) : t.AppendOnly (t.updateTraining i dt) := by
  unfold DragonGameManager.updateTraining
  by_cases ho : idOutOfRange i t.trainingSessions_.length = true
  · rw [if_pos ho]; exact DragonGameManager.AppendOnly.refl t
  rw [if_neg ho]
  cases hs : t.trainingSessions_[i.toNat]? with
  | none => exact DragonGameManager.AppendOnly.refl t
  | some session =>
    dsimp only
    by_cases hc : session.isComplete = true
    · rw [if_pos hc]; exact DragonGameManager.AppendOnly.refl t
    rw [if_neg hc]
    refine DragonGameManager.AppendOnly.of_keys _ _ rfl rfl rfl ?_
    exact map_set_of_key_eq sessionKey _ _ session _ hs (by split <;> rfl)

theorem DragonGameManager.completeTraining_appendOnly (t : DragonGameManager) (i : Int) :
    t.AppendOnly (t.completeTraining i) := by
  unfold DragonGameManager.completeTraining
  by_cases ho : idOutOfRange i t.trainingSessions_.length = true
  · rw [if_pos ho]; exact DragonGameManager.AppendOnly.refl t
  rw [if_neg ho]
  cases hs : t.trainingSessions_[i.toNat]? with
  | none => exact DragonGameManager.AppendOnly.refl t
  | some session =>
    dsimp only
    by_cases hc : (!session.isComplete) = true
    · rw [if_pos hc]; exact DragonGameManager.AppendOnly.refl t
    rw [if_neg hc]
    cases hd : t.dragons_[session.dragonId.toNat]? with
    | none => exact DragonGameManager.AppendOnly.refl t
    | some dragon =>
      dsimp only
      refine DragonGameManager.AppendOnly.of_keys _ _ rfl ?_ rfl rfl
      exact map_set_of_key_eq dragonKey _ _ dragon _ hd (by split <;> rfl)

theorem DragonGameManager.step_appendOnly (t : DragonGameManager) (op : ManagerOp) :
    t.AppendOnly (t.step op) := by
  cases op with
  | createEgg e c => exact t.createEgg_appendOnly e c
  | updateEgg i dt => exact t.updateEgg_appendOnly i dt
  | hatchEgg i => exact t.hatchEgg_appendOnly i
  | startBreeding a b => exact t.startBreeding_appendOnly a b
  | updateBreeding i dt => exact t.updateBreeding_appendOnly i dt
  | startBattle a b => exact t.startBattle_appendOnly a b
  | updateBattle dt r => exact t.updateBattle_appendOnly dt r
  | performBattleAction a i => exact t.performBattleAction_appendOnly a i
  | startTraining i ty => exact t.startTraining_appendOnly i ty
  | updateTraining i dt => exact t.updateTraining_appendOnly i dt
  | completeTraining i => exact t.completeTraining_appendOnly i
  | createDragon e c l => exact t.createDragon_appendOnly e c l

theorem ids_extend {α β : Type} (key : α → β) (idOf : α → Int)
    (hid : ∀ a b : α, key a = key b → idOf a = idOf b) (old new : List α)
    (hold : ∀ (i : Nat) (a : α), old[i]? = some a → idOf a = (i : Int))
    (h : new.map key = old.map key ∨
      ∃ a : α, idOf a = (old.length : Int) ∧ new.map key = old.map key ++ [key a]) :
    ∀ (i : Nat) (a : α), new[i]? = some a → idOf a = (i : Int) := by
  intro i a ha
  have hk : (new.map key)[i]? = some (key a) := by
    rw [List.getElem?_map, ha]; rfl
  rcases h with h | ⟨b, hb, h⟩
  · rw [h, List.getElem?_map] at hk
    cases ho : old[i]? with
    | none => rw [ho] at hk; exact Option.noConfusion hk
    | some a0 =>
      rw [ho] at hk
      have hkey : key a0 = key a := Option.some.inj hk
      rw [← hid a0 a hkey]
      exact hold i a0 ho
  · rw [h] at hk
    rcases Nat.lt_or_ge i old.length with hlt | hge
    · rw [List.getElem?_append_left (by simpa using hlt), List.getElem?_map] at hk
      cases ho : old[i]? with
      | none => rw [ho] at hk; exact Option.noConfusion hk
      | some a0 =>
        rw [ho] at hk
        have hkey : key a0 = key a := Option.some.inj hk
        rw [← hid a0 a hkey]
        exact hold i a0 ho
    · rw [List.getElem?_append_right (by simpa using hge), List.length_map] at hk
      cases hidx : i - old.length with
      | zero =>
        rw [hidx] at hk
        have hkey : key b = key a := by simpa using hk
        have hi : i = old.length := by omega
        rw [← hid b a hkey, hb, hi]
      | succ n =>
        rw [hidx] at hk
        simp at hk

theorem DragonGameManager.IdsAreIndices.of_appendOnly (old new : DragonGameManager)
    (h : old.AppendOnly new) (hold : old.IdsAreIndices) : new.IdsAreIndices := by
  obtain ⟨he, hd, _, _⟩ := h
  refine ⟨?_, ?_⟩
  · refine ids_extend eggKey DragonEgg.id ?_ old.eggs_ new.eggs_ hold.1 he
    intro a b hab
    exact congrArg Prod.fst hab
  · refine ids_extend dragonKey BattleDragon.id ?_ old.dragons_ new.dragons_ hold.2 hd
    intro a b hab
    exact congrArg Prod.fst hab

theorem DragonGameManager.foldl_step_ids (ops : List ManagerOp) (t : DragonGameManager)
    (h : t.IdsAreIndices) : (ops.foldl DragonGameManager.step t).IdsAreIndices := by
  induction ops generalizing t with
  | nil => exact h
  | cons op rest ih =>
    exact ih (t.step op)
      (DragonGameManager.IdsAreIndices.of_appendOnly t _ (t.step_appendOnly op) h)

theorem DragonGameManager.reachable_ids (t : DragonGameManager) (h : t.Reachable) :
    t.IdsAreIndices := by
  obtain ⟨ops, rfl⟩ := h
  refine DragonGameManager.foldl_step_ids ops DragonGameManager.new ⟨?_, ?_⟩
  · intro i e he
    simp [DragonGameManager.new] at he
  · intro i d hd
    simp [DragonGameManager.new] at hd

/-- C10: in every reachable manager state, `createEgg`, `createDragon`, `startBreeding`
and `startTraining` (when they succeed, i.e. do not return -1) return the size the owning
collection had before the call and append exactly one entry to it; every operation keeps
every entry of eggs, dragons, breeding pairs and training sessions at its index and
removes none; and the id stored in every egg and every dragon equals its index in its
collection (eggs created by a completed breeding included). -/
theorem ids_are_stable_indices (t : DragonGameManager) (h : t.Reachable) :
    (∀ (e : Element) (c : Color),
        (t.createEgg e c).2 = (t.eggs_.length : Int) ∧
          ∃ egg : DragonEgg, (t.createEgg e c).1.eggs_ = t.eggs_ ++ [egg]) ∧
      (∀ (e : Element) (c : Color) (l : Int),
        (t.createDragon e c l).2 = (t.dragons_.length : Int) ∧
          ∃ d : BattleDragon, (t.createDragon e c l).1.dragons_ = t.dragons_ ++ [d]) ∧
      (∀ a b : Int, (t.startBreeding a b).2 ≠ -1 →
        (t.startBreeding a b).2 = (t.breedingPairs_.length : Int) ∧
          ∃ p : BreedingPair,
            (t.startBreeding a b).1.breedingPairs_ = t.breedingPairs_ ++ [p]) ∧
      (∀ (i : Int) (ty : TrainingType), (t.startTraining i ty).2 ≠ -1 →
        (t.startTraining i ty).2 = (t.trainingSessions_.length : Int) ∧
          ∃ s : TrainingSession,
            (t.startTraining i ty).1.trainingSessions_ = t.trainingSessions_ ++ [s]) ∧
      (∀ op : ManagerOp, t.AppendOnly (t.step op)) ∧
      t.IdsAreIndices := by
  refine ⟨?_, ?_, ?_, ?_, t.step_appendOnly, t.reachable_ids h⟩
  · intro e c
    exact ⟨rfl, _, rfl⟩
  · intro e c l
    exact ⟨rfl, _, rfl⟩
  · intro a b hne
    unfold DragonGameManager.startBreeding at hne ⊢
    by_cases h1 : idOutOfRange a t.dragons_.length = true
    · rw [if_pos h1] at hne; exact absurd rfl hne
    rw [if_neg h1] at hne ⊢
    by_cases h2 : idOutOfRange b t.dragons_.length = true
    · rw [if_pos h2] at hne; exact absurd rfl hne
    rw [if_neg h2] at hne ⊢
    by_cases h3 : a = b
    · rw [if_pos h3] at hne; exact absurd rfl hne
    rw [if_neg h3]
    refine ⟨?_, _, rfl⟩
    simp
  · intro i ty hne
    unfold DragonGameManager.startTraining at hne ⊢
    by_cases h1 : idOutOfRange i t.dragons_.length = true
    · rw [if_pos h1] at hne; exact absurd rfl hne
    rw [if_neg h1]
    refine ⟨?_, _, rfl⟩
    simp

theorem ids_are_stable_indices_witness :
    (DragonGameManager.exec sampleOps).Reachable ∧
      (DragonGameManager.exec sampleOps).IdsAreIndices ∧
      ∀ op : ManagerOp,
        (DragonGameManager.exec sampleOps).AppendOnly
          ((DragonGameManager.exec sampleOps).step op) :=
  have h : (DragonGameManager.exec sampleOps).Reachable := ⟨sampleOps, rfl⟩
  ⟨h, (ids_are_stable_indices _ h).2.2.2.2.2, (ids_are_stable_indices _ h).2.2.2.2.1⟩

/-! ## Element tables -/

/-- C12: for all elements `e1`, `e2`, `combineElements(e1, e2)` is `e1` if `e1 == e2`,
WATER if `{e1, e2} = {FIRE, ICE}`, LIGHTNING if `{e1, e2} = {FIRE, LIGHTNING}`, and NORMAL
in every other case; Fire and Ice yield Water in either parameter order. -/
theorem combineElements_table (e1 e2 : Element) :
    (e1 = e2 → DragonGameManager.combineElements e1 e2 = e1) ∧
      (((e1 = Element.FIRE ∧ e2 = Element.ICE) ∨ (e1 = Element.ICE ∧ e2 = Element.FIRE)) →
        DragonGameManager.combineElements e1 e2 = Element.WATER) ∧
      (((e1 = Element.FIRE ∧ e2 = Element.LIGHTNING) ∨
          (e1 = Element.LIGHTNING ∧ e2 = Element.FIRE)) →
        DragonGameManager.combineElements e1 e2 = Element.LIGHTNING) ∧
      (e1 ≠ e2 →
        ¬ ((e1 = Element.FIRE ∧ e2 = Element.ICE) ∨ (e1 = Element.ICE ∧ e2 = Element.FIRE)) →
        ¬ ((e1 = Element.FIRE ∧ e2 = Element.LIGHTNING) ∨
          (e1 = Element.LIGHTNING ∧ e2 = Element.FIRE)) →
        DragonGameManager.combineElements e1 e2 = Element.NORMAL) ∧
      DragonGameManager.combineElements Element.FIRE Element.ICE = Element.WATER ∧
      DragonGameManager.combineElements Element.ICE Element.FIRE = Element.WATER := by
  cases e1 <;> cases e2 <;> simp [DragonGameManager.combineElements]

/-- C13: `getElementMultiplier` returns 1.5 for (FIRE, ICE), (ICE, LIGHTNING),
(LIGHTNING, FIRE); 0.5 for the reversed pairs (ICE, FIRE), (LIGHTNING, ICE),
(FIRE, LIGHTNING); and 1.0 for every other pair, in particular for every pair of equal
elements and every pair involving NORMAL, WATER, NATURE, SHADOW or LIGHT. -/
theorem getElementMultiplier_table (a d : Element) :
    (((a = Element.FIRE ∧ d = Element.ICE) ∨ (a = Element.ICE ∧ d = Element.LIGHTNING) ∨
        (a = Element.LIGHTNING ∧ d = Element.FIRE)) →
      DragonGameManager.getElementMultiplier a d = 3 / 2) ∧
      (((a = Element.ICE ∧ d = Element.FIRE) ∨ (a = Element.LIGHTNING ∧ d = Element.ICE) ∨
          (a = Element.FIRE ∧ d = Element.LIGHTNING)) →
        DragonGameManager.getElementMultiplier a d = 1 / 2) ∧
      (¬ ((a = Element.FIRE ∧ d = Element.ICE) ∨ (a = Element.ICE ∧ d = Element.LIGHTNING) ∨
          (a = Element.LIGHTNING ∧ d = Element.FIRE)) →
        ¬ ((a = Element.ICE ∧ d = Element.FIRE) ∨ (a = Element.LIGHTNING ∧ d = Element.ICE) ∨
          (a = Element.FIRE ∧ d = Element.LIGHTNING)) →
        DragonGameManager.getElementMultiplier a d = 1) ∧
      (a = d → DragonGameManager.getElementMultiplier a d = 1) ∧
      ((a = Element.NORMAL ∨ a = Element.WATER ∨ a = Element.NATURE ∨ a = Element.SHADOW ∨
          a = Element.LIGHT ∨ d = Element.NORMAL ∨ d = Element.WATER ∨ d = Element.NATURE ∨
          d = Element.SHADOW ∨ d = Element.LIGHT) →
        DragonGameManager.getElementMultiplier a d = 1) := by
  cases a <;> cases d <;> simp [DragonGameManager.getElementMultiplier]

/-! ## Biome classification -/

theorem Entity.updateAI_idle_near (sqrt : ℚ → ℚ) (e : Entity) (deltaTime : ℚ)
    (playerPos : Vec3) (rand1 rand2 : Nat) (hidle : e.aiState_ = AIState.IDLE)
    (hnear : e.distanceTo sqrt playerPos < 15) :
    (e.updateAI sqrt deltaTime playerPos rand1 rand2).aiState_ = AIState.CHASE ∧
      (e.updateAI sqrt deltaTime playerPos rand1 rand2).aiTimer_ = 0 := by
  unfold Entity.updateAI
  simp only [hidle]
  split
  · exact ⟨rfl, rfl⟩
  · rename_i hfar
    exact absurd hnear hfar

/-- C14: for every entity whose AI state is Idle and whose 3D distance to the player is
`< 15`, one AI tick (`updateAI`) sets the state to Chase with AI timer 0 in that same
tick, for every value of the Idle timer and every delta time; for an enemy entity
(EnemyDragon, EnemyGoblin) this is the state and timer after `Entity::update`. -/
theorem idle_near_player_chases (sqrt : ℚ → ℚ) (e : Entity) (deltaTime : ℚ)
    (playerPos : Vec3) (rand1 rand2 : Nat) (hidle : e.aiState_ = AIState.IDLE)
    (hnear : e.distanceTo sqrt playerPos < 15) :
    ((e.updateAI sqrt deltaTime playerPos rand1 rand2).aiState_ = AIState.CHASE ∧
        (e.updateAI sqrt deltaTime playerPos rand1 rand2).aiTimer_ = 0) ∧
      ((e.type_ = EntityType.ENEMY_DRAGON ∨ e.type_ = EntityType.ENEMY_GOBLIN) →
        (e.update sqrt deltaTime playerPos rand1 rand2).aiState_ = AIState.CHASE ∧
          (e.update sqrt deltaTime playerPos rand1 rand2).aiTimer_ = 0) := by
  refine ⟨Entity.updateAI_idle_near sqrt e deltaTime playerPos rand1 rand2 hidle hnear, ?_⟩
  intro hty
  have h1 := Entity.updateAI_idle_near sqrt { e with combat_ := e.combat_.update deltaTime }
    deltaTime playerPos rand1 rand2 hidle hnear
  unfold Entity.update
  dsimp only
  rw [if_pos hty]
  split
  · exact h1
  · exact h1

theorem idle_near_player_chases_witness :
    ({ sampleGoblin with aiTimer_ := 5 } : Entity).aiState_ = AIState.IDLE ∧
      Entity.distanceTo floorSqrt { sampleGoblin with aiTimer_ := 5 } origin < 15 ∧
      (Entity.updateAI floorSqrt { sampleGoblin with aiTimer_ := 5 } (1 / 60) origin 7
        13).aiState_ = AIState.CHASE :=
  have h1 : ({ sampleGoblin with aiTimer_ := 5 } : Entity).aiState_ = AIState.IDLE := rfl
  have h2 : Entity.distanceTo floorSqrt { sampleGoblin with aiTimer_ := 5 } origin < 15 := by
    have hd : Entity.distanceTo floorSqrt { sampleGoblin with aiTimer_ := 5 } origin = 10 := by
      simp [Entity.distanceTo, sampleGoblin, Entity.newGoblin, Entity.new, origin, floorSqrt]
      have hfloor : ⌊(10 : ℚ) * 10⌋.toNat = 10 * 10 := by
        have h100 : ⌊(10 : ℚ) * 10⌋ = 100 := by norm_num
        rw [h100]
        rfl
      rw [hfloor, Nat.sqrt_eq]
      norm_num
    rw [hd]
    norm_num
  ⟨h1, h2, (idle_near_player_chases floorSqrt _ (1 / 60) origin 7 13 h1 h2).1.1⟩

/-! ## Dragon game manager: battle actions and hatching -/

/-- C15: `performBattleAction` changes the manager only in battle state PlayerTurn: in
every other battle state, for every action and move index, the call leaves the whole
manager state (battle state, every dragon's HP and level, battle timer) unchanged. -/
theorem performBattleAction_outside_player_turn (t : DragonGameManager)
    (action : BattleAction) (moveIndex : Int)
    (h : t.battleState_ ≠ BattleState.PLAYER_TURN) :
    t.performBattleAction action moveIndex = t := by
  unfold DragonGameManager.performBattleAction
  rw [if_pos h]

theorem performBattleAction_outside_player_turn_witness :
    DragonGameManager.new.battleState_ ≠ BattleState.PLAYER_TURN ∧
      DragonGameManager.new.performBattleAction BattleAction.ATTACK 0 =
        DragonGameManager.new :=
  have h : DragonGameManager.new.battleState_ ≠ BattleState.PLAYER_TURN := by
    simp [DragonGameManager.new]
  ⟨h, performBattleAction_outside_player_turn _ _ _ h⟩

theorem idOutOfRange_false_of_getElem {α : Type} (l : List α) (id : Int) (a : α)
    (h0 : 0 ≤ id) (h : l[id.toNat]? = some a) : idOutOfRange id l.length = false := by
  have hlt : id.toNat < l.length := by
    rcases Nat.lt_or_ge id.toNat l.length with h1 | h1
    · exact h1
    · rw [List.getElem?_eq_none h1] at h
      exact Option.noConfusion h
  unfold idOutOfRange
  have h1 : ¬ id < 0 := not_lt.mpr h0
  have h2 : ¬ id ≥ (l.length : Int) := by omega
  simp [h1, h2]

/-- C18: `hatchEgg(id)` on an egg in state ReadyToHatch appends exactly one new
BattleDragon with level 1 and the egg's element and shell color, returns that dragon's id
(its index), and sets the egg to Hatched; on an egg in state Incubating or Hatched it
returns -1 and changes nothing.  A second `hatchEgg` of the same egg returns -1 and
changes nothing: every egg hatches at most once. -/
theorem hatchEgg_spec (t : DragonGameManager) (eggId : Int) (egg : DragonEgg)
    (h0 : 0 ≤ eggId) (hegg : t.eggs_[eggId.toNat]? = some egg) :
    (egg.state = EggState.READY_TO_HATCH →
        ∃ d : BattleDragon,
          d.level = 1 ∧ d.element = egg.element ∧ d.color = egg.shellColor ∧
          d.id = (t.dragons_.length : Int) ∧
          t.hatchEgg eggId =
            ({ t with
               dragons_ := t.dragons_ ++ [d],
               eggs_ := t.eggs_.set eggId.toNat { egg with state := EggState.HATCHED } },
              d.id) ∧
          (t.hatchEgg eggId).1.hatchEgg eggId = ((t.hatchEgg eggId).1, -1)) ∧
      (egg.state ≠ EggState.READY_TO_HATCH → t.hatchEgg eggId = (t, -1)) := by
  have hrange := idOutOfRange_false_of_getElem t.eggs_ eggId egg h0 hegg
  have hlt : eggId.toNat < t.eggs_.length := by
    rcases Nat.lt_or_ge eggId.toNat t.eggs_.length with h1 | h1
    · exact h1
    · rw [List.getElem?_eq_none h1] at hegg
      exact Option.noConfusion hegg
  constructor
  · intro hready
    have hfirst : t.hatchEgg eggId =
        ({ (t.createDragon egg.element egg.shellColor 1).1 with
           eggs_ := (t.createDragon egg.element egg.shellColor 1).1.eggs_.set eggId.toNat
             { egg with state := EggState.HATCHED } },
          (t.createDragon egg.element egg.shellColor 1).2) := by
      unfold DragonGameManager.hatchEgg
      simp [hrange, hegg, hready]
    refine ⟨{ BattleDragon.new with
      id := (t.dragons_.length : Int), element := egg.element, color := egg.shellColor,
      level := 1, maxHP := 100 + 1 * 10, currentHP := 100 + 1 * 10, attack := 10 + 1 * 2,
      defense := 5 + 1, speed := 10 + 1, isPlayer := true }, rfl, rfl, rfl, rfl, ?_, ?_⟩
    · rw [hfirst]
      rfl
    · rw [hfirst]
      unfold DragonGameManager.hatchEgg
      have hlen2 : idOutOfRange eggId
          ((t.createDragon egg.element egg.shellColor 1).1.eggs_.set eggId.toNat
            { egg with state := EggState.HATCHED }).length = false := by
        rw [List.length_set]
        exact hrange
      have hget : ((t.createDragon egg.element egg.shellColor 1).1.eggs_.set eggId.toNat
          { egg with state := EggState.HATCHED })[eggId.toNat]? =
          some { egg with state := EggState.HATCHED } := by
        rw [List.getElem?_set_self]
        · simp [DragonGameManager.createDragon, hlt]
      simp [hlen2, hget]
  · intro hnot
    unfold DragonGameManager.hatchEgg
    simp [hrange, hegg, hnot]

/-! ## Dragon game manager: the state invariant -/

theorem DragonEgg.TimerOk.advance_egg (egg : DragonEgg) (dt : ℚ) (h : egg.TimerOk)
    (hs : egg.state = EggState.INCUBATING) :
    (if (egg.elapsedTime + dt) / egg.hatchTime ≥ 1 then
        { egg with
          elapsedTime := egg.elapsedTime + dt, incubationProgress := 1,
          state := EggState.READY_TO_HATCH }
      else
        { egg with
          elapsedTime := egg.elapsedTime + dt,
          incubationProgress := (egg.elapsedTime + dt) / egg.hatchTime }).TimerOk := by
  obtain ⟨h60, _, _⟩ := h
  have hpos : (0 : ℚ) < egg.hatchTime := by rw [h60]; norm_num
  split
  · rename_i hge
    refine ⟨h60, ?_, ?_⟩
    · exact (min_eq_left hge).symm
    · have hle : egg.hatchTime ≤ egg.elapsedTime + dt := (one_le_div hpos).mp hge
      constructor
      · intro hc; simp at hc
      · intro hlt; exact absurd hlt (not_lt.mpr hle)
  · rename_i hlt
    have hlt1 : (egg.elapsedTime + dt) / egg.hatchTime < 1 := not_le.mp hlt
    refine ⟨h60, ?_, ?_⟩
    · exact (min_eq_right hlt1.le).symm
    · exact ⟨fun _ => (div_lt_one hpos).mp hlt1, fun _ => hs⟩

theorem BreedingPair.TimerOk.advance_pair (pair : BreedingPair) (dt : ℚ) (h : pair.TimerOk)
    (hc : pair.isComplete = false) (hlt : ¬ (pair.elapsedTime + dt) / pair.breedingTime ≥ 1) :
    ({ pair with
       elapsedTime := pair.elapsedTime + dt,
       breedingProgress := (pair.elapsedTime + dt) / pair.breedingTime } :
      BreedingPair).TimerOk := by
  obtain ⟨h30, _, _⟩ := h
  have hpos : (0 : ℚ) < pair.breedingTime := by rw [h30]; norm_num
  have hlt1 : (pair.elapsedTime + dt) / pair.breedingTime < 1 := not_le.mp hlt
  exact ⟨h30, (min_eq_right hlt1.le).symm, fun _ => (div_lt_one hpos).mp hlt1, fun _ => hc⟩

theorem BreedingPair.TimerOk.complete (pair : BreedingPair) (dt : ℚ) (r : Option Nat)
    (h : pair.TimerOk) (hge : (pair.elapsedTime + dt) / pair.breedingTime ≥ 1) :
    ({ pair with
       elapsedTime := pair.elapsedTime + dt, breedingProgress := 1, isComplete := true,
       resultEgg := r } : BreedingPair).TimerOk := by
  obtain ⟨h30, _, _⟩ := h
  have hpos : (0 : ℚ) < pair.breedingTime := by rw [h30]; norm_num
  have hle : pair.breedingTime ≤ pair.elapsedTime + dt := (one_le_div hpos).mp hge
  refine ⟨h30, (min_eq_left hge).symm, ?_, ?_⟩
  · intro hc; simp at hc
  · intro hlt; exact absurd hlt (not_lt.mpr hle)

theorem TrainingSession.TimerOk.advance_session (session : TrainingSession) (dt : ℚ)
    (h : session.TimerOk) (hc : session.isComplete = false) :
    (if (session.elapsedTime + dt) / session.duration ≥ 1 then
        { session with
          elapsedTime := session.elapsedTime + dt, progress := 1, isComplete := true }
      else
        { session with
          elapsedTime := session.elapsedTime + dt,
          progress := (session.elapsedTime + dt) / session.duration }).TimerOk := by
  obtain ⟨h45, _, _⟩ := h
  have hpos : (0 : ℚ) < session.duration := by rw [h45]; norm_num
  split
  · rename_i hge
    have hle : session.duration ≤ session.elapsedTime + dt := (one_le_div hpos).mp hge
    refine ⟨h45, (min_eq_left hge).symm, ?_, ?_⟩
    · intro hc2; simp at hc2
    · intro hlt; exact absurd hlt (not_lt.mpr hle)
  · rename_i hlt
    have hlt1 : (session.elapsedTime + dt) / session.duration < 1 := not_le.mp hlt
    exact ⟨h45, (min_eq_right hlt1.le).symm, fun _ => (div_lt_one hpos).mp hlt1, fun _ => hc⟩

theorem DragonEgg.TimerOk.fresh (e : DragonEgg) (h60 : e.hatchTime = 60)
    (hp : e.incubationProgress = 0) (he : e.elapsedTime = 0)
    (hs : e.state = EggState.INCUBATING) : e.TimerOk := by
  refine ⟨h60, ?_, ?_⟩
  · rw [hp, he, h60]; norm_num
  · rw [he, h60]; exact ⟨fun _ => by norm_num, fun _ => hs⟩

theorem mem_of_getElem?_eq_some {α : Type} (l : List α) (i : Nat) (a : α)
    (h : l[i]? = some a) : a ∈ l := by
  rw [List.getElem?_eq_some] at h
  obtain ⟨hi, rfl⟩ := h
  exact List.getElem_mem hi

theorem DragonGameManager.Inv.transfer {nn : Prop} {t : DragonGameManager}
    (h : t.Inv nn) (t2 : DragonGameManager)
    (hlen : t.dragons_.length ≤ t2.dragons_.length)
    (heggs : ∀ e ∈ t2.eggs_, e ∈ t.eggs_ ∨ (e.TimerOk ∧ (nn → 0 ≤ e.elapsedTime)))
    (hpairs : ∀ p ∈ t2.breedingPairs_, p ∈ t.breedingPairs_ ∨
      (p.TimerOk ∧ (nn → 0 ≤ p.elapsedTime) ∧
        0 ≤ p.parent1Id ∧ p.parent1Id < (t.dragons_.length : Int) ∧
        0 ≤ p.parent2Id ∧ p.parent2Id < (t.dragons_.length : Int)))
    (hsessions : ∀ s ∈ t2.trainingSessions_, s ∈ t.trainingSessions_ ∨
      (s.TimerOk ∧ (nn → 0 ≤ s.elapsedTime) ∧
        0 ≤ s.dragonId ∧ s.dragonId < (t.dragons_.length : Int)))
    (hmoves : t2.battleMoves_ = t.battleMoves_)
    (hbattle : (t2.playerDragon_ = t.playerDragon_ ∧ t2.enemyDragon_ = t.enemyDragon_ ∧
        (t.battleState_ = BattleState.IDLE → t2.battleState_ = BattleState.IDLE)) ∨
      ∃ pi ei : Nat, t2.playerDragon_ = some pi ∧ t2.enemyDragon_ = some ei ∧
        pi < t.dragons_.length ∧ ei < t.dragons_.length) :
    t2.Inv nn := by
  have hlenI : (t.dragons_.length : Int) ≤ (t2.dragons_.length : Int) := by exact_mod_cast hlen
  refine ⟨?_, ?_, ?_, hmoves.trans h.moves, ?_⟩
  · intro e he
    rcases heggs e he with h1 | h1
    · exact h.eggs e h1
    · exact h1
  · intro p hp
    rcases hpairs p hp with h1 | h1
    · obtain ⟨a, b, c, d, e, f⟩ := h.pairs p h1
      exact ⟨a, b, c, by omega, e, by omega⟩
    · obtain ⟨a, b, c, d, e, f⟩ := h1
      exact ⟨a, b, c, by omega, e, by omega⟩
  · intro s hs
    rcases hsessions s hs with h1 | h1
    · obtain ⟨a, b, c, d⟩ := h.sessions s h1
      exact ⟨a, b, c, by omega⟩
    · obtain ⟨a, b, c, d⟩ := h1
      exact ⟨a, b, c, by omega⟩
  · rcases hbattle with ⟨hp, he, hidle⟩ | ⟨pi, ei, hp, he, hpi, hei⟩
    · rcases h.battle with h1 | ⟨pi, ei, h2, h3, h4, h5⟩
      · exact Or.inl (hidle h1)
      · exact Or.inr ⟨pi, ei, hp.trans h2, he.trans h3, by omega, by omega⟩
    · exact Or.inr ⟨pi, ei, hp, he, by omega, by omega⟩

theorem idOutOfRange_bounds (id : Int) (size : Nat) (h : ¬ idOutOfRange id size = true) :
    0 ≤ id ∧ id < (size : Int) := by
  unfold idOutOfRange at h
  simp only [Bool.or_eq_true, decide_eq_true_eq, not_or, not_lt, ge_iff_le, not_le] at h
  exact h

theorem DragonGameManager.Inv.createEgg {nn : Prop} {t : DragonGameManager} (h : t.Inv nn)
    (e : Element) (c : Color) : (t.createEgg e c).1.Inv nn := by
  refine h.transfer _ (le_refl _) ?_ (fun p hp => Or.inl hp) (fun s hs => Or.inl hs) rfl
    (Or.inl ⟨rfl, rfl, fun hi => hi⟩)
  intro x hx
  simp only [DragonGameManager.createEgg, List.mem_append, List.mem_singleton] at hx
  rcases hx with h1 | h1
  · exact Or.inl h1
  · right
    subst h1
    exact ⟨DragonEgg.TimerOk.fresh _ rfl rfl rfl rfl, fun _ => le_refl _⟩

theorem DragonGameManager.Inv.createDragon {nn : Prop} {t : DragonGameManager}
    (h : t.Inv nn) (e : Element) (c : Color) (l : Int) : (t.createDragon e c l).1.Inv nn := by
  refine h.transfer _ ?_ (fun x hx => Or.inl hx) (fun p hp => Or.inl hp)
    (fun s hs => Or.inl hs) rfl (Or.inl ⟨rfl, rfl, fun hi => hi⟩)
  simp [DragonGameManager.createDragon]

theorem DragonGameManager.Inv.updateEgg {nn : Prop} {t : DragonGameManager} (h : t.Inv nn)
    (i : Int) (dt : ℚ) (hdt : nn → 0 ≤ dt) : (t.updateEgg i dt).Inv nn := by
  unfold DragonGameManager.updateEgg
  by_cases ho : idOutOfRange i t.eggs_.length = true
  · rw [if_pos ho]; exact h
  rw [if_neg ho]
  cases hegg : t.eggs_[i.toNat]? with
  | none => exact h
  | some egg =>
    dsimp only
    by_cases hs : egg.state ≠ EggState.INCUBATING
    · rw [if_pos hs]; exact h
    rw [if_neg hs]
    have hinc : egg.state = EggState.INCUBATING := not_not.mp hs
    obtain ⟨hok, hnn⟩ := h.eggs egg (mem_of_getElem?_eq_some _ _ _ hegg)
    refine h.transfer _ (le_refl _) ?_ (fun p hp => Or.inl hp) (fun s hs => Or.inl hs) rfl
      (Or.inl ⟨rfl, rfl, fun hi => hi⟩)
    intro x hx
    rcases List.mem_or_eq_of_mem_set hx with h1 | h1
    · exact Or.inl h1
    · right
      rw [h1]
      refine ⟨DragonEgg.TimerOk.advance_egg egg dt hok hinc, ?_⟩
      intro hn
      have h0 := hnn hn
      have h1 := hdt hn
      split <;> exact add_nonneg h0 h1

theorem DragonGameManager.Inv.hatchEgg {nn : Prop} {t : DragonGameManager} (h : t.Inv nn)
    (i : Int) : (t.hatchEgg i).1.Inv nn := by
  unfold DragonGameManager.hatchEgg
  by_cases ho : idOutOfRange i t.eggs_.length = true
  · rw [if_pos ho]; exact h
  rw [if_neg ho]
  cases hegg : t.eggs_[i.toNat]? with
  | none => exact h
  | some egg =>
    dsimp only
    by_cases hs : egg.state ≠ EggState.READY_TO_HATCH
    · rw [if_pos hs]; exact h
    rw [if_neg hs]
    have hready : egg.state = EggState.READY_TO_HATCH := not_not.mp hs
    obtain ⟨⟨h60, hprog, hiff⟩, hnn⟩ := h.eggs egg (mem_of_getElem?_eq_some _ _ _ hegg)
    refine h.transfer _ ?_ ?_ (fun p hp => Or.inl hp) (fun s hs => Or.inl hs) rfl
      (Or.inl ⟨rfl, rfl, fun hi => hi⟩)
    · simp [DragonGameManager.createDragon]
    · intro x hx
      rcases List.mem_or_eq_of_mem_set hx with h1 | h1
      · exact Or.inl h1
      · right
        rw [h1]
        refine ⟨⟨h60, hprog, ?_⟩, hnn⟩
        constructor
        · intro hc; simp at hc
        · intro hlt
          have := hiff.mpr hlt
          rw [hready] at this
          simp at this

theorem DragonGameManager.Inv.startBreeding {nn : Prop} {t : DragonGameManager}
    (h : t.Inv nn) (a b : Int) : (t.startBreeding a b).1.Inv nn := by
  unfold DragonGameManager.startBreeding
  by_cases h1 : idOutOfRange a t.dragons_.length = true
  · rw [if_pos h1]; exact h
  rw [if_neg h1]
  by_cases h2 : idOutOfRange b t.dragons_.length = true
  · rw [if_pos h2]; exact h
  rw [if_neg h2]
  by_cases h3 : a = b
  · rw [if_pos h3]; exact h
  rw [if_neg h3]
  obtain ⟨ha0, ha1⟩ := idOutOfRange_bounds _ _ h1
  obtain ⟨hb0, hb1⟩ := idOutOfRange_bounds _ _ h2
  refine h.transfer _ (le_refl _) (fun x hx => Or.inl hx) ?_ (fun s hs => Or.inl hs) rfl
    (Or.inl ⟨rfl, rfl, fun hi => hi⟩)
  intro p hp
  simp only [List.mem_append, List.mem_singleton] at hp
  rcases hp with hp1 | hp1
  · exact Or.inl hp1
  · right
    subst hp1
    refine ⟨⟨rfl, ?_, ?_⟩, fun _ => le_refl _, ha0, ha1, hb0, hb1⟩
    · show (0 : ℚ) = min 1 (0 / 30)
      norm_num
    · show (false = false ↔ (0 : ℚ) < 30)
      norm_num

theorem DragonGameManager.Inv.updateBreeding {nn : Prop} {t : DragonGameManager}
    (h : t.Inv nn) (i : Int) (dt : ℚ) (hdt : nn → 0 ≤ dt) : (t.updateBreeding i dt).Inv nn := by
  unfold DragonGameManager.updateBreeding
  by_cases ho : idOutOfRange i t.breedingPairs_.length = true
  · rw [if_pos ho]; exact h
  rw [if_neg ho]
  cases hpair : t.breedingPairs_[i.toNat]? with
  | none => exact h
  | some pair =>
    dsimp only
    by_cases hc : pair.isComplete = true
    · rw [if_pos hc]; exact h
    rw [if_neg hc]
    have hcf : pair.isComplete = false := by simpa using hc
    obtain ⟨hok, hnn, hv1, hv2, hv3, hv4⟩ :=
      h.pairs pair (mem_of_getElem?_eq_some _ _ _ hpair)
    by_cases hprog : (pair.elapsedTime + dt) / pair.breedingTime ≥ 1
    · rw [if_pos hprog]
      cases hp1 : t.dragons_[pair.parent1Id.toNat]? with
      | none => exact h
      | some parent1 =>
        cases hp2 : t.dragons_[pair.parent2Id.toNat]? with
        | none => exact h
        | some parent2 =>
          dsimp only
          refine h.transfer _ (le_refl _) ?_ ?_ (fun s hs => Or.inl hs) rfl
            (Or.inl ⟨rfl, rfl, fun hi => hi⟩)
          · intro x hx
            simp only [List.mem_append, List.mem_singleton] at hx
            rcases hx with hx1 | hx1
            · exact Or.inl hx1
            · right
              subst hx1
              exact ⟨DragonEgg.TimerOk.fresh _ rfl rfl rfl rfl, fun _ => le_refl _⟩
          · intro p hp
            rcases List.mem_or_eq_of_mem_set hp with hq | hq
            · exact Or.inl hq
            · right
              rw [hq]
              exact ⟨BreedingPair.TimerOk.complete pair dt _ hok hprog,
                fun hn => add_nonneg (hnn hn) (hdt hn), hv1, hv2, hv3, hv4⟩
    · rw [if_neg hprog]
      refine h.transfer _ (le_refl _) (fun x hx => Or.inl hx) ?_ (fun s hs => Or.inl hs) rfl
        (Or.inl ⟨rfl, rfl, fun hi => hi⟩)
      intro p hp
      rcases List.mem_or_eq_of_mem_set hp with hq | hq
      · exact Or.inl hq
      · right
        rw [hq]
        exact ⟨BreedingPair.TimerOk.advance_pair pair dt hok hcf hprog,
          fun hn => add_nonneg (hnn hn) (hdt hn), hv1, hv2, hv3, hv4⟩

theorem DragonGameManager.Inv.startBattle {nn : Prop} {t : DragonGameManager}
    (h : t.Inv nn) (a b : Int) : (t.startBattle a b).Inv nn := by
  unfold DragonGameManager.startBattle
  by_cases h1 : idOutOfRange a t.dragons_.length = true
  · rw [if_pos h1]; exact h
  rw [if_neg h1]
  by_cases h2 : idOutOfRange b t.dragons_.length = true
  · rw [if_pos h2]; exact h
  rw [if_neg h2]
  obtain ⟨ha0, ha1⟩ := idOutOfRange_bounds _ _ h1
  obtain ⟨hb0, hb1⟩ := idOutOfRange_bounds _ _ h2
  refine h.transfer _ (le_refl _) (fun x hx => Or.inl hx) (fun p hp => Or.inl hp)
    (fun s hs => Or.inl hs) rfl (Or.inr ⟨a.toNat, b.toNat, rfl, rfl, ?_, ?_⟩)
  · omega
  · omega

theorem DragonGameManager.Inv.updateBattle {nn : Prop} {t : DragonGameManager}
    (h : t.Inv nn) (dt : ℚ) (r : Nat) : (t.updateBattle dt r).Inv nn := by
  have hsame : ∀ st : BattleState, t.battleState_ ≠ BattleState.IDLE →
      ∀ tm : ℚ, ({ t with battleState_ := st, battleAnimTime_ := tm } :
        DragonGameManager).Inv nn := by
    intro st hst tm
    exact h.transfer _ (le_refl _) (fun x hx => Or.inl hx) (fun p hp => Or.inl hp)
      (fun s hs => Or.inl hs) rfl (Or.inl ⟨rfl, rfl, fun hidle => absurd hidle hst⟩)
  have htime : ∀ tm : ℚ, ({ t with battleAnimTime_ := tm } : DragonGameManager).Inv nn := by
    intro tm
    exact h.transfer _ (le_refl _) (fun x hx => Or.inl hx) (fun p hp => Or.inl hp)
      (fun s hs => Or.inl hs) rfl (Or.inl ⟨rfl, rfl, fun hi => hi⟩)
  unfold DragonGameManager.updateBattle
  dsimp only
  cases hst : t.battleState_ with
  | BATTLE_START =>
    dsimp only
    split
    · exact hsame _ (by rw [hst]; decide) _
    · have := htime (binary32 (t.battleAnimTime_ + dt))
      rw [hst] at this
      exact this
  | ENEMY_TURN =>
    dsimp only
    have hne : t.battleState_ ≠ BattleState.IDLE := by rw [hst]; decide
    by_cases htm : binary32 (t.battleAnimTime_ + dt) > 1
    · rw [if_pos htm]
      split
      · rename_i move pi player enemy hmove hpi hplayer henemy
        refine h.transfer _ ?_ (fun x hx => Or.inl hx) (fun p hp => Or.inl hp)
          (fun s hs => Or.inl hs) rfl (Or.inl ⟨rfl, rfl, fun hi => absurd hi hne⟩)
        simp
      · have := htime (binary32 (t.battleAnimTime_ + dt))
        rw [hst] at this
        exact this
    · rw [if_neg htm]
      have := htime (binary32 (t.battleAnimTime_ + dt))
      rw [hst] at this
      exact this
  | IDLE =>
    have := htime (binary32 (t.battleAnimTime_ + dt))
    rw [hst] at this
    exact this
  | SELECTING_DRAGON =>
    have := htime (binary32 (t.battleAnimTime_ + dt))
    rw [hst] at this
    exact this
  | PLAYER_TURN =>
    have := htime (binary32 (t.battleAnimTime_ + dt))
    rw [hst] at this
    exact this
  | BATTLE_END =>
    have := htime (binary32 (t.battleAnimTime_ + dt))
    rw [hst] at this
    exact this
  | VICTORY =>
    have := htime (binary32 (t.battleAnimTime_ + dt))
    rw [hst] at this
    exact this
  | DEFEAT =>
    have := htime (binary32 (t.battleAnimTime_ + dt))
    rw [hst] at this
    exact this

theorem DragonGameManager.Inv.performBattleAction {nn : Prop} {t : DragonGameManager}
    (h : t.Inv nn) (action : BattleAction) (moveIndex : Int) :
    (t.performBattleAction action moveIndex).Inv nn := by
  unfold DragonGameManager.performBattleAction
  by_cases hst : t.battleState_ ≠ BattleState.PLAYER_TURN
  · rw [if_pos hst]; exact h
  rw [if_neg hst]
  have hpt : t.battleState_ = BattleState.PLAYER_TURN := not_not.mp hst
  have hne : t.battleState_ ≠ BattleState.IDLE := by rw [hpt]; decide
  split
  · split
    · dsimp only
      split
      · split
        · refine h.transfer _ ?_ (fun x hx => Or.inl hx) (fun p hp => Or.inl hp)
            (fun s hs => Or.inl hs) rfl (Or.inl ⟨rfl, rfl, fun hi => absurd hi hne⟩)
          simp
        · exact h
      · refine h.transfer _ ?_ (fun x hx => Or.inl hx) (fun p hp => Or.inl hp)
          (fun s hs => Or.inl hs) rfl (Or.inl ⟨rfl, rfl, fun hi => absurd hi hne⟩)
        simp
    · exact h
  · exact h

theorem DragonGameManager.Inv.startTraining {nn : Prop} {t : DragonGameManager}
    (h : t.Inv nn) (i : Int) (ty : TrainingType) : (t.startTraining i ty).1.Inv nn := by
  unfold DragonGameManager.startTraining
  by_cases h1 : idOutOfRange i t.dragons_.length = true
  · rw [if_pos h1]; exact h
  rw [if_neg h1]
  obtain ⟨ha0, ha1⟩ := idOutOfRange_bounds _ _ h1
  refine h.transfer _ (le_refl _) (fun x hx => Or.inl hx) (fun p hp => Or.inl hp) ?_ rfl
    (Or.inl ⟨rfl, rfl, fun hi => hi⟩)
  intro s hs
  simp only [List.mem_append, List.mem_singleton] at hs
  rcases hs with hs1 | hs1
  · exact Or.inl hs1
  · right
    subst hs1
    refine ⟨⟨rfl, ?_, ?_⟩, fun _ => le_refl _, ha0, ha1⟩
    · show (0 : ℚ) = min 1 (0 / 45)
      norm_num
    · show (false = false ↔ (0 : ℚ) < 45)
      norm_num

theorem DragonGameManager.Inv.updateTraining {nn : Prop} {t : DragonGameManager}
    (h : t.Inv nn) (i : Int) (dt : ℚ) (hdt : nn → 0 ≤ dt) : (t.updateTraining i dt).Inv nn := by
  unfold DragonGameManager.updateTraining
  by_cases ho : idOutOfRange i t.trainingSessions_.length = true
  · rw [if_pos ho]; exact h
  rw [if_neg ho]
  cases hs : t.trainingSessions_[i.toNat]? with
  | none => exact h
  | some session =>
    dsimp only
    by_cases hc : session.isComplete = true
    · rw [if_pos hc]; exact h
    rw [if_neg hc]
    have hcf : session.isComplete = false := by simpa using hc
    obtain ⟨hok, hnn, hv1, hv2⟩ :=
      h.sessions session (mem_of_getElem?_eq_some _ _ _ hs)
    refine h.transfer _ (le_refl _) (fun x hx => Or.inl hx) (fun p hp => Or.inl hp) ?_ rfl
      (Or.inl ⟨rfl, rfl, fun hi => hi⟩)
    intro s2 hs2
    rcases List.mem_or_eq_of_mem_set hs2 with hq | hq
    · exact Or.inl hq
    · right
      rw [hq]
      refine ⟨TrainingSession.TimerOk.advance_session session dt hok hcf, ?_, ?_, ?_⟩
      · intro hn
        have h0 := hnn hn
        have h1 := hdt hn
        split <;> exact add_nonneg h0 h1
      · split <;> exact hv1
      · split <;> exact hv2

theorem DragonGameManager.Inv.completeTraining {nn : Prop} {t : DragonGameManager}
    (h : t.Inv nn) (i : Int) : (t.completeTraining i).Inv nn := by
  unfold DragonGameManager.completeTraining
  by_cases ho : idOutOfRange i t.trainingSessions_.length = true
  · rw [if_pos ho]; exact h
  rw [if_neg ho]
  cases hs : t.trainingSessions_[i.toNat]? with
  | none => exact h
  | some session =>
    dsimp only
    by_cases hc : (!session.isComplete) = true
    · rw [if_pos hc]; exact h
    rw [if_neg hc]
    cases hd : t.dragons_[session.dragonId.toNat]? with
    | none => exact h
    | some dragon =>
      dsimp only
      refine h.transfer _ ?_ (fun x hx => Or.inl hx) (fun p hp => Or.inl hp)
        (fun s hs => Or.inl hs) rfl (Or.inl ⟨rfl, rfl, fun hi => hi⟩)
      simp

theorem DragonGameManager.Inv.step {nn : Prop} {t : DragonGameManager} (h : t.Inv nn)
    (op : ManagerOp) (hdt : nn → 0 ≤ op.progressDelta) : (t.step op).Inv nn := by
  cases op with
  | createEgg e c => exact h.createEgg e c
  | updateEgg i dt => exact h.updateEgg i dt hdt
  | hatchEgg i => exact h.hatchEgg i
  | startBreeding a b => exact h.startBreeding a b
  | updateBreeding i dt => exact h.updateBreeding i dt hdt
  | startBattle a b => exact h.startBattle a b
  | updateBattle dt r => exact h.updateBattle dt r
  | performBattleAction a i => exact h.performBattleAction a i
  | startTraining i ty => exact h.startTraining i ty
  | updateTraining i dt => exact h.updateTraining i dt hdt
  | completeTraining i => exact h.completeTraining i
  | createDragon e c l => exact h.createDragon e c l

theorem DragonGameManager.Inv.init (nn : Prop) : DragonGameManager.new.Inv nn := by
  refine ⟨?_, ?_, ?_, rfl, Or.inl rfl⟩
  · intro e he; simp [DragonGameManager.new] at he
  · intro p hp; simp [DragonGameManager.new] at hp
  · intro s hs; simp [DragonGameManager.new] at hs

theorem DragonGameManager.Inv.foldl {nn : Prop} (ops : List ManagerOp)
    (t : DragonGameManager) (h : t.Inv nn) (hdt : ∀ op ∈ ops, nn → 0 ≤ op.progressDelta) :
    (ops.foldl DragonGameManager.step t).Inv nn := by
  induction ops generalizing t with
  | nil => exact h
  | cons op rest ih =>
    exact ih (t.step op) (h.step op (hdt op (List.mem_cons_self _ _)))
      (fun o ho => hdt o (List.mem_cons_of_mem _ ho))

theorem DragonGameManager.Inv.of_reachable (t : DragonGameManager) (h : t.Reachable) :
    t.Inv False := by
  obtain ⟨ops, rfl⟩ := h
  exact DragonGameManager.Inv.foldl ops _ (DragonGameManager.Inv.init False)
    (fun _ _ hf => hf.elim)

/-! ## Dragon game manager: progress accumulators -/

/-- C11 (failing input): after `createEgg` followed by `updateEgg(0, -15)` the egg is still
Incubating with elapsed time -15 and progress `-15 / 60 = -0.25` (both exact in binary32),
whereas `clamp01(elapsed / duration)` is 0: progress is neither
`clamp01(elapsed / duration)` nor within the range `0.0 to 1.0` that `dragon_game.h` states
for the field.  `updateEgg` bounds progress from above only. -/
theorem negative_delta_progress_below_zero :
    ∃ e ∈ (DragonGameManager.exec negativeDeltaOps).eggs_,
      e.state = EggState.INCUBATING ∧ e.elapsedTime = -15 ∧
      e.incubationProgress = -(1 / 4) ∧ e.incubationProgress < 0 ∧
      clamp01 (e.elapsedTime / e.hatchTime) = 0 := by
  have hst : (DragonGameManager.exec negativeDeltaOps).eggs_ =
      [{ id := 0, shellColor := Color.rgb 1 0 0, state := EggState.INCUBATING,
         incubationProgress := -(1 / 4), hatchTime := 60, elapsedTime := -15,
         position := { x := 0, y := 0, z := 0 }, element := Element.FIRE }] := by
    simp [DragonGameManager.exec, negativeDeltaOps, DragonGameManager.step,
      DragonGameManager.createEgg, DragonGameManager.updateEgg, idOutOfRange,
      DragonGameManager.new, DragonEgg.new]
    norm_num
  refine ⟨_, by rw [hst]; exact List.mem_singleton_self _, rfl, rfl, rfl, ?_, ?_⟩
  · norm_num
  · simp only [clamp01]
    norm_num

/-! ## Dragon game manager: the player's attack -/

theorem lt_length_of_getElem? {α : Type} (l : List α) (i : Nat) (a : α) (h : l[i]? = some a) :
    i < l.length := by
  rw [List.getElem?_eq_some] at h
  exact h.1

theorem DragonGameManager.performBattleAction_attack (t : DragonGameManager) (i : Int)
    (pi ei : Nat) (player enemy : BattleDragon) (move : BattleMove)
    (hst : t.battleState_ = BattleState.PLAYER_TURN) (hi0 : 0 ≤ i)
    (hi1 : i < (t.battleMoves_.length : Int)) (hmove : t.battleMoves_[i.toNat]? = some move)
    (hp : t.playerDragon_ = some pi) (he : t.enemyDragon_ = some ei)
    (hplayer : t.dragons_[pi]? = some player) (henemy : t.dragons_[ei]? = some enemy) :
    t.performBattleAction BattleAction.ATTACK i =
      if enemy.currentHP - DragonGameManager.calculateDamage player enemy move ≤ 0 then
        match (t.dragons_.set ei { enemy with
            currentHP := enemy.currentHP -
              DragonGameManager.calculateDamage player enemy move })[pi]? with
        | some player1 =>
          { t with
            dragons_ := (t.dragons_.set ei { enemy with
                currentHP := enemy.currentHP -
                  DragonGameManager.calculateDamage player enemy move }).set pi
              { player1 with level := player1.level + 1 },
            battleState_ := BattleState.VICTORY, battleAnimTime_ := 0 }
        | none => t
      else
        { t with
          dragons_ := t.dragons_.set ei { enemy with
            currentHP := enemy.currentHP -
              DragonGameManager.calculateDamage player enemy move },
          battleState_ := BattleState.ENEMY_TURN, battleAnimTime_ := 0 } := by
  unfold DragonGameManager.performBattleAction
  have hcond : BattleAction.ATTACK = BattleAction.ATTACK ∧ i ≥ 0 ∧
      i < (t.battleMoves_.length : Int) := ⟨rfl, hi0, hi1⟩
  rw [if_neg (not_not.mpr hst), if_pos hcond]
  simp only [hmove, hp, he, DragonGameManager.deref, hplayer, henemy]

/-- C16 (counterexample): after `createDragon`, `startBattle(0, 0)` and `updateBattle(3)`
the battle is in state PlayerTurn with dragon 0 as player dragon (and as enemy dragon);
`performBattleAction(ATTACK, 0)` then changes the player dragon's HP from 110 to 76. -/
theorem self_battle_attack_changes_player_hp :
    (DragonGameManager.exec selfBattleOps).battleState_ = BattleState.PLAYER_TURN ∧
      (DragonGameManager.exec selfBattleOps).playerDragon_ = some 0 ∧
      (DragonGameManager.exec selfBattleOps).dragons_.map BattleDragon.currentHP = [110] ∧
      (((DragonGameManager.exec selfBattleOps).performBattleAction BattleAction.ATTACK
        0).dragons_.map BattleDragon.currentHP) = [76] := by
  have b37 : binary32 (37 : ℚ) = 37 := by simpa using binary32_natCast 37 (by norm_num)
  have b6 : binary32 (6 : ℚ) = 6 := by simpa using binary32_natCast 6 (by norm_num)
  have b34 : binary32 (34 : ℚ) = 34 := by simpa using binary32_natCast 34 (by norm_num)
  refine ⟨?_, ?_, ?_, ?_⟩
  · simp [DragonGameManager.exec, selfBattleOps, DragonGameManager.step,
      DragonGameManager.createDragon, DragonGameManager.startBattle,
      DragonGameManager.updateBattle, idOutOfRange, DragonGameManager.new, BattleDragon.new,
      binary32_three]
    norm_num
  · simp [DragonGameManager.exec, selfBattleOps, DragonGameManager.step,
      DragonGameManager.createDragon, DragonGameManager.startBattle,
      DragonGameManager.updateBattle, idOutOfRange, DragonGameManager.new, BattleDragon.new,
      binary32_three]
    norm_num
  · simp [DragonGameManager.exec, selfBattleOps, DragonGameManager.step,
      DragonGameManager.createDragon, DragonGameManager.startBattle,
      DragonGameManager.updateBattle, idOutOfRange, DragonGameManager.new, BattleDragon.new,
      binary32_three]
    norm_num
  · simp [DragonGameManager.exec, selfBattleOps, DragonGameManager.step,
      DragonGameManager.createDragon, DragonGameManager.startBattle,
      DragonGameManager.updateBattle, idOutOfRange, DragonGameManager.new, BattleDragon.new,
      DragonGameManager.performBattleAction, DragonGameManager.deref,
      DragonGameManager.calculateDamage, DragonGameManager.getElementMultiplier,
      staticCastInt, binary32_three]
    norm_num [b37, b6, binary32_three, b34]
    simp [b34]

/-- C16 (amended): in every reachable state with battle state PlayerTurn,
`performBattleAction(ATTACK, i)` with a valid move index `i` reduces the enemy dragon's
currentHP by exactly `calculateDamage(player, enemy, move_i)`; if the resulting HP is
`<= 0` the state becomes Victory and the player dragon's level increases by exactly 1,
otherwise the state becomes EnemyTurn and no dragon's level changes; when the enemy dragon
is a different dragon than the player dragon, the player dragon's HP is unchanged in both
cases. -/
theorem attack_in_player_turn (t : DragonGameManager) (hr : t.Reachable)
    (hst : t.battleState_ = BattleState.PLAYER_TURN) (i : Int) (hi0 : 0 ≤ i)
    (hi1 : i < (t.battleMoves_.length : Int)) :
    ∃ (pi ei : Nat) (player enemy : BattleDragon) (move : BattleMove),
      t.playerDragon_ = some pi ∧ t.enemyDragon_ = some ei ∧
      t.dragons_[pi]? = some player ∧ t.dragons_[ei]? = some enemy ∧
      t.battleMoves_[i.toNat]? = some move ∧
      (∃ enemy2 : BattleDragon,
        (t.performBattleAction BattleAction.ATTACK i).dragons_[ei]? = some enemy2 ∧
        enemy2.currentHP =
          enemy.currentHP - DragonGameManager.calculateDamage player enemy move) ∧
      (enemy.currentHP - DragonGameManager.calculateDamage player enemy move ≤ 0 →
        (t.performBattleAction BattleAction.ATTACK i).battleState_ = BattleState.VICTORY ∧
        ∃ player2 : BattleDragon,
          (t.performBattleAction BattleAction.ATTACK i).dragons_[pi]? = some player2 ∧
          player2.level = player.level + 1) ∧
      (¬ enemy.currentHP - DragonGameManager.calculateDamage player enemy move ≤ 0 →
        (t.performBattleAction BattleAction.ATTACK i).battleState_ = BattleState.ENEMY_TURN ∧
        ∀ (j : Nat) (d : BattleDragon), t.dragons_[j]? = some d →
          ∃ d2 : BattleDragon,
            (t.performBattleAction BattleAction.ATTACK i).dragons_[j]? = some d2 ∧
            d2.level = d.level) ∧
      (pi ≠ ei →
        ∃ player2 : BattleDragon,
          (t.performBattleAction BattleAction.ATTACK i).dragons_[pi]? = some player2 ∧
          player2.currentHP = player.currentHP) := by
  have hinv := DragonGameManager.Inv.of_reachable t hr
  have hnidle : ¬ t.battleState_ = BattleState.IDLE := by rw [hst]; decide
  rcases hinv.battle with hidle | ⟨pi, ei, hp, he, hpi, hei⟩
  · exact absurd hidle hnidle
  have hplayer : t.dragons_[pi]? = some (t.dragons_[pi]) := List.getElem?_eq_getElem hpi
  have henemy : t.dragons_[ei]? = some (t.dragons_[ei]) := List.getElem?_eq_getElem hei
  have hilt : i.toNat < t.battleMoves_.length := by omega
  have hmove : t.battleMoves_[i.toNat]? = some (t.battleMoves_[i.toNat]) :=
    List.getElem?_eq_getElem hilt
  generalize t.dragons_[pi] = player at hplayer
  generalize t.dragons_[ei] = enemy at henemy
  generalize t.battleMoves_[i.toNat] = move at hmove
  have heq := DragonGameManager.performBattleAction_attack t i pi ei player enemy move hst hi0
    hi1 hmove hp he hplayer henemy
  refine ⟨pi, ei, player, enemy, move, hp, he, hplayer, henemy, hmove, ?_, ?_, ?_, ?_⟩
  · rw [heq]
    by_cases hv : enemy.currentHP - DragonGameManager.calculateDamage player enemy move ≤ 0
    · rw [if_pos hv]
      by_cases hpe : pi = ei
      · subst hpe
        rw [List.getElem?_set_self hpi]
        refine ⟨_, List.getElem?_set_self (by rw [List.length_set]; exact hpi), rfl⟩
      · rw [List.getElem?_set_ne (Ne.symm hpe), hplayer]
        refine ⟨{ enemy with
          currentHP := enemy.currentHP -
            DragonGameManager.calculateDamage player enemy move }, ?_, rfl⟩
        show ((t.dragons_.set ei _).set pi _)[ei]? = _
        rw [List.getElem?_set_ne hpe, List.getElem?_set_self hei]
    · rw [if_neg hv]
      refine ⟨_, List.getElem?_set_self hei, ?_⟩
      rfl
  · intro hv
    rw [heq, if_pos hv]
    by_cases hpe : pi = ei
    · subst hpe
      rw [List.getElem?_set_self hpi]
      have hsame : player = enemy := Option.some.inj (hplayer.symm.trans henemy)
      refine ⟨rfl, _, List.getElem?_set_self (by rw [List.length_set]; exact hpi), ?_⟩
      rw [hsame]
    · rw [List.getElem?_set_ne (Ne.symm hpe), hplayer]
      refine ⟨rfl, _, List.getElem?_set_self (by rw [List.length_set]; exact hpi), ?_⟩
      rfl
  · intro hv
    rw [heq, if_neg hv]
    refine ⟨rfl, ?_⟩
    intro j d hd
    by_cases hje : ei = j
    · subst hje
      have hsame : d = enemy := Option.some.inj (hd.symm.trans henemy)
      refine ⟨_, List.getElem?_set_self hei, ?_⟩
      rw [hsame]
    · refine ⟨d, ?_, rfl⟩
      show (t.dragons_.set ei _)[j]? = _
      rw [List.getElem?_set_ne hje, hd]
  · intro hpe
    rw [heq]
    by_cases hv : enemy.currentHP - DragonGameManager.calculateDamage player enemy move ≤ 0
    · rw [if_pos hv, List.getElem?_set_ne (Ne.symm hpe), hplayer]
      refine ⟨_, List.getElem?_set_self (by rw [List.length_set]; exact hpi), ?_⟩
      rfl
    · rw [if_neg hv]
      refine ⟨player, ?_, rfl⟩
      show (t.dragons_.set ei _)[pi]? = _
      rw [List.getElem?_set_ne (Ne.symm hpe), hplayer]

theorem battleOps_player_turn :
    (DragonGameManager.exec battleOps).battleState_ = BattleState.PLAYER_TURN := by
  simp [DragonGameManager.exec, battleOps, DragonGameManager.step,
    DragonGameManager.createDragon, DragonGameManager.startBattle,
    DragonGameManager.updateBattle, idOutOfRange, DragonGameManager.new, BattleDragon.new,
    binary32_three]
  norm_num

theorem attack_in_player_turn_witness :
    (DragonGameManager.exec battleOps).Reachable ∧
      (DragonGameManager.exec battleOps).battleState_ = BattleState.PLAYER_TURN ∧
      (0 : Int) < ((DragonGameManager.exec battleOps).battleMoves_.length : Int) ∧
      ∃ pi ei : Nat, (DragonGameManager.exec battleOps).playerDragon_ = some pi ∧
        (DragonGameManager.exec battleOps).enemyDragon_ = some ei :=
  have hr : (DragonGameManager.exec battleOps).Reachable := ⟨battleOps, rfl⟩
  have hm : (0 : Int) < ((DragonGameManager.exec battleOps).battleMoves_.length : Int) := by
    rw [(DragonGameManager.Inv.of_reachable _ hr).moves]
    simp [DragonGameManager.new]
  ⟨hr, battleOps_player_turn, hm,
    match attack_in_player_turn _ hr battleOps_player_turn 0 (le_refl 0) hm with
    | ⟨pi, ei, _, _, _, hp, he, _⟩ => ⟨pi, ei, hp, he⟩⟩

/-! ## Dragon game manager: timed battle transitions -/

theorem DragonGameManager.updateBattle_wait (t : DragonGameManager) (dt : ℚ) (r : Nat)
    (θ : ℚ)
    (hst : (t.battleState_ = BattleState.BATTLE_START ∧ θ = 2) ∨
      (t.battleState_ = BattleState.ENEMY_TURN ∧ θ = 1))
    (hle : binary32 (t.battleAnimTime_ + dt) ≤ θ) :
    t.updateBattle dt r = { t with battleAnimTime_ := binary32 (t.battleAnimTime_ + dt) } := by
  unfold DragonGameManager.updateBattle
  rcases hst with ⟨hs, hθ⟩ | ⟨hs, hθ⟩
  · subst hθ
    simp only [hs]
    rw [if_neg (not_lt.mpr hle)]
  · subst hθ
    simp only [hs]
    rw [if_neg (not_lt.mpr hle)]

theorem accumulateTimer_cons (start d : ℚ) (ds : List ℚ) :
    accumulateTimer start (d :: ds) = accumulateTimer (binary32 (start + d)) ds := rfl

theorem DragonGameManager.updateBattleSeq_wait (steps : List (ℚ × Nat))
    (t : DragonGameManager) (θ : ℚ)
    (hst : (t.battleState_ = BattleState.BATTLE_START ∧ θ = 2) ∨
      (t.battleState_ = BattleState.ENEMY_TURN ∧ θ = 1))
    (hle : ∀ k : Nat, 1 ≤ k → k ≤ steps.length →
      accumulateTimer t.battleAnimTime_ ((steps.take k).map Prod.fst) ≤ θ) :
    t.updateBattleSeq steps =
      { t with battleAnimTime_ := accumulateTimer t.battleAnimTime_ (steps.map Prod.fst) } := by
  induction steps generalizing t with
  | nil =>
    simp [DragonGameManager.updateBattleSeq, accumulateTimer]
  | cons x rest ih =>
    have h1 : binary32 (t.battleAnimTime_ + x.1) ≤ θ := by
      have := hle 1 (le_refl 1) (by simp)
      simpa [accumulateTimer] using this
    have hstep := DragonGameManager.updateBattle_wait t x.1 x.2 θ hst h1
    have hunfold : t.updateBattleSeq (x :: rest) =
        (t.updateBattle x.1 x.2).updateBattleSeq rest := rfl
    rw [hunfold, hstep]
    rw [ih { t with battleAnimTime_ := binary32 (t.battleAnimTime_ + x.1) } hst]
    · simp only [List.map_cons, accumulateTimer_cons]
    · intro k hk1 hk2
      have := hle (k + 1) (by omega) (by simp; omega)
      simp only [List.take_succ_cons, List.map_cons, accumulateTimer_cons] at this
      exact this

/-- While every partial sum is a binary32 value the rounded timer is the exact sum. -/
theorem accumulateTimer_exact (deltas : List ℚ) (start : ℚ)
    (h : ∀ k : Nat, 1 ≤ k → k ≤ deltas.length →
      binary32 (start + (deltas.take k).sum) = start + (deltas.take k).sum) :
    accumulateTimer start deltas = start + deltas.sum := by
  induction deltas generalizing start with
  | nil => simp [accumulateTimer]
  | cons d ds ih =>
    have h1 : binary32 (start + d) = start + d := by
      have := h 1 (le_refl 1) (by simp)
      simpa using this
    rw [accumulateTimer_cons, h1, ih (start + d)]
    · simp only [List.sum_cons, add_assoc]
    · intro k hk1 hk2
      have := h (k + 1) (by omega) (by simp; omega)
      simp only [List.take_succ_cons, List.sum_cons, ← add_assoc] at this
      exact this

theorem DragonGameManager.updateBattle_enemy (t : DragonGameManager) (dt : ℚ) (r : Nat)
    (pi ei : Nat) (player enemy : BattleDragon) (move : BattleMove)
    (hst : t.battleState_ = BattleState.ENEMY_TURN)
    (htm : binary32 (t.battleAnimTime_ + dt) > 1)
    (hmove : t.battleMoves_[r % t.battleMoves_.length]? = some move)
    (hp : t.playerDragon_ = some pi) (he : t.enemyDragon_ = some ei)
    (hplayer : t.dragons_[pi]? = some player) (henemy : t.dragons_[ei]? = some enemy) :
    t.updateBattle dt r =
      { t with
        dragons_ := t.dragons_.set pi { player with
          currentHP := player.currentHP -
            DragonGameManager.calculateDamage enemy player move },
        battleState_ :=
          if player.currentHP - DragonGameManager.calculateDamage enemy player move ≤ 0 then
            BattleState.DEFEAT
          else BattleState.PLAYER_TURN,
        battleAnimTime_ := 0 } := by
  unfold DragonGameManager.updateBattle
  simp only [hst]
  rw [if_pos htm]
  simp only [hmove, hp, he, DragonGameManager.deref, hplayer, henemy]

theorem DragonGameManager.performBattleAction_cases (t : DragonGameManager)
    (action : BattleAction) (i : Int) :
    t.performBattleAction action i = t ∨
      (t.performBattleAction action i).battleState_ = BattleState.VICTORY ∨
      ((t.performBattleAction action i).battleState_ = BattleState.ENEMY_TURN ∧
        (t.performBattleAction action i).battleAnimTime_ = 0) := by
  unfold DragonGameManager.performBattleAction
  split
  · exact Or.inl rfl
  · split
    · split
      · dsimp only
        split
        · split
          · exact Or.inr (Or.inl rfl)
          · exact Or.inl rfl
        · exact Or.inr (Or.inr ⟨rfl, rfl⟩)
      · exact Or.inl rfl
    · exact Or.inl rfl

theorem DragonGameManager.performBattleAction_enemy_turn_timer (t : DragonGameManager)
    (action : BattleAction) (i : Int) (hst : t.battleState_ = BattleState.PLAYER_TURN)
    (hnew : (t.performBattleAction action i).battleState_ = BattleState.ENEMY_TURN) :
    (t.performBattleAction action i).battleAnimTime_ = 0 := by
  rcases DragonGameManager.performBattleAction_cases t action i with h | h | h
  · rw [h, hst] at hnew
    exact absurd hnew (by decide)
  · rw [h] at hnew
    exact absurd hnew (by decide)
  · exact h.2

theorem enemyTurnOps_state :
    (DragonGameManager.exec enemyTurnOps).battleState_ = BattleState.ENEMY_TURN ∧
      (DragonGameManager.exec enemyTurnOps).battleAnimTime_ = 0 ∧
      (DragonGameManager.exec enemyTurnOps).dragons_.map BattleDragon.currentHP =
        [110, 59] := by
  have b37 : binary32 (37 : ℚ) = 37 := by simpa using binary32_natCast 37 (by norm_num)
  have b6 : binary32 (6 : ℚ) = 6 := by simpa using binary32_natCast 6 (by norm_num)
  have b34 : binary32 (34 : ℚ) = 34 := by simpa using binary32_natCast 34 (by norm_num)
  have b51 : binary32 (51 : ℚ) = 51 := by simpa using binary32_natCast 51 (by norm_num)
  refine ⟨?_, ?_, ?_⟩ <;>
  · simp [DragonGameManager.exec, enemyTurnOps, battleOps, DragonGameManager.step,
      DragonGameManager.createDragon, DragonGameManager.startBattle,
      DragonGameManager.updateBattle, idOutOfRange, DragonGameManager.new, BattleDragon.new,
      DragonGameManager.performBattleAction, DragonGameManager.deref,
      DragonGameManager.calculateDamage, DragonGameManager.getElementMultiplier,
      staticCastInt, binary32_three]
    norm_num [b37, b6, binary32_three, b34, b51]

/-- C17 (counterexample): in the battle of dragon 0 against dragon 1 the player attacks with
move 0, which enters EnemyTurn with timer 0 (HP 110 and 59).  Then `updateBattle(0.8f)` and
`updateBattle(0.2f)` are called, with `0.8f = 13421773 / 2 ^ 24` and
`0.2f = 13421773 / 2 ^ 26` the binary32 values of 0.8 and 0.2.  The time accumulated since
the turn began is `0.8f + 0.2f = 1 + 2 ^ -26 > 1 s`, but the timer holds the rounded sum 1,
which is not `> 1`: for every value of `rand()` the state is still EnemyTurn and no HP has
changed. -/
theorem enemy_turn_waits_past_one_second :
    (DragonGameManager.exec enemyTurnOps).battleState_ = BattleState.ENEMY_TURN ∧
      (DragonGameManager.exec enemyTurnOps).battleAnimTime_ = 0 ∧
      binary32 (4 / 5) = 13421773 / 16777216 ∧ binary32 (1 / 5) = 13421773 / 67108864 ∧
      (13421773 / 16777216 + 13421773 / 67108864 : ℚ) > 1 ∧
      ∀ r1 r2 : Nat,
        (((DragonGameManager.exec enemyTurnOps).updateBattle (13421773 / 16777216)
          r1).updateBattle (13421773 / 67108864) r2) =
          { DragonGameManager.exec enemyTurnOps with battleAnimTime_ := 1 } := by
  obtain ⟨hst, htm, _⟩ := enemyTurnOps_state
  have h08 : binary32 (4 / 5) = 13421773 / 16777216 := by
    rw [binary32_round (4 / 5) (-1) 13421773 (by norm_num) (by norm_num) (by norm_num)
      (by norm_num) (by norm_num)]
    norm_num
  have h02 : binary32 (1 / 5) = 13421773 / 67108864 := by
    rw [binary32_round (1 / 5) (-3) 13421773 (by norm_num) (by norm_num) (by norm_num)
      (by norm_num) (by norm_num)]
    norm_num
  have e1 : binary32 (0 + 13421773 / 16777216 : ℚ) = 13421773 / 16777216 := by
    have h := binary32_dyadic 13421773 24 (by norm_num) (by norm_num)
    norm_num at h ⊢
    exact h
  have e2 : binary32 (13421773 / 16777216 + 13421773 / 67108864 : ℚ) = 1 := by
    rw [binary32_round _ 0 8388608 (by norm_num) (by norm_num) (by norm_num) (by norm_num)
      (by norm_num)]
    norm_num
  refine ⟨hst, htm, h08, h02, by norm_num, ?_⟩
  intro r1 r2
  have s1 := DragonGameManager.updateBattle_wait (DragonGameManager.exec enemyTurnOps)
    (13421773 / 16777216) r1 1 (Or.inr ⟨hst, rfl⟩) (by rw [htm, e1]; norm_num)
  rw [s1, htm, e1]
  have s2 := DragonGameManager.updateBattle_wait
    { DragonGameManager.exec enemyTurnOps with battleAnimTime_ := 13421773 / 16777216 }
    (13421773 / 67108864) r2 1 (Or.inr ⟨hst, rfl⟩) (by simp only [e2]; norm_num)
  rw [s2]
  simp only [e2]

/-- C17 (amended): `updateBattle` follows the timed transitions, the accumulated time being
the value of the float timer `battleAnimTime_`, to which each call adds its delta time
with rounding to binary32 (`accumulateTimer`; it is the exact sum of the delta times while
every partial sum is a binary32 value).  `startBattle` with valid ids enters BattleStart
with timer 0.  In BattleStart the state stays BattleStart (timer accumulating, dragons
untouched) as long as the timer does not exceed 2 s, and becomes PlayerTurn on the call at
which it exceeds 2 s.  In EnemyTurn (entered with timer 0) nothing but the timer changes
as long as the timer does not exceed 1 s; on the call at which it exceeds 1 s the player
dragon's HP is reduced by `calculateDamage(enemy, player, m)` for a move `m` of the move
list and the state becomes Defeat if that HP is `<= 0` and PlayerTurn otherwise.  In
PlayerTurn, Victory, Defeat, BattleEnd and Idle `updateBattle` changes neither the battle
state nor any dragon. -/
theorem updateBattle_timed_transitions (t : DragonGameManager) (hr : t.Reachable) (dt : ℚ)
    (r : Nat) :
    (∀ a b : Int, idOutOfRange a t.dragons_.length = false →
        idOutOfRange b t.dragons_.length = false →
        (t.startBattle a b).battleState_ = BattleState.BATTLE_START ∧
          (t.startBattle a b).battleAnimTime_ = 0) ∧
      (∀ (start : ℚ) (deltas : List ℚ),
        (∀ k : Nat, 1 ≤ k → k ≤ deltas.length →
          binary32 (start + (deltas.take k).sum) = start + (deltas.take k).sum) →
        accumulateTimer start deltas = start + deltas.sum) ∧
      (t.battleState_ = BattleState.BATTLE_START →
        (t.updateBattle dt r).dragons_ = t.dragons_ ∧
        (binary32 (t.battleAnimTime_ + dt) > 2 →
          (t.updateBattle dt r).battleState_ = BattleState.PLAYER_TURN) ∧
        (¬ binary32 (t.battleAnimTime_ + dt) > 2 →
          (t.updateBattle dt r).battleState_ = BattleState.BATTLE_START ∧
            (t.updateBattle dt r).battleAnimTime_ = binary32 (t.battleAnimTime_ + dt)) ∧
        (∀ steps : List (ℚ × Nat),
          (∀ k : Nat, 1 ≤ k → k ≤ steps.length →
            accumulateTimer t.battleAnimTime_ ((steps.take k).map Prod.fst) ≤ 2) →
          t.updateBattleSeq steps =
            { t with
              battleAnimTime_ := accumulateTimer t.battleAnimTime_ (steps.map Prod.fst) })) ∧
      (t.battleState_ = BattleState.ENEMY_TURN →
        (¬ binary32 (t.battleAnimTime_ + dt) > 1 →
          t.updateBattle dt r =
            { t with battleAnimTime_ := binary32 (t.battleAnimTime_ + dt) }) ∧
        (∀ steps : List (ℚ × Nat),
          (∀ k : Nat, 1 ≤ k → k ≤ steps.length →
            accumulateTimer t.battleAnimTime_ ((steps.take k).map Prod.fst) ≤ 1) →
          t.updateBattleSeq steps =
            { t with
              battleAnimTime_ := accumulateTimer t.battleAnimTime_ (steps.map Prod.fst) }) ∧
        (binary32 (t.battleAnimTime_ + dt) > 1 →
          ∃ (pi ei : Nat) (player enemy : BattleDragon) (move : BattleMove),
            t.playerDragon_ = some pi ∧ t.enemyDragon_ = some ei ∧
            t.dragons_[pi]? = some player ∧ t.dragons_[ei]? = some enemy ∧
            move ∈ t.battleMoves_ ∧
            (t.updateBattle dt r).dragons_ =
              t.dragons_.set pi { player with
                currentHP := player.currentHP -
                  DragonGameManager.calculateDamage enemy player move } ∧
            (player.currentHP - DragonGameManager.calculateDamage enemy player move ≤ 0 →
              (t.updateBattle dt r).battleState_ = BattleState.DEFEAT) ∧
            (¬ player.currentHP - DragonGameManager.calculateDamage enemy player move ≤ 0 →
              (t.updateBattle dt r).battleState_ = BattleState.PLAYER_TURN))) ∧
      ((t.battleState_ = BattleState.PLAYER_TURN ∨ t.battleState_ = BattleState.VICTORY ∨
          t.battleState_ = BattleState.DEFEAT ∨ t.battleState_ = BattleState.BATTLE_END ∨
          t.battleState_ = BattleState.IDLE) →
        (t.updateBattle dt r).battleState_ = t.battleState_ ∧
          (t.updateBattle dt r).dragons_ = t.dragons_) ∧
      (∀ (action : BattleAction) (i : Int), t.battleState_ = BattleState.PLAYER_TURN →
        (t.performBattleAction action i).battleState_ = BattleState.ENEMY_TURN →
        (t.performBattleAction action i).battleAnimTime_ = 0) := by
  have hinv := DragonGameManager.Inv.of_reachable t hr
  refine ⟨?_, ?_, ?_, ?_, ?_, ?_⟩
  · intro a b ha hb
    unfold DragonGameManager.startBattle
    simp [ha, hb]
  · intro start deltas h
    exact accumulateTimer_exact deltas start h
  · intro hs
    refine ⟨?_, ?_, ?_, ?_⟩
    · unfold DragonGameManager.updateBattle
      simp only [hs]
      split <;> rfl
    · intro htm
      unfold DragonGameManager.updateBattle
      simp only [hs]
      rw [if_pos htm]
    · intro htm
      rw [DragonGameManager.updateBattle_wait t dt r 2 (Or.inl ⟨hs, rfl⟩) (not_lt.mp htm)]
      exact ⟨hs, rfl⟩
    · intro steps hsteps
      exact DragonGameManager.updateBattleSeq_wait steps t 2 (Or.inl ⟨hs, rfl⟩) hsteps
  · intro hs
    refine ⟨?_, ?_, ?_⟩
    · intro htm
      exact DragonGameManager.updateBattle_wait t dt r 1 (Or.inr ⟨hs, rfl⟩) (not_lt.mp htm)
    · intro steps hsteps
      exact DragonGameManager.updateBattleSeq_wait steps t 1 (Or.inr ⟨hs, rfl⟩) hsteps
    · intro htm
      have hnidle : ¬ t.battleState_ = BattleState.IDLE := by rw [hs]; decide
      rcases hinv.battle with hidle | ⟨pi, ei, hp, he, hpi, hei⟩
      · exact absurd hidle hnidle
      have hplayer : t.dragons_[pi]? = some (t.dragons_[pi]) := List.getElem?_eq_getElem hpi
      have henemy : t.dragons_[ei]? = some (t.dragons_[ei]) := List.getElem?_eq_getElem hei
      have hlen : t.battleMoves_.length = 5 := by
        rw [hinv.moves]; rfl
      have hilt : r % t.battleMoves_.length < t.battleMoves_.length := by
        apply Nat.mod_lt; omega
      have hmove : t.battleMoves_[r % t.battleMoves_.length]? =
          some (t.battleMoves_[r % t.battleMoves_.length]) := List.getElem?_eq_getElem hilt
      have hmem : t.battleMoves_[r % t.battleMoves_.length] ∈ t.battleMoves_ :=
        List.getElem_mem hilt
      generalize t.dragons_[pi] = player at hplayer
      generalize t.dragons_[ei] = enemy at henemy
      generalize t.battleMoves_[r % t.battleMoves_.length] = move at hmove hmem
      have heq := DragonGameManager.updateBattle_enemy t dt r pi ei player enemy move hs htm
        hmove hp he hplayer henemy
      refine ⟨pi, ei, player, enemy, move, hp, he, hplayer, henemy, hmem, ?_, ?_, ?_⟩
      · rw [heq]
      · intro hd
        rw [heq]
        exact if_pos hd
      · intro hd
        rw [heq]
        exact if_neg hd
  · intro hs
    unfold DragonGameManager.updateBattle
    rcases hs with hs | hs | hs | hs | hs <;> simp [hs]
  · intro action i hs hnew
    exact DragonGameManager.performBattleAction_enemy_turn_timer t action i hs hnew

theorem battleStartOps_state :
    (DragonGameManager.exec battleStartOps).battleState_ = BattleState.BATTLE_START ∧
      (DragonGameManager.exec battleStartOps).battleAnimTime_ = 0 := by
  constructor <;>
  · simp [DragonGameManager.exec, battleStartOps, DragonGameManager.step,
      DragonGameManager.createDragon, DragonGameManager.startBattle, idOutOfRange,
      DragonGameManager.new, BattleDragon.new]

theorem updateBattle_timed_transitions_witness :
    (DragonGameManager.exec battleStartOps).Reachable ∧
      (DragonGameManager.exec battleStartOps).battleState_ = BattleState.BATTLE_START ∧
      binary32 ((DragonGameManager.exec battleStartOps).battleAnimTime_ + 3) > 2 ∧
      ((DragonGameManager.exec battleStartOps).updateBattle 3 0).battleState_ =
        BattleState.PLAYER_TURN ∧
      (DragonGameManager.exec enemyTurnOps).Reachable ∧
      (DragonGameManager.exec enemyTurnOps).battleState_ = BattleState.ENEMY_TURN ∧
      binary32 ((DragonGameManager.exec enemyTurnOps).battleAnimTime_ + 2) > 1 ∧
      ∃ (pi : Nat) (player enemy : BattleDragon) (move : BattleMove),
        move ∈ (DragonGameManager.exec enemyTurnOps).battleMoves_ ∧
        ((DragonGameManager.exec enemyTurnOps).updateBattle 2 4).dragons_ =
          (DragonGameManager.exec enemyTurnOps).dragons_.set pi { player with
            currentHP := player.currentHP -
              DragonGameManager.calculateDamage enemy player move } :=
  have hr : (DragonGameManager.exec battleStartOps).Reachable := ⟨battleStartOps, rfl⟩
  have htm : binary32 ((DragonGameManager.exec battleStartOps).battleAnimTime_ + 3) > 2 := by
    rw [battleStartOps_state.2, zero_add, binary32_three]
    norm_num
  have hr2 : (DragonGameManager.exec enemyTurnOps).Reachable := ⟨enemyTurnOps, rfl⟩
  have htm2 : binary32 ((DragonGameManager.exec enemyTurnOps).battleAnimTime_ + 2) > 1 := by
    rw [enemyTurnOps_state.2.1, zero_add]
    have h : binary32 (2 : ℚ) = 2 := by simpa using binary32_natCast 2 (by norm_num)
    rw [h]
    norm_num
  ⟨hr, battleStartOps_state.1, htm,
    ((updateBattle_timed_transitions _ hr 3 0).2.2.1 battleStartOps_state.1).2.1 htm,
    hr2, enemyTurnOps_state.1, htm2,
    match ((updateBattle_timed_transitions _ hr2 2 4).2.2.2.1 enemyTurnOps_state.1).2.2
      htm2 with
    | ⟨pi, _, player, enemy, move, _, _, _, _, hmem, hd, _, _⟩ =>
      ⟨pi, player, enemy, move, hmem, hd⟩⟩

theorem hatchEgg_spec_witness :
    (0 : Int) ≤ 0 ∧ readyEggManager.eggs_[(0 : Int).toNat]? = some readyEgg ∧
      (readyEggManager.hatchEgg 0).2 = (readyEggManager.dragons_.length : Int) ∧
      (readyEggManager.hatchEgg 0).1.hatchEgg 0 = ((readyEggManager.hatchEgg 0).1, -1) :=
  have hegg : readyEggManager.eggs_[(0 : Int).toNat]? = some readyEgg := rfl
  match (hatchEgg_spec readyEggManager 0 readyEgg (le_refl 0) hegg).1 rfl with
  | ⟨_, _, _, _, hid, heq, hagain⟩ => ⟨le_refl 0, hegg, by rw [heq]; exact hid, hagain⟩

/-! ## Dragon game manager: completing a training -/

/-- C19: in every reachable state, `completeTraining` on a completed session changes
exactly one stat group of the session's dragon according to the training type: Strength
adds `statGain` to attack, Defense adds it to defense, Speed adds it to speed, Special adds
`2 * statGain` to maxHP and sets currentHP to the new maxHP; every other field of that
dragon, every other dragon and every other part of the manager are unchanged.  On a
session that is not complete, `completeTraining` changes nothing. -/
theorem completeTraining_spec (t : DragonGameManager) (hr : t.Reachable) (sid : Int)
    (session : TrainingSession) (h0 : 0 ≤ sid)
    (hs : t.trainingSessions_[sid.toNat]? = some session) :
    (session.isComplete = false → t.completeTraining sid = t) ∧
      (session.isComplete = true →
        ∃ dragon trained : BattleDragon,
          t.dragons_[session.dragonId.toNat]? = some dragon ∧
          t.completeTraining sid =
            { t with dragons_ := t.dragons_.set session.dragonId.toNat trained } ∧
          (t.completeTraining sid).dragons_[session.dragonId.toNat]? = some trained ∧
          (∀ j : Nat, j ≠ session.dragonId.toNat →
            (t.completeTraining sid).dragons_[j]? = t.dragons_[j]?) ∧
          (session.type = TrainingType.STRENGTH →
            trained = { dragon with attack := dragon.attack + session.statGain }) ∧
          (session.type = TrainingType.DEFENSE →
            trained = { dragon with defense := dragon.defense + session.statGain }) ∧
          (session.type = TrainingType.SPEED →
            trained = { dragon with speed := dragon.speed + session.statGain }) ∧
          (session.type = TrainingType.SPECIAL →
            trained = { dragon with
              maxHP := dragon.maxHP + 2 * session.statGain,
              currentHP := dragon.maxHP + 2 * session.statGain })) := by
  have hinv := DragonGameManager.Inv.of_reachable t hr
  have hrange := idOutOfRange_false_of_getElem t.trainingSessions_ sid session h0 hs
  obtain ⟨_, _, hd0, hd1⟩ := hinv.sessions session (mem_of_getElem?_eq_some _ _ _ hs)
  have hlt : session.dragonId.toNat < t.dragons_.length := by omega
  have hd : t.dragons_[session.dragonId.toNat]? = some (t.dragons_[session.dragonId.toNat]) :=
    List.getElem?_eq_getElem hlt
  generalize t.dragons_[session.dragonId.toNat] = dragon at hd
  constructor
  · intro hc
    unfold DragonGameManager.completeTraining
    simp [hrange, hs, hc]
  · intro hc
    let trained : BattleDragon :=
      match session.type with
      | TrainingType.STRENGTH => { dragon with attack := dragon.attack + session.statGain }
      | TrainingType.DEFENSE => { dragon with defense := dragon.defense + session.statGain }
      | TrainingType.SPEED => { dragon with speed := dragon.speed + session.statGain }
      | TrainingType.SPECIAL =>
        { dragon with
          maxHP := dragon.maxHP + session.statGain * 2,
          currentHP := dragon.maxHP + session.statGain * 2 }
    have heq : t.completeTraining sid =
        { t with dragons_ := t.dragons_.set session.dragonId.toNat trained } := by
      unfold DragonGameManager.completeTraining
      simp [hrange, hs, hc, hd, trained]
    refine ⟨dragon, trained, hd, heq, ?_, ?_, ?_, ?_, ?_, ?_⟩
    · rw [heq]
      exact List.getElem?_set_self hlt
    · intro j hj
      rw [heq]
      exact List.getElem?_set_ne (Ne.symm hj)
    · intro hty; simp only [trained, hty]
    · intro hty; simp only [trained, hty]
    · intro hty; simp only [trained, hty]
    · intro hty
      simp only [trained, hty, mul_comm session.statGain 2]

theorem trainingOps_session :
    (DragonGameManager.exec trainingOps).trainingSessions_[(0 : Int).toNat]? =
      some completedSession := by
  simp [DragonGameManager.exec, trainingOps, DragonGameManager.step,
    DragonGameManager.createDragon, DragonGameManager.startTraining,
    DragonGameManager.updateTraining, idOutOfRange, DragonGameManager.new, BattleDragon.new,
    TrainingSession.new, completedSession]

theorem completeTraining_spec_witness :
    (DragonGameManager.exec trainingOps).Reachable ∧ (0 : Int) ≤ 0 ∧
      (DragonGameManager.exec trainingOps).trainingSessions_[(0 : Int).toNat]? =
        some completedSession ∧
      ∃ dragon trained : BattleDragon,
        (DragonGameManager.exec trainingOps).dragons_[completedSession.dragonId.toNat]? =
          some dragon ∧
        ((DragonGameManager.exec trainingOps).completeTraining
          0).dragons_[completedSession.dragonId.toNat]? = some trained ∧
        trained = { dragon with attack := dragon.attack + completedSession.statGain } :=
  have hr : (DragonGameManager.exec trainingOps).Reachable := ⟨trainingOps, rfl⟩
  match (completeTraining_spec _ hr 0 completedSession (le_refl 0) trainingOps_session).2
    rfl with
  | ⟨dragon, trained, hd, _, hget, _, hstrength, _⟩ =>
    ⟨hr, le_refl 0, trainingOps_session, dragon, trained, hd, hget, hstrength rfl⟩

/-! ## Height query -/

theorem negativeTerrain_eq :
    negativeTerrain =
      { chunkSize_ := 1, maxHeight_ := 4, renderDistance_ := 0,
        chunks_ := [({ x := -1, z := 0 }, negativeChunk)],
        lastPlayerChunk_ := { x := -1, z := 0 } } := by
  have h3 : Int.toNat 3 = 3 := rfl
  simp [negativeTerrain, ChunkTerrain.run, ChunkTerrain.update, ChunkTerrain.new,
    ChunkTerrain.worldToChunk, ChunkTerrain.coordsAround, intRange,
    ChunkTerrain.generateIfAbsent, ChunkMap.find, ChunkTerrain.generateChunk, ChunkMap.assign,
    ChunkTerrain.unloadDistantChunks, chunkDist, staticCastInt, List.range_succ,
    ChunkTerrain.buildChunk, ChunkTerrain.generateColumn, ChunkTerrain.getBiomeAt, flatLib,
    ChunkTerrain.columnHeight, ChunkTerrain.fbmNoise, ChunkTerrain.fbmLoop,
    ChunkTerrain.noise2D, ChunkTerrain.blockColor, negativeChunk]
  norm_num
  simp [h3, List.range_succ]
  norm_num [Color.rgb]

theorem staticCastInt_neg_half : staticCastInt ((-1 : ℚ) / 2) = 0 := by
  have h : ¬ (0 : ℚ) ≤ -1 / 2 := by norm_num
  rw [staticCastInt, if_neg h, Int.ceil_eq_iff]; norm_num

theorem negativeTerrain_find :
    negativeTerrain.chunks_.find (negativeTerrain.worldToChunk (-1) 0) = some negativeChunk := by
  rw [negativeTerrain_eq]
  have hf : ⌊(-1 : ℚ) / 2⌋ = -1 := by rw [Int.floor_eq_iff]; norm_num
  have h1 := staticCastInt_intCast (-1)
  have h0 := staticCastInt_intCast 0
  simp only [Int.cast_neg, Int.cast_one, Int.cast_zero] at h1 h0
  simp [ChunkMap.find, ChunkTerrain.worldToChunk, List.lookup, hf, h1, h0]

theorem foldl_max_filter {α : Type} (c : α → Prop) [DecidablePred c] (f : α → ℚ)
    (ps : List α) (m : ℚ) :
    ps.foldl (fun maxY p => if c p then max maxY (f p) else maxY) m =
      ((List.filter (fun p => decide (c p)) ps).map f).foldl max m := by
  induction ps generalizing m with
  | nil => rfl
  | cons p ps ih =>
    rw [List.foldl_cons, ih]
    by_cases h : c p
    · simp [h]
    · simp [h]

theorem getHeightAt_eq_specColumnTop (lib : MathLib) (t : ChunkTerrain) (x z : ℚ)
    (chunk : Chunk) (hfind : t.chunks_.find (t.worldToChunk x z) = some chunk)
    (hx : 0 ≤ x) (hz : 0 ≤ z)
    (hgrid : ∀ pos ∈ chunk.blockPositions, ∃ i k : Int, pos.x = 2 * i ∧ pos.z = 2 * k) :
    t.getHeightAt lib x z = specColumnTop chunk x z := by
  have hqx : staticCastInt (x / 2) = ⌊x / 2⌋ := by
    unfold staticCastInt
    rw [if_pos (by positivity)]
  have hqz : staticCastInt (z / 2) = ⌊z / 2⌋ := by
    unfold staticCastInt
    rw [if_pos (by positivity)]
  have hb : ∀ pos ∈ chunk.blockPositions,
      staticCastInt (pos.x / 2) = ⌊pos.x / 2⌋ ∧ staticCastInt (pos.z / 2) = ⌊pos.z / 2⌋ := by
    intro pos hpos
    obtain ⟨i, k, hi, hk⟩ := hgrid pos hpos
    have h1 : pos.x / 2 = (i : ℚ) := by rw [hi]; ring
    have h2 : pos.z / 2 = (k : ℚ) := by rw [hk]; ring
    rw [h1, h2, staticCastInt_intCast, staticCastInt_intCast, Int.floor_intCast,
      Int.floor_intCast]
    exact ⟨rfl, rfl⟩
  unfold ChunkTerrain.getHeightAt specColumnTop
  rw [hfind]
  dsimp only
  rw [foldl_max_filter, hqx, hqz]
  congr 2
  apply List.filter_congr
  intro pos hpos
  rw [(hb pos hpos).1, (hb pos hpos).2]

/-- C21 (the code departs from the claim at a negative coordinate).  Where `x >= 0` and
`z >= 0`, the owning chunk is loaded and its blocks lie on the 2-unit grid,
`getHeightAt(x, z)` is the maximum of `y + 2` over the blocks whose column
`(floor(block.x / 2), floor(block.z / 2))` equals `(floor(x / 2), floor(z / 2))`.  At a
negative coordinate it is not: after `ChunkTerrain(1, 4, 0).update((-1, 0, 0))` the owning
chunk `(-1, 0)` of the world position `(-1, 0)` is loaded and holds the column of blocks at
`x = -2` with tops 2, 4 and 6; the maximum over the blocks whose column equals
`(floor(-1 / 2), floor(0 / 2)) = (-1, 0)` is 6, but `getHeightAt(-1, 0)` returns 0, because
`static_cast<int>(-1 / 2.0f)` is 0, not -1, and no block of the chunk matches. -/
theorem getHeightAt_negative_coordinate :
    (∀ (lib : MathLib) (t : ChunkTerrain) (x z : ℚ) (chunk : Chunk),
        t.chunks_.find (t.worldToChunk x z) = some chunk → 0 ≤ x → 0 ≤ z →
        (∀ pos ∈ chunk.blockPositions, ∃ i k : Int, pos.x = 2 * i ∧ pos.z = 2 * k) →
        t.getHeightAt lib x z = specColumnTop chunk x z) ∧
      negativeTerrain.chunks_.find (negativeTerrain.worldToChunk (-1) 0) =
        some negativeChunk ∧
      ChunkTerrain.getHeightAt flatLib negativeTerrain (-1) 0 = 0 ∧
      specColumnTop negativeChunk (-1) 0 = 6 := by
  have h1 := staticCastInt_intCast (-1)
  simp only [Int.cast_neg, Int.cast_one] at h1
  refine ⟨getHeightAt_eq_specColumnTop, negativeTerrain_find, ?_, ?_⟩
  · unfold ChunkTerrain.getHeightAt
    rw [negativeTerrain_find]
    simp [negativeChunk, staticCastInt_neg_half, h1]
  · simp [specColumnTop, negativeChunk]
    norm_num

/-- C22 (amended): for every store and world position `(x, z)`: if the owning chunk is not
loaded, `getHeightAt(x, z)` returns the biome-based estimate for `getBiomeAt(x, z)`
(Water 6, Lava 8, Mountains 30, Plains 10); if it is loaded and none of its blocks passes
the column test of the loop, `getHeightAt(x, z)` returns 0, the initial value of the
maximum.  The query is a total function of the store and the position. -/
theorem getHeightAt_fallback (lib : MathLib) (t : ChunkTerrain) (x z : ℚ) :
    (t.chunks_.find (t.worldToChunk x z) = none →
        t.getHeightAt lib x z = ChunkTerrain.estimateHeight (ChunkTerrain.getBiomeAt lib x z)) ∧
      (∀ chunk : Chunk, t.chunks_.find (t.worldToChunk x z) = some chunk →
        (∀ pos ∈ chunk.blockPositions,
          ¬ (staticCastInt (pos.x / 2) = staticCastInt (x / 2) ∧
              staticCastInt (pos.z / 2) = staticCastInt (z / 2))) →
        t.getHeightAt lib x z = 0) ∧
      ChunkTerrain.estimateHeight BiomeType.WATER = 6 ∧
      ChunkTerrain.estimateHeight BiomeType.LAVA = 8 ∧
      ChunkTerrain.estimateHeight BiomeType.MOUNTAINS = 30 ∧
      ChunkTerrain.estimateHeight BiomeType.PLAINS = 10 := by
  refine ⟨?_, ?_, rfl, rfl, rfl, rfl⟩
  · intro h
    simp only [ChunkTerrain.getHeightAt, h]
  · intro chunk h hno
    simp only [ChunkTerrain.getHeightAt, h]
    generalize chunk.blockPositions = ps at hno
    induction ps using List.reverseRecOn with
    | nil => rfl
    | append_singleton ps p ih =>
      rw [List.foldl_append, List.foldl_cons, List.foldl_nil,
        if_neg (hno p (by simp)), ih (fun q hq => hno q (by simp [hq]))]

/-! ## Terrain rendering -/

theorem Renderer.foldl_range_take (xs : List Cube) (r : Renderer) (n : Nat) :
    (List.range n).foldl
        (fun r i => match xs[i]? with
          | some c => r.addCubeToBatch c
          | none => r) r =
      r.addCubes (xs.take n) := by
  induction n with
  | zero => simp [Renderer.addCubes]
  | succ n ih =>
    rw [List.range_succ, List.foldl_append, ih, List.take_succ]
    cases h : xs[n]? with
    | none => simp [h]
    | some c => simp [h, Renderer.addCubes, List.foldl_append]

theorem Chunk.getElem?_cubes (chunk : Chunk) (i : Nat) :
    chunk.cubes[i]? =
      match chunk.blockPositions[i]?, chunk.blockColors[i]? with
      | some position, some color =>
        some { position := position, size := { x := 2, y := 2, z := 2 }, color := color }
      | _, _ => none := by
  unfold Chunk.cubes
  rw [List.getElem?_zipWith]
  cases chunk.blockPositions[i]? <;> cases chunk.blockColors[i]? <;> rfl

theorem ChunkTerrain.renderBlocks_eq (chunk : Chunk) (r : Renderer) :
    ChunkTerrain.renderBlocks chunk r = r.addCubes chunk.cubes := by
  have hfun : ChunkTerrain.renderBlock chunk =
      fun r i => match chunk.cubes[i]? with
        | some c => r.addCubeToBatch c
        | none => r := by
    funext r i
    rw [Chunk.getElem?_cubes]
    unfold ChunkTerrain.renderBlock
    cases chunk.blockPositions[i]? <;> cases chunk.blockColors[i]? <;> rfl
  unfold ChunkTerrain.renderBlocks
  rw [hfun, Renderer.foldl_range_take, List.take_of_length_le]
  simp [Chunk.cubes, List.length_zipWith]

theorem ChunkTerrain.render_fold (cam : ChunkCoord) (chunks : ChunkMap) (r : Renderer) :
    chunks.foldl
        (fun r pair =>
          if !pair.2.isGenerated then r
          else if chunkDist pair.1 cam > 2 then r
          else ChunkTerrain.renderBlocks pair.2 r) r =
      r.addCubes
        ((List.filter (fun e => e.2.isGenerated && decide (chunkDist e.1 cam ≤ 2))
          chunks).flatMap fun e => e.2.cubes) := by
  induction chunks generalizing r with
  | nil => rfl
  | cons e rest ih =>
    rw [List.foldl_cons, ih]
    by_cases hg : e.2.isGenerated = true
    · by_cases hd : chunkDist e.1 cam > 2
      · have hd2 : ¬ chunkDist e.1 cam ≤ 2 := not_le.mpr hd
        simp [hg, hd, hd2]
      · have hd2 : chunkDist e.1 cam ≤ 2 := not_lt.mp hd
        simp [hg, hd, hd2, ChunkTerrain.renderBlocks_eq, Renderer.addCubes, List.foldl_append]
    · simp [hg]

theorem zipWith_left_of_length_le {α β : Type} (as : List α) (bs : List β)
    (h : as.length ≤ bs.length) : List.zipWith (fun a _ => a) as bs = as := by
  induction as generalizing bs with
  | nil => simp
  | cons a as ih =>
    cases bs with
    | nil => simp at h
    | cons b bs =>
      simp only [List.zipWith_cons_cons, List.cons.injEq, true_and]
      exact ih bs (by simpa using h)

theorem zipWith_right_of_length_le {α β : Type} (as : List α) (bs : List β)
    (h : bs.length ≤ as.length) : List.zipWith (fun _ b => b) as bs = bs := by
  induction bs generalizing as with
  | nil => simp
  | cons b bs ih =>
    cases as with
    | nil => simp at h
    | cons a as =>
      simp only [List.zipWith_cons_cons, List.cons.injEq, true_and]
      exact ih as (by simpa using h)

/-- C23: for every chunk store, renderer and camera position, `ChunkTerrain::render` is one
`beginBatch` / `endBatch` pair around the cubes of exactly the stored chunks that are
generated and whose Chebyshev distance from `worldToChunk(camera)` is at most 2, in store
order, and it returns the terrain unchanged; a cube is submitted iff it belongs to such a
chunk; for a chunk with index-aligned lists there is one cube per block, with the block's
position, its stored colour and size `(2, 2, 2)`; the submitted cubes do not depend on
`renderDistance`. -/
theorem render_batches_visible_chunks (t : ChunkTerrain) (renderer : Renderer)
    (cameraPos : Vec3) :
    t.render renderer cameraPos = (t, renderer.batch (t.visibleCubes cameraPos)) ∧
      (∀ cube : Cube, cube ∈ t.visibleCubes cameraPos ↔
        ∃ e ∈ t.chunks_, e.2.isGenerated = true ∧
          chunkDist e.1 (t.worldToChunk cameraPos.x cameraPos.z) ≤ 2 ∧ cube ∈ e.2.cubes) ∧
      (∀ chunk : Chunk, chunk.blockPositions.length = chunk.blockColors.length →
        chunk.cubes.map Cube.position = chunk.blockPositions ∧
          chunk.cubes.map Cube.color = chunk.blockColors ∧
          ∀ c ∈ chunk.cubes, c.size = { x := 2, y := 2, z := 2 }) ∧
      (∀ d : Int, ChunkTerrain.visibleCubes { t with renderDistance_ := d } cameraPos =
        t.visibleCubes cameraPos) := by
  refine ⟨?_, ?_, ?_, ?_⟩
  · simp only [ChunkTerrain.render, ChunkTerrain.render_fold, Renderer.batch,
      ChunkTerrain.visibleCubes]
  · intro cube
    simp only [ChunkTerrain.visibleCubes, List.mem_flatMap, List.mem_filter, Bool.and_eq_true,
      decide_eq_true_eq]
    constructor
    · rintro ⟨e, ⟨he, hg, hd⟩, hc⟩
      exact ⟨e, he, hg, hd, hc⟩
    · rintro ⟨e, he, hg, hd, hc⟩
      exact ⟨e, ⟨he, hg, hd⟩, hc⟩
  · intro chunk hlen
    unfold Chunk.cubes
    refine ⟨?_, ?_, ?_⟩
    · rw [List.map_zipWith]
      exact zipWith_left_of_length_le _ _ (le_of_eq hlen)
    · rw [List.map_zipWith]
      exact zipWith_right_of_length_le _ _ (le_of_eq hlen.symm)
    · intro c hc
      obtain ⟨i, hi, rfl⟩ := List.getElem_of_mem hc
      simp
  · intro d
    rfl

/-! ## Index-aligned block lists -/

theorem foldl_push_lengths (ys : List Int) (f : Int → Vec3) (g : Int → Color) (c0 : Chunk)
    (h : c0.blockPositions.length = c0.blockColors.length) :
    (ys.foldl
        (fun ch y =>
          { ch with
            blockPositions := ch.blockPositions ++ [f y],
            blockColors := ch.blockColors ++ [g y] }) c0).blockPositions.length =
      (ys.foldl
        (fun ch y =>
          { ch with
            blockPositions := ch.blockPositions ++ [f y],
            blockColors := ch.blockColors ++ [g y] }) c0).blockColors.length := by
  induction ys generalizing c0 with
  | nil => exact h
  | cons y ys ih =>
    rw [List.foldl_cons]
    exact ih _ (by simp [h])

theorem ChunkTerrain.generateColumn_lengths (lib : MathLib) (maxHeight : Int) (chunk : Chunk)
    (worldX worldZ : Int) (h : chunk.blockPositions.length = chunk.blockColors.length) :
    (ChunkTerrain.generateColumn lib maxHeight chunk worldX worldZ).blockPositions.length =
      (ChunkTerrain.generateColumn lib maxHeight chunk worldX worldZ).blockColors.length := by
  unfold ChunkTerrain.generateColumn
  exact foldl_push_lengths _
    (fun y => { x := (worldX : ℚ) * 2, y := (y : ℚ) * 2, z := (worldZ : ℚ) * 2 })
    (fun y => ChunkTerrain.blockColor (ChunkTerrain.getBiomeAt lib worldX worldZ)
      (ChunkTerrain.columnHeight lib maxHeight (ChunkTerrain.getBiomeAt lib worldX worldZ)
        worldX worldZ) y)
    { chunk with biome := ChunkTerrain.getBiomeAt lib worldX worldZ } h

theorem ChunkTerrain.buildChunk_lengths (lib : MathLib) (chunkSize maxHeight : Int)
    (coord : ChunkCoord) :
    (ChunkTerrain.buildChunk lib chunkSize maxHeight coord).blockPositions.length =
      (ChunkTerrain.buildChunk lib chunkSize maxHeight coord).blockColors.length := by
  unfold ChunkTerrain.buildChunk
  simp only
  have inner : ∀ (zs : List Int) (ch : Chunk) (wx : Int) (sz : Int),
      ch.blockPositions.length = ch.blockColors.length →
      (zs.foldl (fun ch z => ChunkTerrain.generateColumn lib maxHeight ch wx (sz + z)) ch).blockPositions.length =
        (zs.foldl (fun ch z => ChunkTerrain.generateColumn lib maxHeight ch wx (sz + z)) ch).blockColors.length := by
    intro zs
    induction zs with
    | nil => intro ch wx sz h; exact h
    | cons z zs ih =>
      intro ch wx sz h
      exact ih _ wx sz (ChunkTerrain.generateColumn_lengths lib maxHeight ch wx (sz + z) h)
  have outer : ∀ (xs : List Int) (ch : Chunk),
      ch.blockPositions.length = ch.blockColors.length →
      (xs.foldl (fun ch x => (intRange 0 (chunkSize - 1)).foldl
        (fun ch z => ChunkTerrain.generateColumn lib maxHeight ch (coord.x * chunkSize + x) (coord.z * chunkSize + z)) ch) ch).blockPositions.length =
      (xs.foldl (fun ch x => (intRange 0 (chunkSize - 1)).foldl
        (fun ch z => ChunkTerrain.generateColumn lib maxHeight ch (coord.x * chunkSize + x) (coord.z * chunkSize + z)) ch) ch).blockColors.length := by
    intro xs
    induction xs with
    | nil => intro ch h; exact h
    | cons x xs ih =>
      intro ch h
      exact ih _ (inner _ ch _ _ h)
  exact outer _ _ rfl

theorem ChunkTerrain.generateIfAbsent_aligned (lib : MathLib) (t : ChunkTerrain)
    (k : ChunkCoord)
    (h : ∀ e ∈ t.chunks_, e.2.blockPositions.length = e.2.blockColors.length) :
    ∀ e ∈ (ChunkTerrain.generateIfAbsent lib t k).chunks_,
      e.2.blockPositions.length = e.2.blockColors.length := by
  unfold ChunkTerrain.generateIfAbsent ChunkTerrain.generateChunk
  split
  · intro e he
    rcases ChunkMap.mem_assign _ _ _ _ he with rfl | hm
    · exact ChunkTerrain.buildChunk_lengths lib _ _ _
    · exact h e hm
  · exact h

theorem ChunkTerrain.update_aligned (lib : MathLib) (t : ChunkTerrain) (p : Vec3)
    (h : ∀ e ∈ t.chunks_, e.2.blockPositions.length = e.2.blockColors.length) :
    ∀ e ∈ (t.update lib p).chunks_,
      e.2.blockPositions.length = e.2.blockColors.length := by
  rw [ChunkTerrain.update_eq]
  have hall : ∀ (cs : List ChunkCoord) (s : ChunkTerrain),
      (∀ e ∈ s.chunks_, e.2.blockPositions.length = e.2.blockColors.length) →
      ∀ e ∈ (cs.foldl (ChunkTerrain.generateIfAbsent lib) s).chunks_,
        e.2.blockPositions.length = e.2.blockColors.length := by
    intro cs
    induction cs with
    | nil => intro s hs; exact hs
    | cons k cs ih =>
      intro s hs
      exact ih _ (ChunkTerrain.generateIfAbsent_aligned lib s k hs)
  intro e he
  exact hall _ t h e (List.mem_filter.mp he).1

/-- C30: every chunk built by `generateChunk` has block position and block colour lists of
equal length; the chunk that `generateChunk(coord)` stores under `coord` has; and in every
store reached from a freshly constructed terrain by a sequence of `update` calls every
chunk has, so that the read `blockColors[i]` of `render` is in bounds for every
`i < blockPositions.size()`. -/
theorem generated_chunks_index_aligned (lib : MathLib)
    (chunkSize maxHeight renderDistance : Int) :
    (∀ coord : ChunkCoord,
        (ChunkTerrain.buildChunk lib chunkSize maxHeight coord).blockPositions.length =
          (ChunkTerrain.buildChunk lib chunkSize maxHeight coord).blockColors.length) ∧
      (∀ (t : ChunkTerrain) (coord : ChunkCoord),
        ∃ chunk : Chunk, (ChunkTerrain.generateChunk lib t coord).chunks_.find coord = some chunk ∧
          chunk.blockPositions.length = chunk.blockColors.length) ∧
      (∀ positions : List Vec3,
        ∀ e ∈ (ChunkTerrain.run lib chunkSize maxHeight renderDistance positions).chunks_,
          e.2.blockPositions.length = e.2.blockColors.length ∧
            ∀ i : Nat, i < e.2.blockPositions.length → (e.2.blockColors[i]?).isSome = true) := by
  refine ⟨ChunkTerrain.buildChunk_lengths lib chunkSize maxHeight, ?_, ?_⟩
  · intro t coord
    refine ⟨ChunkTerrain.buildChunk lib t.chunkSize_ t.maxHeight_ coord, ?_,
      ChunkTerrain.buildChunk_lengths lib _ _ _⟩
    unfold ChunkTerrain.generateChunk
    simp [ChunkMap.find_assign]
  · intro positions
    have hrun : ∀ e ∈ (ChunkTerrain.run lib chunkSize maxHeight renderDistance positions).chunks_,
        e.2.blockPositions.length = e.2.blockColors.length := by
      unfold ChunkTerrain.run
      induction positions using List.reverseRecOn with
      | nil => intro e he; simp [ChunkTerrain.new] at he
      | append_singleton ps p ih =>
        rw [List.foldl_append]
        exact ChunkTerrain.update_aligned lib _ p ih
    intro e he
    refine ⟨hrun e he, ?_⟩
    intro i hi
    rw [hrun e he] at hi
    simp [hi]

/-! ## Entity update and the AI guard -/

theorem floorSqrt_hundred : floorSqrt ((10 : ℚ) * 10) = 10 := by
  unfold floorSqrt
  have hfloor : ⌊(10 : ℚ) * 10⌋.toNat = 10 * 10 := by
    have h100 : ⌊(10 : ℚ) * 10⌋ = 100 := by norm_num
    rw [h100]
    rfl
  rw [hfloor, Nat.sqrt_eq]
  norm_num

theorem Entity.update_ai_fields_enemy (sqrt : ℚ → ℚ) (e : Entity) (deltaTime : ℚ)
    (playerPos : Vec3) (rand1 rand2 : Nat)
    (hty : e.type_ = EntityType.ENEMY_DRAGON ∨ e.type_ = EntityType.ENEMY_GOBLIN) :
    (e.update sqrt deltaTime playerPos rand1 rand2).aiState_ =
        (Entity.updateAI sqrt { e with combat_ := e.combat_.update deltaTime } deltaTime
          playerPos rand1 rand2).aiState_ ∧
      (e.update sqrt deltaTime playerPos rand1 rand2).aiTimer_ =
        (Entity.updateAI sqrt { e with combat_ := e.combat_.update deltaTime } deltaTime
          playerPos rand1 rand2).aiTimer_ ∧
      (e.update sqrt deltaTime playerPos rand1 rand2).patrolTarget_ =
        (Entity.updateAI sqrt { e with combat_ := e.combat_.update deltaTime } deltaTime
          playerPos rand1 rand2).patrolTarget_ ∧
      (e.update sqrt deltaTime playerPos rand1 rand2).combat_ =
        (Entity.updateAI sqrt { e with combat_ := e.combat_.update deltaTime } deltaTime
          playerPos rand1 rand2).combat_ := by
  unfold Entity.update
  dsimp only
  rw [if_pos hty]
  split <;> exact ⟨rfl, rfl, rfl, rfl⟩

theorem Entity.update_ai_fields_other (sqrt : ℚ → ℚ) (e : Entity) (deltaTime : ℚ)
    (playerPos : Vec3) (rand1 rand2 : Nat)
    (hty : ¬ (e.type_ = EntityType.ENEMY_DRAGON ∨ e.type_ = EntityType.ENEMY_GOBLIN)) :
    (e.update sqrt deltaTime playerPos rand1 rand2).aiState_ = e.aiState_ ∧
      (e.update sqrt deltaTime playerPos rand1 rand2).aiTimer_ = e.aiTimer_ ∧
      (e.update sqrt deltaTime playerPos rand1 rand2).patrolTarget_ = e.patrolTarget_ ∧
      (e.update sqrt deltaTime playerPos rand1 rand2).combat_ = e.combat_.update deltaTime := by
  unfold Entity.update
  dsimp only
  rw [if_neg hty]
  split <;> exact ⟨rfl, rfl, rfl, rfl⟩

/-- C24 (counterexample): a FriendlyDragon in state Idle at distance 10 `< 15` from the
player is still in state Idle after one `Entity::update`: the AI transitions are not
applied to it. -/
theorem friendly_dragon_near_player_stays_idle :
    sampleFriendlyDragon.type_ = EntityType.FRIENDLY_DRAGON ∧
      sampleFriendlyDragon.aiState_ = AIState.IDLE ∧
      sampleFriendlyDragon.distanceTo floorSqrt origin < 15 ∧
      (sampleFriendlyDragon.update floorSqrt (1 / 60) origin 7 13).aiState_ = AIState.IDLE := by
  refine ⟨rfl, rfl, ?_, ?_⟩
  · have hd : sampleFriendlyDragon.distanceTo floorSqrt origin = 10 := by
      simp [Entity.distanceTo, sampleFriendlyDragon, Entity.newDragon, Entity.new, origin]
      exact floorSqrt_hundred
    rw [hd]
    norm_num
  · exact (Entity.update_ai_fields_other floorSqrt sampleFriendlyDragon (1 / 60) origin 7 13
      (by decide)).1

/-- C24 (amended): the AI state machine runs for the entity kinds EnemyDragon and
EnemyGoblin only.  For an entity of one of these two kinds `Entity::update` applies the AI
transitions of `updateAI` (AI state, AI timer and patrol target are those computed by
`updateAI` after the combat update), so an Idle EnemyDragon or EnemyGoblin whose distance
to the player is `< 15` is in state Chase after one update; for an entity of kind Player,
FriendlyDragon or NpcVillager `Entity::update` leaves AI state, AI timer and patrol target
unchanged. -/
theorem update_runs_ai_for_enemies_only (sqrt : ℚ → ℚ) (e : Entity) (deltaTime : ℚ)
    (playerPos : Vec3) (rand1 rand2 : Nat) :
    ((e.type_ = EntityType.ENEMY_DRAGON ∨ e.type_ = EntityType.ENEMY_GOBLIN) →
        ((e.update sqrt deltaTime playerPos rand1 rand2).aiState_ =
            (Entity.updateAI sqrt { e with combat_ := e.combat_.update deltaTime } deltaTime
              playerPos rand1 rand2).aiState_ ∧
          (e.update sqrt deltaTime playerPos rand1 rand2).aiTimer_ =
            (Entity.updateAI sqrt { e with combat_ := e.combat_.update deltaTime } deltaTime
              playerPos rand1 rand2).aiTimer_ ∧
          (e.update sqrt deltaTime playerPos rand1 rand2).patrolTarget_ =
            (Entity.updateAI sqrt { e with combat_ := e.combat_.update deltaTime } deltaTime
              playerPos rand1 rand2).patrolTarget_) ∧
        (e.aiState_ = AIState.IDLE → e.distanceTo sqrt playerPos < 15 →
          (e.update sqrt deltaTime playerPos rand1 rand2).aiState_ = AIState.CHASE)) ∧
      ((e.type_ = EntityType.PLAYER ∨ e.type_ = EntityType.FRIENDLY_DRAGON ∨
          e.type_ = EntityType.NPC_VILLAGER) →
        (e.update sqrt deltaTime playerPos rand1 rand2).aiState_ = e.aiState_ ∧
          (e.update sqrt deltaTime playerPos rand1 rand2).aiTimer_ = e.aiTimer_ ∧
          (e.update sqrt deltaTime playerPos rand1 rand2).patrolTarget_ = e.patrolTarget_) := by
  constructor
  · intro hty
    have h := Entity.update_ai_fields_enemy sqrt e deltaTime playerPos rand1 rand2 hty
    refine ⟨⟨h.1, h.2.1, h.2.2.1⟩, ?_⟩
    intro hidle hnear
    rw [h.1]
    exact (Entity.updateAI_idle_near sqrt { e with combat_ := e.combat_.update deltaTime }
      deltaTime playerPos rand1 rand2 hidle hnear).1
  · intro hty
    have hne : ¬ (e.type_ = EntityType.ENEMY_DRAGON ∨ e.type_ = EntityType.ENEMY_GOBLIN) := by
      rcases hty with h1 | h1 | h1 <;> rw [h1] <;> decide
    have h := Entity.update_ai_fields_other sqrt e deltaTime playerPos rand1 rand2 hne
    exact ⟨h.1, h.2.1, h.2.2.1⟩

/-! ## Entity manager: removing dead entities -/

theorem CombatComponent.update_health (c : CombatComponent) (dt : ℚ) :
    (c.update dt).health_ = c.health_ := by
  unfold CombatComponent.update
  split <;> rfl

theorem CombatComponent.performAttack_health (c : CombatComponent) (w : WeaponType) :
    (c.performAttack w).health_ = c.health_ := by
  unfold CombatComponent.performAttack
  split <;> rfl

theorem Entity.moveTowards_combat (sqrt : ℚ → ℚ) (e : Entity) (target : Vec3) (speed dt : ℚ) :
    (e.moveTowards sqrt target speed dt).combat_ = e.combat_ := by
  unfold Entity.moveTowards
  dsimp only
  split <;> rfl

theorem Entity.updateAI_health (sqrt : ℚ → ℚ) (e : Entity) (deltaTime : ℚ)
    (playerPos : Vec3) (rand1 rand2 : Nat) :
    (e.updateAI sqrt deltaTime playerPos rand1 rand2).combat_.health_ = e.combat_.health_ := by
  unfold Entity.updateAI
  dsimp only
  cases e.aiState_ with
  | IDLE =>
    dsimp only
    split <;> split <;> rfl
  | PATROL =>
    dsimp only
    split <;> split <;> simp [Entity.moveTowards_combat]
  | CHASE =>
    dsimp only
    split <;> split <;> simp [Entity.moveTowards_combat]
  | ATTACK =>
    dsimp only
    split <;> split <;> simp [CombatComponent.performAttack_health]
  | FLEE =>
    dsimp only
    split <;> split <;> rfl

theorem Entity.update_keeps_health (sqrt : ℚ → ℚ) (e : Entity) (deltaTime : ℚ)
    (playerPos : Vec3) (rand1 rand2 : Nat) :
    (e.update sqrt deltaTime playerPos rand1 rand2).combat_.health_ = e.combat_.health_ := by
  by_cases hty : e.type_ = EntityType.ENEMY_DRAGON ∨ e.type_ = EntityType.ENEMY_GOBLIN
  · rw [(Entity.update_ai_fields_enemy sqrt e deltaTime playerPos rand1 rand2 hty).2.2.2,
      Entity.updateAI_health]
    exact CombatComponent.update_health _ _
  · rw [(Entity.update_ai_fields_other sqrt e deltaTime playerPos rand1 rand2 hty).2.2.2]
    exact CombatComponent.update_health _ _

theorem Entity.update_isAlive (sqrt : ℚ → ℚ) (e : Entity) (deltaTime : ℚ)
    (playerPos : Vec3) (rand1 rand2 : Nat) :
    (e.update sqrt deltaTime playerPos rand1 rand2).isAlive = e.isAlive := by
  unfold Entity.isAlive
  rw [Entity.update_keeps_health]

theorem Entity.moveTowards_type (sqrt : ℚ → ℚ) (e : Entity) (target : Vec3) (speed dt : ℚ) :
    (e.moveTowards sqrt target speed dt).type_ = e.type_ := by
  unfold Entity.moveTowards
  dsimp only
  split <;> rfl

theorem Entity.updateAI_type (sqrt : ℚ → ℚ) (e : Entity) (deltaTime : ℚ)
    (playerPos : Vec3) (rand1 rand2 : Nat) :
    (e.updateAI sqrt deltaTime playerPos rand1 rand2).type_ = e.type_ := by
  unfold Entity.updateAI
  dsimp only
  cases e.aiState_ with
  | IDLE =>
    dsimp only
    split <;> split <;> rfl
  | PATROL =>
    dsimp only
    split <;> split <;> simp [Entity.moveTowards_type]
  | CHASE =>
    dsimp only
    split <;> split <;> simp [Entity.moveTowards_type]
  | ATTACK =>
    dsimp only
    split <;> split <;> rfl
  | FLEE =>
    dsimp only
    split <;> split <;> rfl

theorem Entity.update_type (sqrt : ℚ → ℚ) (e : Entity) (deltaTime : ℚ)
    (playerPos : Vec3) (rand1 rand2 : Nat) :
    (e.update sqrt deltaTime playerPos rand1 rand2).type_ = e.type_ := by
  unfold Entity.update
  dsimp only
  by_cases hty : e.type_ = EntityType.ENEMY_DRAGON ∨ e.type_ = EntityType.ENEMY_GOBLIN
  · rw [if_pos hty]
    split <;> exact Entity.updateAI_type _ _ _ _ _ _
  · rw [if_neg hty]
    split <;> rfl

theorem EntityManager.removeDeadEntities_eq_filter (entities : List Entity) :
    EntityManager.removeDeadEntities entities = entities.filter Entity.isAlive := by
  induction entities with
  | nil => rfl
  | cons e rest ih =>
    unfold EntityManager.removeDeadEntities
    by_cases h : e.isAlive = true
    · simp [h, ih]
    · simp [h, ih]

/-- C25: for every entity collection, `removeDeadEntities` leaves exactly the sub-sequence
of the entities with health `> 0` in their original relative order (no alive entity is
removed, no dead entity remains) and applying it again changes nothing; after
`EntityManager::update` the collection consists of exactly the previously alive entities,
each advanced by its own `update`, in their original relative order, with kind and health
unchanged, and a further `removeDeadEntities` changes nothing. -/
theorem removeDeadEntities_keeps_alive_in_order (sqrt : ℚ → ℚ) (entities : List Entity)
    (deltaTime : ℚ) (playerPos : Vec3) (rands : Nat → Nat × Nat) :
    (EntityManager.removeDeadEntities entities = entities.filter Entity.isAlive ∧
        List.Sublist (EntityManager.removeDeadEntities entities) entities ∧
        (∀ e : Entity, e ∈ EntityManager.removeDeadEntities entities ↔
          e ∈ entities ∧ e.combat_.health_ > 0) ∧
        EntityManager.removeDeadEntities (EntityManager.removeDeadEntities entities) =
          EntityManager.removeDeadEntities entities) ∧
      (EntityManager.update sqrt entities deltaTime playerPos rands =
          (List.filter (fun p => p.2.isAlive) entities.enum).map
            (fun p => p.2.update sqrt deltaTime playerPos (rands p.1).1 (rands p.1).2) ∧
        (EntityManager.update sqrt entities deltaTime playerPos rands).map
            (fun e => (e.type_, e.combat_.health_)) =
          (entities.filter Entity.isAlive).map (fun e => (e.type_, e.combat_.health_)) ∧
        (∀ e ∈ EntityManager.update sqrt entities deltaTime playerPos rands,
          e.combat_.health_ > 0) ∧
        EntityManager.removeDeadEntities
            (EntityManager.update sqrt entities deltaTime playerPos rands) =
          EntityManager.update sqrt entities deltaTime playerPos rands) := by
  have hupd : EntityManager.update sqrt entities deltaTime playerPos rands =
      (List.filter (fun p => p.2.isAlive) entities.enum).map
        (fun p => p.2.update sqrt deltaTime playerPos (rands p.1).1 (rands p.1).2) := by
    unfold EntityManager.update
    rw [EntityManager.removeDeadEntities_eq_filter, List.filter_map]
    congr 1
    apply List.filter_congr
    intro p _
    exact Entity.update_isAlive _ _ _ _ _ _
  have hfst : ∀ l : List (Nat × Entity),
      (List.filter (fun p => p.2.isAlive) l).map Prod.snd =
        (l.map Prod.snd).filter Entity.isAlive := by
    intro l
    rw [List.filter_map]
    rfl
  refine ⟨⟨EntityManager.removeDeadEntities_eq_filter entities, ?_, ?_, ?_⟩, hupd, ?_, ?_, ?_⟩
  · rw [EntityManager.removeDeadEntities_eq_filter]
    exact List.filter_sublist entities
  · intro e
    rw [EntityManager.removeDeadEntities_eq_filter]
    simp [List.mem_filter, Entity.isAlive]
  · simp only [EntityManager.removeDeadEntities_eq_filter, List.filter_filter, Bool.and_self]
  · rw [hupd, List.map_map]
    have hcomp : ((fun e : Entity => (e.type_, e.combat_.health_)) ∘
        fun p : Nat × Entity =>
          p.2.update sqrt deltaTime playerPos (rands p.1).1 (rands p.1).2) =
        (fun e : Entity => (e.type_, e.combat_.health_)) ∘ Prod.snd := by
      funext p
      simp [Entity.update_type, Entity.update_keeps_health]
    rw [hcomp, ← List.map_map, hfst, List.enum_map_snd]
  · intro e he
    unfold EntityManager.update at he
    rw [EntityManager.removeDeadEntities_eq_filter] at he
    simpa [Entity.isAlive] using (List.mem_filter.mp he).2
  · unfold EntityManager.update
    simp only [EntityManager.removeDeadEntities_eq_filter, List.filter_filter, Bool.and_self]

/-! ## Entity manager: range queries -/

/-- C31: `ChunkCoord::operator<` is the lexicographic strict order by `(x, then z)`: it is
irreflexive and transitive, for all coordinates `a`, `b` exactly one of `a < b`, `b < a`,
`a = b` holds, two coordinates are equivalent as map keys (neither is less than the other)
iff they are equal, and they are equal iff their `x` and their `z` are equal. -/
theorem chunkCoord_lt_strict_total_order (a b c : ChunkCoord) :
    (a.lt b = true ↔ a.x < b.x ∨ (a.x = b.x ∧ a.z < b.z)) ∧
      a.lt a = false ∧
      (a.lt b = true → b.lt c = true → a.lt c = true) ∧
      ((a.lt b = true ∧ b.lt a = false ∧ a ≠ b) ∨
        (a.lt b = false ∧ b.lt a = true ∧ a ≠ b) ∨
        (a.lt b = false ∧ b.lt a = false ∧ a = b)) ∧
      ((a.lt b = false ∧ b.lt a = false) ↔ a = b) ∧
      (a = b ↔ a.x = b.x ∧ a.z = b.z) := by
  have hcases : a.lt b = true ∨ a.lt b = false := by
    cases a.lt b <;> simp
  have hasym : a.lt b = true → b.lt a = false := by
    intro h
    have hn : ¬ b.lt a = true := by
      intro h2
      rw [ChunkCoord.lt_iff] at h h2
      omega
    simpa using hn
  have hasym2 : b.lt a = true → a.lt b = false := by
    intro h
    have hn : ¬ a.lt b = true := by
      intro h2
      rw [ChunkCoord.lt_iff] at h h2
      omega
    simpa using hn
  have hne : a.lt b = true → a ≠ b := by
    intro h he
    rw [he, ChunkCoord.lt_irrefl] at h
    cases h
  have hne2 : b.lt a = true → a ≠ b := by
    intro h he
    rw [he, ChunkCoord.lt_irrefl] at h
    cases h
  refine ⟨ChunkCoord.lt_iff a b, ChunkCoord.lt_irrefl a, ChunkCoord.lt_trans a b c, ?_, ?_, ?_⟩
  · rcases hcases with h | h
    · exact Or.inl ⟨h, hasym h, hne h⟩
    · have hcases2 : b.lt a = true ∨ b.lt a = false := by
        cases b.lt a <;> simp
      rcases hcases2 with h2 | h2
      · exact Or.inr (Or.inl ⟨h, h2, hne2 h2⟩)
      · exact Or.inr (Or.inr ⟨h, h2, ChunkCoord.eq_of_not_lt a b h h2⟩)
  · constructor
    · rintro ⟨h1, h2⟩
      exact ChunkCoord.eq_of_not_lt a b h1 h2
    · intro he
      rw [he]
      exact ⟨ChunkCoord.lt_irrefl b, ChunkCoord.lt_irrefl b⟩
  · constructor
    · intro he
      rw [he]
      exact ⟨rfl, rfl⟩
    · rintro ⟨h1, h2⟩
      obtain ⟨ax, az⟩ := a
      obtain ⟨bx, bz⟩ := b
      simp only at h1 h2
      rw [h1, h2]

/-! ## Entity AI: the transitions of one tick -/

theorem Entity.moveTowards_ai (sqrt : ℚ → ℚ) (e : Entity) (target : Vec3) (speed dt : ℚ) :
    (e.moveTowards sqrt target speed dt).aiState_ = e.aiState_ ∧
      (e.moveTowards sqrt target speed dt).aiTimer_ = e.aiTimer_ ∧
      (e.moveTowards sqrt target speed dt).position_ = e.position_ ∧
      (e.moveTowards sqrt target speed dt).patrolTarget_ = e.patrolTarget_ := by
  unfold Entity.moveTowards
  dsimp only
  split <;> exact ⟨rfl, rfl, rfl, rfl⟩

theorem Entity.distanceTo_congr (sqrt : ℚ → ℚ) (e1 e2 : Entity) (target : Vec3)
    (h : e1.position_ = e2.position_) : e1.distanceTo sqrt target = e2.distanceTo sqrt target := by
  unfold Entity.distanceTo
  rw [h]

theorem Entity.updateAI_idle (sqrt : ℚ → ℚ) (e : Entity) (deltaTime : ℚ)
    (playerPos : Vec3) (rand1 rand2 : Nat) (hs : e.aiState_ = AIState.IDLE) :
    ((e.updateAI sqrt deltaTime playerPos rand1 rand2).aiState_ =
        if e.distanceTo sqrt playerPos < 15 then AIState.CHASE
        else if e.aiTimer_ + deltaTime > 3 then AIState.PATROL
        else AIState.IDLE) ∧
      ((e.updateAI sqrt deltaTime playerPos rand1 rand2).aiTimer_ =
        if e.distanceTo sqrt playerPos < 15 ∨ e.aiTimer_ + deltaTime > 3 then 0
        else e.aiTimer_ + deltaTime) := by
  obtain ⟨ty, pos, vel, combat, st, timer, target⟩ := e
  simp only at hs
  subst hs
  have hd : ∀ e1 : Entity, e1.position_ = pos →
      e1.distanceTo sqrt playerPos =
        Entity.distanceTo sqrt ⟨ty, pos, vel, combat, AIState.IDLE, timer, target⟩ playerPos :=
    fun e1 h => Entity.distanceTo_congr _ _ _ _ h
  unfold Entity.updateAI
  dsimp only
  rw [hd _ rfl]
  generalize Entity.distanceTo sqrt ⟨ty, pos, vel, combat, AIState.IDLE, timer, target⟩
    playerPos = d
  by_cases h1 : d < 15
  · simp [h1]
  · by_cases h2 : timer + deltaTime > 3
    · simp [h1, h2]
    · simp [h1, h2]

theorem Entity.updateAI_patrol (sqrt : ℚ → ℚ) (e : Entity) (deltaTime : ℚ)
    (playerPos : Vec3) (rand1 rand2 : Nat) (hs : e.aiState_ = AIState.PATROL) :
    ((e.updateAI sqrt deltaTime playerPos rand1 rand2).aiState_ =
        if e.distanceTo sqrt playerPos < 15 then AIState.CHASE
        else if e.distanceTo sqrt e.patrolTarget_ < 2 then AIState.IDLE
        else AIState.PATROL) ∧
      ((e.updateAI sqrt deltaTime playerPos rand1 rand2).aiTimer_ =
        if e.distanceTo sqrt playerPos < 15 ∨ e.distanceTo sqrt e.patrolTarget_ < 2 then 0
        else e.aiTimer_ + deltaTime) := by
  obtain ⟨ty, pos, vel, combat, st, timer, target⟩ := e
  simp only at hs
  subst hs
  have hd : ∀ (e1 : Entity) (p : Vec3), e1.position_ = pos →
      e1.distanceTo sqrt p =
        Entity.distanceTo sqrt ⟨ty, pos, vel, combat, AIState.PATROL, timer, target⟩ p :=
    fun e1 p h => Entity.distanceTo_congr _ _ _ _ h
  have hm := Entity.moveTowards_ai sqrt
    ⟨ty, pos, vel, combat, AIState.PATROL, timer + deltaTime, target⟩ target 3 deltaTime
  unfold Entity.updateAI
  dsimp only
  rw [hd _ playerPos rfl, hm.2.2.2, hd _ target hm.2.2.1]
  generalize Entity.distanceTo sqrt ⟨ty, pos, vel, combat, AIState.PATROL, timer, target⟩
    playerPos = d
  generalize Entity.distanceTo sqrt ⟨ty, pos, vel, combat, AIState.PATROL, timer, target⟩
    target = dt2
  by_cases h1 : d < 15
  · simp [h1]
  · by_cases h2 : dt2 < 2
    · simp [h1, h2]
    · simp [h1, h2, hm.1, hm.2.1]

theorem Entity.updateAI_chase (sqrt : ℚ → ℚ) (e : Entity) (deltaTime : ℚ)
    (playerPos : Vec3) (rand1 rand2 : Nat) (hs : e.aiState_ = AIState.CHASE) :
    ((e.updateAI sqrt deltaTime playerPos rand1 rand2).aiState_ =
        if e.distanceTo sqrt playerPos > 25 then AIState.IDLE
        else if e.distanceTo sqrt playerPos < e.combat_.getAttackRange then AIState.ATTACK
        else AIState.CHASE) ∧
      ((e.updateAI sqrt deltaTime playerPos rand1 rand2).aiTimer_ =
        if e.distanceTo sqrt playerPos > 25 ∨
            e.distanceTo sqrt playerPos < e.combat_.getAttackRange then 0
        else e.aiTimer_ + deltaTime) := by
  obtain ⟨ty, pos, vel, combat, st, timer, target⟩ := e
  simp only at hs
  subst hs
  have hd : ∀ (e1 : Entity) (p : Vec3), e1.position_ = pos →
      e1.distanceTo sqrt p =
        Entity.distanceTo sqrt ⟨ty, pos, vel, combat, AIState.CHASE, timer, target⟩ p :=
    fun e1 p h => Entity.distanceTo_congr _ _ _ _ h
  have hm := Entity.moveTowards_ai sqrt
    ⟨ty, pos, vel, combat, AIState.CHASE, timer + deltaTime, target⟩ playerPos 5 deltaTime
  have hc := Entity.moveTowards_combat sqrt
    ⟨ty, pos, vel, combat, AIState.CHASE, timer + deltaTime, target⟩ playerPos 5 deltaTime
  unfold Entity.updateAI
  dsimp only
  rw [hd _ playerPos rfl, hc]
  dsimp only
  generalize Entity.distanceTo sqrt ⟨ty, pos, vel, combat, AIState.CHASE, timer, target⟩
    playerPos = d
  by_cases h1 : d > 25
  · simp [h1]
  · by_cases h2 : d < combat.getAttackRange
    · simp [h1, h2]
    · simp [h1, h2, hm.1, hm.2.1]

theorem Entity.updateAI_attack (sqrt : ℚ → ℚ) (e : Entity) (deltaTime : ℚ)
    (playerPos : Vec3) (rand1 rand2 : Nat) (hs : e.aiState_ = AIState.ATTACK) :
    ((e.updateAI sqrt deltaTime playerPos rand1 rand2).aiState_ =
        if e.distanceTo sqrt playerPos > e.combat_.getAttackRange * (15 / 10) then AIState.CHASE
        else AIState.ATTACK) ∧
      ((e.updateAI sqrt deltaTime playerPos rand1 rand2).aiTimer_ =
        if e.distanceTo sqrt playerPos > e.combat_.getAttackRange * (15 / 10) then 0
        else e.aiTimer_ + deltaTime) := by
  obtain ⟨ty, pos, vel, combat, st, timer, target⟩ := e
  simp only at hs
  subst hs
  have hd : ∀ (e1 : Entity) (p : Vec3), e1.position_ = pos →
      e1.distanceTo sqrt p =
        Entity.distanceTo sqrt ⟨ty, pos, vel, combat, AIState.ATTACK, timer, target⟩ p :=
    fun e1 p h => Entity.distanceTo_congr _ _ _ _ h
  have hr : ∀ w : WeaponType, (combat.performAttack w).getAttackRange =
      combat.getAttackRange := by
    intro w
    unfold CombatComponent.performAttack
    split <;> rfl
  unfold Entity.updateAI
  dsimp only
  rw [hd _ playerPos rfl]
  generalize Entity.distanceTo sqrt ⟨ty, pos, vel, combat, AIState.ATTACK, timer, target⟩
    playerPos = d
  by_cases hcan : combat.canAttack = true
  · simp only [hcan, if_true, hr]
    by_cases h1 : d > combat.getAttackRange * (15 / 10)
    · simp [h1]
    · simp [h1]
  · simp only [hcan]
    by_cases h1 : d > combat.getAttackRange * (15 / 10)
    · simp [h1]
    · simp [h1]

theorem Entity.updateAI_flee (sqrt : ℚ → ℚ) (e : Entity) (deltaTime : ℚ)
    (playerPos : Vec3) (rand1 rand2 : Nat) (hs : e.aiState_ = AIState.FLEE) :
    ((e.updateAI sqrt deltaTime playerPos rand1 rand2).aiState_ =
        if e.distanceTo sqrt playerPos > 20 then AIState.IDLE else AIState.FLEE) ∧
      ((e.updateAI sqrt deltaTime playerPos rand1 rand2).aiTimer_ =
        if e.distanceTo sqrt playerPos > 20 then 0 else e.aiTimer_ + deltaTime) := by
  obtain ⟨ty, pos, vel, combat, st, timer, target⟩ := e
  simp only at hs
  subst hs
  have hd : ∀ (e1 : Entity) (p : Vec3), e1.position_ = pos →
      e1.distanceTo sqrt p =
        Entity.distanceTo sqrt ⟨ty, pos, vel, combat, AIState.FLEE, timer, target⟩ p :=
    fun e1 p h => Entity.distanceTo_congr _ _ _ _ h
  unfold Entity.updateAI
  dsimp only
  rw [hd _ playerPos rfl]
  generalize Entity.distanceTo sqrt ⟨ty, pos, vel, combat, AIState.FLEE, timer, target⟩
    playerPos = d
  by_cases h1 : d > 20
  · simp [h1]
  · simp only [h1, if_false]
    split <;> exact ⟨rfl, rfl⟩

theorem floorSqrt_sq (n : Nat) : floorSqrt ((n : ℚ) * n) = n := by
  unfold floorSqrt
  have h : ((n : ℚ) * n) = ((n * n : Nat) : ℚ) := by push_cast; rfl
  rw [h, Int.floor_natCast, Int.toNat_ofNat, Nat.sqrt_eq]

theorem CombatComponent.update_getAttackRange (c : CombatComponent) (dt : ℚ) :
    (c.update dt).getAttackRange = c.getAttackRange := by
  unfold CombatComponent.update
  split <;> rfl

/-- C34: for every entity and every AI tick: if the AI state after `Entity::updateAI`
differs from the state before it, the AI timer after the tick is 0; the same holds across
`Entity::update`. -/
theorem ai_timer_resets_on_transition (sqrt : ℚ → ℚ) (e : Entity) (deltaTime : ℚ)
    (playerPos : Vec3) (rand1 rand2 : Nat) :
    ((e.updateAI sqrt deltaTime playerPos rand1 rand2).aiState_ ≠ e.aiState_ →
        (e.updateAI sqrt deltaTime playerPos rand1 rand2).aiTimer_ = 0) ∧
      ((e.update sqrt deltaTime playerPos rand1 rand2).aiState_ ≠ e.aiState_ →
        (e.update sqrt deltaTime playerPos rand1 rand2).aiTimer_ = 0) := by
  have hai : ∀ e : Entity,
      (e.updateAI sqrt deltaTime playerPos rand1 rand2).aiState_ ≠ e.aiState_ →
        (e.updateAI sqrt deltaTime playerPos rand1 rand2).aiTimer_ = 0 := by
    intro e
    cases hs : e.aiState_ with
    | IDLE =>
      obtain ⟨h1, h2⟩ := Entity.updateAI_idle sqrt e deltaTime playerPos rand1 rand2 hs
      rw [h1, h2]
      by_cases c1 : e.distanceTo sqrt playerPos < 15
      · simp [c1]
      · by_cases c2 : e.aiTimer_ + deltaTime > 3
        · simp [c1, c2]
        · simp [c1, c2]
    | PATROL =>
      obtain ⟨h1, h2⟩ := Entity.updateAI_patrol sqrt e deltaTime playerPos rand1 rand2 hs
      rw [h1, h2]
      by_cases c1 : e.distanceTo sqrt playerPos < 15
      · simp [c1]
      · by_cases c2 : e.distanceTo sqrt e.patrolTarget_ < 2
        · simp [c1, c2]
        · simp [c1, c2]
    | CHASE =>
      obtain ⟨h1, h2⟩ := Entity.updateAI_chase sqrt e deltaTime playerPos rand1 rand2 hs
      rw [h1, h2]
      by_cases c1 : e.distanceTo sqrt playerPos > 25
      · simp [c1]
      · by_cases c2 : e.distanceTo sqrt playerPos < e.combat_.getAttackRange
        · simp [c1, c2]
        · simp [c1, c2]
    | ATTACK =>
      obtain ⟨h1, h2⟩ := Entity.updateAI_attack sqrt e deltaTime playerPos rand1 rand2 hs
      rw [h1, h2]
      by_cases c1 : e.distanceTo sqrt playerPos > e.combat_.getAttackRange * (15 / 10)
      · simp [c1]
      · simp [c1]
    | FLEE =>
      obtain ⟨h1, h2⟩ := Entity.updateAI_flee sqrt e deltaTime playerPos rand1 rand2 hs
      rw [h1, h2]
      by_cases c1 : e.distanceTo sqrt playerPos > 20
      · simp [c1]
      · simp [c1]
  refine ⟨hai e, ?_⟩
  by_cases hty : e.type_ = EntityType.ENEMY_DRAGON ∨ e.type_ = EntityType.ENEMY_GOBLIN
  · obtain ⟨h1, h2, _⟩ := Entity.update_ai_fields_enemy sqrt e deltaTime playerPos rand1 rand2 hty
    rw [h1, h2]
    exact hai { e with combat_ := e.combat_.update deltaTime }
  · obtain ⟨h1, _⟩ := Entity.update_ai_fields_other sqrt e deltaTime playerPos rand1 rand2 hty
    intro hne
    exact absurd h1 hne

/-- C35 (counterexample): an EnemyGoblin that has been in state Patrol for 1000 s, at
distance 20 from the player and 10 from its patrol target, is still in state Patrol after
one AI tick (and after `Entity::update`), and it is for every value of the timer: no time
spent in Patrol moves it to Idle. -/
theorem patrol_has_no_timeout :
    patrollingGoblin.type_ = EntityType.ENEMY_GOBLIN ∧
      patrollingGoblin.aiState_ = AIState.PATROL ∧ patrollingGoblin.aiTimer_ = 1000 ∧
      patrollingGoblin.distanceTo floorSqrt farPlayer = 20 ∧
      patrollingGoblin.distanceTo floorSqrt patrollingGoblin.patrolTarget_ = 10 ∧
      (patrollingGoblin.updateAI floorSqrt (1 / 60) farPlayer 7 13).aiState_ = AIState.PATROL ∧
      (patrollingGoblin.update floorSqrt (1 / 60) farPlayer 7 13).aiState_ = AIState.PATROL ∧
      ∀ timer : ℚ,
        (Entity.updateAI floorSqrt { patrollingGoblin with aiTimer_ := timer } (1 / 60)
          farPlayer 7 13).aiState_ = AIState.PATROL := by
  have hd1 : ∀ e : Entity, e.position_ = patrollingGoblin.position_ →
      e.distanceTo floorSqrt farPlayer = 20 := by
    intro e he
    have h := floorSqrt_sq 20
    simp [Entity.distanceTo, he, patrollingGoblin, Entity.newGoblin, Entity.new, farPlayer]
    norm_num at h ⊢
    exact h
  have hd2 : ∀ e : Entity, e.position_ = patrollingGoblin.position_ →
      e.distanceTo floorSqrt patrollingGoblin.patrolTarget_ = 10 := by
    intro e he
    have h := floorSqrt_sq 10
    simp [Entity.distanceTo, he, patrollingGoblin, Entity.newGoblin, Entity.new]
    norm_num at h ⊢
    exact h
  have hall : ∀ e : Entity, e.position_ = patrollingGoblin.position_ →
      e.patrolTarget_ = patrollingGoblin.patrolTarget_ → e.aiState_ = AIState.PATROL →
      (e.updateAI floorSqrt (1 / 60) farPlayer 7 13).aiState_ = AIState.PATROL := by
    intro e hp ht hs
    rw [(Entity.updateAI_patrol floorSqrt e (1 / 60) farPlayer 7 13 hs).1, hd1 e hp, ht,
      hd2 e hp]
    norm_num
  refine ⟨rfl, rfl, rfl, hd1 _ rfl, hd2 _ rfl, hall _ rfl rfl rfl, ?_, ?_⟩
  · rw [(Entity.update_ai_fields_enemy floorSqrt patrollingGoblin (1 / 60) farPlayer 7 13
      (Or.inr rfl)).1]
    exact hall _ rfl rfl rfl
  · intro timer
    exact hall _ rfl rfl rfl

/-- C35 (amended): for an entity in state Patrol, one AI tick moves it to Chase if the
player distance is `< 15`; otherwise to Idle if its distance to the patrol target is `< 2`;
otherwise it stays in Patrol.  The resulting state does not depend on the AI timer (there
is no patrol timeout); for an EnemyDragon or EnemyGoblin this is the state after
`Entity::update`. -/
theorem patrol_transitions (sqrt : ℚ → ℚ) (e : Entity) (deltaTime : ℚ)
    (playerPos : Vec3) (rand1 rand2 : Nat) (hs : e.aiState_ = AIState.PATROL) :
    ((e.updateAI sqrt deltaTime playerPos rand1 rand2).aiState_ =
        if e.distanceTo sqrt playerPos < 15 then AIState.CHASE
        else if e.distanceTo sqrt e.patrolTarget_ < 2 then AIState.IDLE
        else AIState.PATROL) ∧
      ((e.type_ = EntityType.ENEMY_DRAGON ∨ e.type_ = EntityType.ENEMY_GOBLIN) →
        (e.update sqrt deltaTime playerPos rand1 rand2).aiState_ =
          if e.distanceTo sqrt playerPos < 15 then AIState.CHASE
          else if e.distanceTo sqrt e.patrolTarget_ < 2 then AIState.IDLE
          else AIState.PATROL) ∧
      (∀ timer : ℚ,
        (Entity.updateAI sqrt { e with aiTimer_ := timer } deltaTime playerPos rand1
          rand2).aiState_ = (e.updateAI sqrt deltaTime playerPos rand1 rand2).aiState_) := by
  have h1 := (Entity.updateAI_patrol sqrt e deltaTime playerPos rand1 rand2 hs).1
  refine ⟨h1, ?_, ?_⟩
  · intro hty
    rw [(Entity.update_ai_fields_enemy sqrt e deltaTime playerPos rand1 rand2 hty).1,
      (Entity.updateAI_patrol sqrt { e with combat_ := e.combat_.update deltaTime } deltaTime
        playerPos rand1 rand2 hs).1]
    rfl
  · intro timer
    rw [h1, (Entity.updateAI_patrol sqrt { e with aiTimer_ := timer } deltaTime playerPos rand1
      rand2 hs).1]
    rfl

theorem patrol_transitions_witness :
    patrollingGoblin.aiState_ = AIState.PATROL ∧
      (patrollingGoblin.updateAI floorSqrt (1 / 60) origin 7 13).aiState_ =
        if patrollingGoblin.distanceTo floorSqrt origin < 15 then AIState.CHASE
        else if patrollingGoblin.distanceTo floorSqrt patrollingGoblin.patrolTarget_ < 2 then
          AIState.IDLE
        else AIState.PATROL :=
  ⟨rfl, (patrol_transitions floorSqrt patrollingGoblin (1 / 60) origin 7 13 rfl).1⟩

/-- C36 (counterexample): an EnemyGoblin in state Chase that holds a Bow (attack range 30)
at distance 27 from the player is within attack range, yet one AI tick (and one
`Entity::update`) leaves it in state Idle, not Attack: the later test `distance > 25`
overwrites the state. -/
theorem bow_chaser_out_of_sight_goes_idle :
    bowGoblin.type_ = EntityType.ENEMY_GOBLIN ∧ bowGoblin.aiState_ = AIState.CHASE ∧
      bowGoblin.combat_.getWeapon = WeaponType.BOW ∧
      bowGoblin.combat_.getAttackRange = 30 ∧
      bowGoblin.distanceTo floorSqrt origin = 27 ∧
      (bowGoblin.updateAI floorSqrt (1 / 60) origin 7 13).aiState_ = AIState.IDLE ∧
      (bowGoblin.update floorSqrt (1 / 60) origin 7 13).aiState_ = AIState.IDLE := by
  have hd : ∀ e : Entity, e.position_ = bowGoblin.position_ →
      e.distanceTo floorSqrt origin = 27 := by
    intro e he
    have h := floorSqrt_sq 27
    simp [Entity.distanceTo, he, bowGoblin, Entity.newGoblin, Entity.new, origin]
    norm_num at h ⊢
    exact h
  have hall : ∀ e : Entity, e.position_ = bowGoblin.position_ → e.aiState_ = AIState.CHASE →
      (e.updateAI floorSqrt (1 / 60) origin 7 13).aiState_ = AIState.IDLE := by
    intro e hp hs
    rw [(Entity.updateAI_chase floorSqrt e (1 / 60) origin 7 13 hs).1, hd e hp]
    norm_num
  refine ⟨rfl, rfl, rfl, rfl, hd _ rfl, hall _ rfl rfl, ?_⟩
  rw [(Entity.update_ai_fields_enemy floorSqrt bowGoblin (1 / 60) origin 7 13 (Or.inr rfl)).1]
  exact hall _ rfl rfl

/-- C36 (amended): for an entity in state Chase with any current weapon, one AI tick moves
it to Idle whenever the player distance is `> 25`; otherwise to Attack when the player
distance is `<` the current weapon's attack range; otherwise it stays in Chase.  With
Fist, Sword or Staff (ranges 2, 3, 15) the entity moves to Attack whenever the distance is
below the range; only the Bow (range 30) can be within range and beyond 25.  For an
EnemyDragon or EnemyGoblin this is the state after `Entity::update`. -/
theorem chase_transitions (sqrt : ℚ → ℚ) (e : Entity) (deltaTime : ℚ)
    (playerPos : Vec3) (rand1 rand2 : Nat) (hs : e.aiState_ = AIState.CHASE) :
    ((e.updateAI sqrt deltaTime playerPos rand1 rand2).aiState_ =
        if e.distanceTo sqrt playerPos > 25 then AIState.IDLE
        else if e.distanceTo sqrt playerPos < e.combat_.getAttackRange then AIState.ATTACK
        else AIState.CHASE) ∧
      ((e.type_ = EntityType.ENEMY_DRAGON ∨ e.type_ = EntityType.ENEMY_GOBLIN) →
        (e.update sqrt deltaTime playerPos rand1 rand2).aiState_ =
          if e.distanceTo sqrt playerPos > 25 then AIState.IDLE
          else if e.distanceTo sqrt playerPos < e.combat_.getAttackRange then AIState.ATTACK
          else AIState.CHASE) ∧
      ((e.combat_.getWeapon = WeaponType.FIST ∨ e.combat_.getWeapon = WeaponType.SWORD ∨
          e.combat_.getWeapon = WeaponType.STAFF) →
        e.distanceTo sqrt playerPos < e.combat_.getAttackRange →
        (e.updateAI sqrt deltaTime playerPos rand1 rand2).aiState_ = AIState.ATTACK) ∧
      (e.combat_.getWeapon = WeaponType.BOW → e.combat_.getAttackRange = 30) := by
  have h1 := (Entity.updateAI_chase sqrt e deltaTime playerPos rand1 rand2 hs).1
  refine ⟨h1, ?_, ?_, ?_⟩
  · intro hty
    rw [(Entity.update_ai_fields_enemy sqrt e deltaTime playerPos rand1 rand2 hty).1,
      (Entity.updateAI_chase sqrt { e with combat_ := e.combat_.update deltaTime } deltaTime
        playerPos rand1 rand2 hs).1]
    dsimp only
    rw [CombatComponent.update_getAttackRange]
    rfl
  · intro hw hlt
    have hle : e.combat_.getAttackRange ≤ 15 := by
      unfold CombatComponent.getAttackRange
      unfold CombatComponent.getWeapon at hw
      rcases hw with hw | hw | hw <;> rw [hw] <;>
        simp [CombatComponent.getWeaponStats] <;> norm_num
    have hnot : ¬ e.distanceTo sqrt playerPos > 25 := by
      intro hgt
      linarith
    rw [h1, if_neg hnot, if_pos hlt]
  · intro hw
    unfold CombatComponent.getAttackRange
    unfold CombatComponent.getWeapon at hw
    rw [hw]
    rfl

theorem chase_transitions_witness :
    (sampleGoblin.setAIState AIState.CHASE).aiState_ = AIState.CHASE ∧
      ((sampleGoblin.setAIState AIState.CHASE).updateAI floorSqrt (1 / 60) origin 7
          13).aiState_ =
        if (sampleGoblin.setAIState AIState.CHASE).distanceTo floorSqrt origin > 25 then
          AIState.IDLE
        else if (sampleGoblin.setAIState AIState.CHASE).distanceTo floorSqrt origin <
            (sampleGoblin.setAIState AIState.CHASE).combat_.getAttackRange then AIState.ATTACK
        else AIState.CHASE :=
  ⟨rfl,
    (chase_transitions floorSqrt (sampleGoblin.setAIState AIState.CHASE) (1 / 60) origin 7 13
      rfl).1⟩

/-- C39: for every entity whose AI state is Idle, Patrol, Chase or Attack and for every
delta time and player position, the state after `Entity::updateAI` (and after
`Entity::update`) is again one of Idle, Patrol, Chase, Attack; every constructor starts in
Idle; `setAIState(Flee)` is what puts an entity into Flee. -/
theorem flee_not_entered_by_ai (sqrt : ℚ → ℚ) (e : Entity) (deltaTime : ℚ)
    (playerPos : Vec3) (rand1 rand2 : Nat)
    (hs : e.aiState_ = AIState.IDLE ∨ e.aiState_ = AIState.PATROL ∨
      e.aiState_ = AIState.CHASE ∨ e.aiState_ = AIState.ATTACK) :
    ((e.updateAI sqrt deltaTime playerPos rand1 rand2).aiState_ = AIState.IDLE ∨
        (e.updateAI sqrt deltaTime playerPos rand1 rand2).aiState_ = AIState.PATROL ∨
        (e.updateAI sqrt deltaTime playerPos rand1 rand2).aiState_ = AIState.CHASE ∨
        (e.updateAI sqrt deltaTime playerPos rand1 rand2).aiState_ = AIState.ATTACK) ∧
      ((e.update sqrt deltaTime playerPos rand1 rand2).aiState_ = AIState.IDLE ∨
        (e.update sqrt deltaTime playerPos rand1 rand2).aiState_ = AIState.PATROL ∨
        (e.update sqrt deltaTime playerPos rand1 rand2).aiState_ = AIState.CHASE ∨
        (e.update sqrt deltaTime playerPos rand1 rand2).aiState_ = AIState.ATTACK) ∧
      (∀ (type : EntityType) (position : Vec3),
        (Entity.new type position).aiState_ = AIState.IDLE ∧
          (Entity.newGoblin position).aiState_ = AIState.IDLE ∧
          (Entity.newDragon type position).aiState_ = AIState.IDLE) ∧
      (e.setAIState AIState.FLEE).aiState_ = AIState.FLEE := by
  have hai : ∀ e : Entity,
      (e.aiState_ = AIState.IDLE ∨ e.aiState_ = AIState.PATROL ∨
        e.aiState_ = AIState.CHASE ∨ e.aiState_ = AIState.ATTACK) →
      ((e.updateAI sqrt deltaTime playerPos rand1 rand2).aiState_ = AIState.IDLE ∨
        (e.updateAI sqrt deltaTime playerPos rand1 rand2).aiState_ = AIState.PATROL ∨
        (e.updateAI sqrt deltaTime playerPos rand1 rand2).aiState_ = AIState.CHASE ∨
        (e.updateAI sqrt deltaTime playerPos rand1 rand2).aiState_ = AIState.ATTACK) := by
    intro e hs
    rcases hs with hs | hs | hs | hs
    · rw [(Entity.updateAI_idle sqrt e deltaTime playerPos rand1 rand2 hs).1]
      split
      · simp
      · split <;> simp
    · rw [(Entity.updateAI_patrol sqrt e deltaTime playerPos rand1 rand2 hs).1]
      split
      · simp
      · split <;> simp
    · rw [(Entity.updateAI_chase sqrt e deltaTime playerPos rand1 rand2 hs).1]
      split
      · simp
      · split <;> simp
    · rw [(Entity.updateAI_attack sqrt e deltaTime playerPos rand1 rand2 hs).1]
      split <;> simp
  refine ⟨hai e hs, ?_, fun _ _ => ⟨rfl, rfl, rfl⟩, rfl⟩
  by_cases hty : e.type_ = EntityType.ENEMY_DRAGON ∨ e.type_ = EntityType.ENEMY_GOBLIN
  · rw [(Entity.update_ai_fields_enemy sqrt e deltaTime playerPos rand1 rand2 hty).1]
    exact hai { e with combat_ := e.combat_.update deltaTime } hs
  · rw [(Entity.update_ai_fields_other sqrt e deltaTime playerPos rand1 rand2 hty).1]
    exact hs

theorem flee_not_entered_by_ai_witness :
    (sampleGoblin.aiState_ = AIState.IDLE ∨ sampleGoblin.aiState_ = AIState.PATROL ∨
        sampleGoblin.aiState_ = AIState.CHASE ∨ sampleGoblin.aiState_ = AIState.ATTACK) ∧
      ((sampleGoblin.updateAI floorSqrt (1 / 60) origin 7 13).aiState_ = AIState.IDLE ∨
        (sampleGoblin.updateAI floorSqrt (1 / 60) origin 7 13).aiState_ = AIState.PATROL ∨
        (sampleGoblin.updateAI floorSqrt (1 / 60) origin 7 13).aiState_ = AIState.CHASE ∨
        (sampleGoblin.updateAI floorSqrt (1 / 60) origin 7 13).aiState_ = AIState.ATTACK) :=
  ⟨Or.inl rfl, (flee_not_entered_by_ai floorSqrt sampleGoblin (1 / 60) origin 7 13
    (Or.inl rfl)).1⟩

/-! ## Vector normalization -/

/-- C32 (counterexample): a Projectile constructed with the zero direction and speed 5 has
velocity `(0, 0, 5)`, not the zero vector; and `Vec3::normalize` of a vector of length
`10^-10` is the unit vector `(1, 0, 0)`, not the zero vector: its guard is `len > 0`. -/
theorem zero_direction_projectile_moves :
    (Projectile.new floorSqrt origin origin 10 5).velocity_ = { x := 0, y := 0, z := 5 } ∧
      (Projectile.new floorSqrt origin origin 10 5).velocity_ ≠ origin ∧
      tinyVector.length tinySqrt = 1 / 10000000000 ∧
      tinyVector.normalize tinySqrt = { x := 1, y := 0, z := 0 } := by
  have h0 : floorSqrt 0 = 0 := by
    have h := floorSqrt_sq 0
    simpa using h
  have hv : (Projectile.new floorSqrt origin origin 10 5).velocity_ =
      { x := 0, y := 0, z := 5 } := by
    simp [Projectile.new, origin, h0]
  have hl : tinyVector.length tinySqrt = 1 / 10000000000 := by
    simp [Vec3.length, tinyVector, tinySqrt]
    norm_num
  refine ⟨hv, ?_, hl, ?_⟩
  · rw [hv]
    simp [origin]
  · unfold Vec3.normalize
    simp only [hl]
    simp [tinyVector]

/-- C32 (amended): `Vec3::normalize` guards the division with the test `len > 0` (no
epsilon): it returns the zero vector when the length is not positive, in particular for
the zero vector, and the componentwise quotient otherwise.  The Projectile constructor
guards with the threshold 0.0001: when the length of the direction is not above it, in
particular for the zero direction, the velocity is `(0, 0, speed)`; otherwise it is the
direction divided by its length, times the speed. -/
theorem normalization_guards (sqrt : ℚ → ℚ) (v pos dir : Vec3) (damage speed : ℚ) :
    Vec3.normalize sqrt { x := 0, y := 0, z := 0 } = { x := 0, y := 0, z := 0 } ∧
      (¬ v.length sqrt > 0 → v.normalize sqrt = { x := 0, y := 0, z := 0 }) ∧
      (v.length sqrt > 0 →
        v.normalize sqrt =
          { x := v.x / v.length sqrt, y := v.y / v.length sqrt, z := v.z / v.length sqrt }) ∧
      (¬ sqrt (dir.x * dir.x + dir.y * dir.y + dir.z * dir.z) > 1 / 10000 →
        (Projectile.new sqrt pos dir damage speed).velocity_ = { x := 0, y := 0, z := speed }) ∧
      (sqrt (dir.x * dir.x + dir.y * dir.y + dir.z * dir.z) > 1 / 10000 →
        (Projectile.new sqrt pos dir damage speed).velocity_ =
          { x := dir.x / sqrt (dir.x * dir.x + dir.y * dir.y + dir.z * dir.z) * speed,
            y := dir.y / sqrt (dir.x * dir.x + dir.y * dir.y + dir.z * dir.z) * speed,
            z := dir.z / sqrt (dir.x * dir.x + dir.y * dir.y + dir.z * dir.z) * speed }) ∧
      (sqrt 0 = 0 →
        (Projectile.new sqrt pos { x := 0, y := 0, z := 0 } damage speed).velocity_ =
          { x := 0, y := 0, z := speed }) := by
  refine ⟨?_, ?_, ?_, ?_, ?_, ?_⟩
  · unfold Vec3.normalize
    dsimp only
    split <;> simp
  · intro h
    unfold Vec3.normalize
    dsimp only
    rw [if_neg h]
  · intro h
    unfold Vec3.normalize
    dsimp only
    rw [if_pos h]
  · intro h
    unfold Projectile.new
    dsimp only
    rw [if_neg h]
  · intro h
    unfold Projectile.new
    dsimp only
    rw [if_pos h]
  · intro h
    unfold Projectile.new
    simp [h]

/-! ## Column heights -/

theorem foldl_push_positions_length (ys : List Int) (f : Int → Vec3) (g : Int → Color)
    (c0 : Chunk) :
    (ys.foldl
        (fun ch y =>
          { ch with
            blockPositions := ch.blockPositions ++ [f y],
            blockColors := ch.blockColors ++ [g y] }) c0).blockPositions.length =
      c0.blockPositions.length + ys.length := by
  induction ys generalizing c0 with
  | nil => rfl
  | cons y ys ih =>
    rw [List.foldl_cons, ih]
    simp
    omega

theorem length_natList_cast (l : List Nat) : ((l : List Int)).length = l.length := by
  induction l with
  | nil => rfl
  | cons a l ih => simpa using ih

theorem mem_natList_cast (l : List Nat) (y : Int) :
    y ∈ ((l : List Int)) ↔ ∃ a ∈ l, y = (a : Int) := by
  simp

theorem ChunkTerrain.generateColumn_count (lib : MathLib) (maxHeight : Int) (chunk : Chunk)
    (worldX worldZ : Int) :
    (ChunkTerrain.generateColumn lib maxHeight chunk worldX worldZ).blockPositions.length =
      chunk.blockPositions.length +
        (ChunkTerrain.columnHeight lib maxHeight (ChunkTerrain.getBiomeAt lib worldX worldZ)
          worldX worldZ).toNat := by
  unfold ChunkTerrain.generateColumn
  have h := foldl_push_positions_length
    (List.range (ChunkTerrain.columnHeight lib maxHeight
      (ChunkTerrain.getBiomeAt lib worldX worldZ) worldX worldZ).toNat)
    (fun y => { x := (worldX : ℚ) * 2, y := (y : ℚ) * 2, z := (worldZ : ℚ) * 2 })
    (fun y => ChunkTerrain.blockColor (ChunkTerrain.getBiomeAt lib worldX worldZ)
      (ChunkTerrain.columnHeight lib maxHeight (ChunkTerrain.getBiomeAt lib worldX worldZ)
        worldX worldZ) y)
    { chunk with biome := ChunkTerrain.getBiomeAt lib worldX worldZ }
  rw [h, length_natList_cast, List.length_range]

/-- C33 (counterexample): the Plains column `(5, 0)` has the noise term
`n * 2 + 3 ≈ 20.68` and gets 20 blocks, while rounding to nearest gives 21 (for every math
library whose `sin` is within `10^-3` of the sine at 0.05, 0.25, 0.5, 1 and 2 and whose
`cos(0)` is 1, among them the Taylor stand-in); and the Plains column `(0, 0)` with noise
term 3 gets 3 blocks although `maxHeight = 2`: only the Mountains branch clamps. -/
theorem column_height_truncates_and_plains_unclamped :
    (taylorLib.cos 0 = 1 ∧ |taylorLib.sin (1 / 20)| ≤ 3 / 10 ∧
        (247 / 1000 < taylorLib.sin (1 / 4) ∧ taylorLib.sin (1 / 4) < 248 / 1000) ∧
        (479 / 1000 < taylorLib.sin (1 / 2) ∧ taylorLib.sin (1 / 2) < 480 / 1000) ∧
        (841 / 1000 < taylorLib.sin 1 ∧ taylorLib.sin 1 < 842 / 1000) ∧
        (909 / 1000 < taylorLib.sin 2 ∧ taylorLib.sin 2 < 910 / 1000)) ∧
      (∀ lib : MathLib, lib.cos 0 = 1 → |lib.sin (1 / 20)| ≤ 3 / 10 →
        (247 / 1000 < lib.sin (1 / 4) ∧ lib.sin (1 / 4) < 248 / 1000) →
        (479 / 1000 < lib.sin (1 / 2) ∧ lib.sin (1 / 2) < 480 / 1000) →
        (841 / 1000 < lib.sin 1 ∧ lib.sin 1 < 842 / 1000) →
        (909 / 1000 < lib.sin 2 ∧ lib.sin 2 < 910 / 1000) →
        ChunkTerrain.getBiomeAt lib 5 0 = BiomeType.PLAINS ∧
        (20 + 1 / 2 < ChunkTerrain.fbmNoise lib 5 0 2 * 2 + 3 ∧
          ChunkTerrain.fbmNoise lib 5 0 2 * 2 + 3 < 21) ∧
        round (ChunkTerrain.fbmNoise lib 5 0 2 * 2 + 3) = 21 ∧
        ChunkTerrain.columnHeight lib 20 BiomeType.PLAINS 5 0 = 20 ∧
        (ChunkTerrain.generateColumn lib 20 emptyChunk 5 0).blockPositions.length = 20) ∧
      (ChunkTerrain.getBiomeAt flatLib 0 0 = BiomeType.PLAINS ∧
        ChunkTerrain.columnHeight flatLib 2 BiomeType.PLAINS 0 0 = 3 ∧
        (ChunkTerrain.generateColumn flatLib 2 emptyChunk 0 0).blockPositions.length = 3) := by
  have hb2 : ChunkTerrain.getBiomeAt flatLib 0 0 = BiomeType.PLAINS := by
    simp [ChunkTerrain.getBiomeAt, flatLib]
    norm_num
  have hh2 : ChunkTerrain.columnHeight flatLib 2 BiomeType.PLAINS 0 0 = 3 := by
    have h2 : Int.toNat 2 = 2 := rfl
    have ht : staticCastInt (3 : ℚ) = 3 := staticCastInt_intCast 3
    simp [ChunkTerrain.columnHeight, ChunkTerrain.fbmNoise, ChunkTerrain.fbmLoop,
      ChunkTerrain.noise2D, flatLib, h2, ht]
  refine ⟨?_, ?_, hb2, hh2, ?_⟩
  · simp only [taylorLib]
    refine ⟨by norm_num, ?_, ⟨by norm_num, by norm_num⟩, ⟨by norm_num, by norm_num⟩,
      ⟨by norm_num, by norm_num⟩, ⟨by norm_num, by norm_num⟩⟩
    rw [abs_le]
    constructor <;> norm_num
  · intro lib hc hs0 ⟨a1, a2⟩ ⟨b1, b2⟩ ⟨c1, c2⟩ ⟨d1, d2⟩
    obtain ⟨hs01, hs02⟩ := abs_le.mp hs0
    have hb : ChunkTerrain.getBiomeAt lib 5 0 = BiomeType.PLAINS := by
      have e1 : (5 : ℚ) * (1 / 100) = 1 / 20 := by norm_num
      have e2 : (0 : ℚ) * (1 / 100) = 0 := by norm_num
      unfold ChunkTerrain.getBiomeAt
      simp only [e1, e2, hc, mul_one]
      rw [if_neg (by linarith), if_neg (by intro h; linarith [h.1]), if_neg (by linarith)]
    have hn : ChunkTerrain.fbmNoise lib 5 0 2 * 2 + 3 =
        (lib.sin (1 / 4) * 10 + lib.sin (1 / 2) * 5 + lib.sin 1 * 3 +
          (lib.sin (1 / 2) * 10 + lib.sin 1 * 5 + lib.sin 2 * 3) * (1 / 2)) / (3 / 2) * 2 +
          3 := by
      have h2 : Int.toNat 2 = 2 := rfl
      simp only [ChunkTerrain.fbmNoise, ChunkTerrain.fbmLoop, ChunkTerrain.noise2D, h2]
      norm_num [hc]
    have hlo : 20 + 1 / 2 < ChunkTerrain.fbmNoise lib 5 0 2 * 2 + 3 := by
      rw [hn]; linarith
    have hhi : ChunkTerrain.fbmNoise lib 5 0 2 * 2 + 3 < 21 := by
      rw [hn]; linarith
    have hh : ChunkTerrain.columnHeight lib 20 BiomeType.PLAINS 5 0 = 20 := by
      have ht : staticCastInt (ChunkTerrain.fbmNoise lib 5 0 2 * 2 + 3) = 20 := by
        unfold staticCastInt
        rw [if_pos (by linarith), Int.floor_eq_iff]
        constructor
        · push_cast; linarith
        · push_cast; linarith
      simp only [ChunkTerrain.columnHeight, Int.cast_ofNat, Int.cast_zero]
      rw [ht]
      decide
    refine ⟨hb, ⟨hlo, hhi⟩, ?_, hh, ?_⟩
    · rw [round_eq, Int.floor_eq_iff]
      constructor
      · push_cast; linarith
      · push_cast; linarith
    · have h := ChunkTerrain.generateColumn_count lib 20 emptyChunk 5 0
      simp only [Int.cast_ofNat, Int.cast_zero] at h
      rw [h, hb, hh]
      rfl
  · have h := ChunkTerrain.generateColumn_count flatLib 2 emptyChunk 0 0
    simp only [Int.cast_zero] at h
    rw [h, hb2, hh2]
    rfl

/-- C33 (amended): every generated column stacks `height` blocks (none when
`height <= 0`), where `height` is `max(1, trunc(n * 2 + 3))` for Water and Plains,
`max(1, trunc(n * 3 + 4))` for Lava and `min(max(2, trunc(n * 8 + 6)), maxHeight)` for
Mountains, with `n` the fractal-noise value (2 octaves, 3 for Mountains) and `trunc` the
truncation toward zero of `static_cast<int>`; only a Mountains column is clamped to
`maxHeight`. -/
theorem column_height_formula (lib : MathLib) (maxHeight : Int) (chunk : Chunk)
    (worldX worldZ : Int) :
    (ChunkTerrain.generateColumn lib maxHeight chunk worldX worldZ).blockPositions.length =
        chunk.blockPositions.length +
          (ChunkTerrain.columnHeight lib maxHeight (ChunkTerrain.getBiomeAt lib worldX worldZ)
            worldX worldZ).toNat ∧
      ChunkTerrain.columnHeight lib maxHeight BiomeType.WATER worldX worldZ =
        max 1 (staticCastInt (ChunkTerrain.fbmNoise lib worldX worldZ 2 * 2 + 3)) ∧
      ChunkTerrain.columnHeight lib maxHeight BiomeType.PLAINS worldX worldZ =
        max 1 (staticCastInt (ChunkTerrain.fbmNoise lib worldX worldZ 2 * 2 + 3)) ∧
      ChunkTerrain.columnHeight lib maxHeight BiomeType.LAVA worldX worldZ =
        max 1 (staticCastInt (ChunkTerrain.fbmNoise lib worldX worldZ 2 * 3 + 4)) ∧
      ChunkTerrain.columnHeight lib maxHeight BiomeType.MOUNTAINS worldX worldZ =
        min (max 2 (staticCastInt (ChunkTerrain.fbmNoise lib worldX worldZ 3 * 8 + 6)))
          maxHeight ∧
      ChunkTerrain.columnHeight lib maxHeight BiomeType.MOUNTAINS worldX worldZ ≤ maxHeight ∧
      (∀ q : ℚ, (0 ≤ q → staticCastInt q = ⌊q⌋) ∧ (q < 0 → staticCastInt q = ⌈q⌉)) := by
  refine ⟨ChunkTerrain.generateColumn_count lib maxHeight chunk worldX worldZ, rfl, rfl, rfl,
    rfl, min_le_right _ _, ?_⟩
  intro q
  constructor
  · intro h
    unfold staticCastInt
    rw [if_pos h]
  · intro h
    unfold staticCastInt
    rw [if_neg (not_le.mpr h)]

/-! ## Chunk ownership of generated blocks -/

theorem foldl_mem_positions {α : Type} (g : Chunk → α → Chunk) (Q : α → Vec3 → Prop)
    (hg : ∀ (ch : Chunk) (a : α) (pos : Vec3),
      pos ∈ (g ch a).blockPositions ↔ pos ∈ ch.blockPositions ∨ Q a pos)
    (as : List α) (ch : Chunk) (pos : Vec3) :
    pos ∈ (as.foldl g ch).blockPositions ↔
      pos ∈ ch.blockPositions ∨ ∃ a ∈ as, Q a pos := by
  induction as generalizing ch with
  | nil => simp
  | cons a as ih =>
    rw [List.foldl_cons, ih, hg]
    constructor
    · rintro ((h | h) | ⟨b, hb, hq⟩)
      · exact Or.inl h
      · exact Or.inr ⟨a, List.mem_cons_self _ _, h⟩
      · exact Or.inr ⟨b, List.mem_cons_of_mem _ hb, hq⟩
    · rintro (h | ⟨b, hb, hq⟩)
      · exact Or.inl (Or.inl h)
      · rcases List.mem_cons.mp hb with rfl | hb2
        · exact Or.inl (Or.inr hq)
        · exact Or.inr ⟨b, hb2, hq⟩

theorem ChunkTerrain.mem_generateColumn (lib : MathLib) (maxHeight : Int) (chunk : Chunk)
    (worldX worldZ : Int) (pos : Vec3) :
    pos ∈ (ChunkTerrain.generateColumn lib maxHeight chunk worldX worldZ).blockPositions ↔
      pos ∈ chunk.blockPositions ∨
        ∃ y : Int, 0 ≤ y ∧
          y < ChunkTerrain.columnHeight lib maxHeight
            (ChunkTerrain.getBiomeAt lib worldX worldZ) worldX worldZ ∧
          pos = { x := (worldX : ℚ) * 2, y := (y : ℚ) * 2, z := (worldZ : ℚ) * 2 } := by
  unfold ChunkTerrain.generateColumn
  have h := foldl_mem_positions
    (fun (ch : Chunk) (y : Int) =>
      { ch with
        blockPositions := ch.blockPositions ++
          [{ x := (worldX : ℚ) * 2, y := (y : ℚ) * 2, z := (worldZ : ℚ) * 2 }],
        blockColors := ch.blockColors ++
          [ChunkTerrain.blockColor (ChunkTerrain.getBiomeAt lib worldX worldZ)
            (ChunkTerrain.columnHeight lib maxHeight (ChunkTerrain.getBiomeAt lib worldX worldZ)
              worldX worldZ) y] })
    (fun y pos => pos = { x := (worldX : ℚ) * 2, y := (y : ℚ) * 2, z := (worldZ : ℚ) * 2 })
    (by intro ch a p; simp)
    (List.range (ChunkTerrain.columnHeight lib maxHeight
      (ChunkTerrain.getBiomeAt lib worldX worldZ) worldX worldZ).toNat)
    { chunk with biome := ChunkTerrain.getBiomeAt lib worldX worldZ } pos
  rw [h]
  apply or_congr Iff.rfl
  constructor
  · rintro ⟨y, hy, hp⟩
    obtain ⟨a, ha, rfl⟩ := (mem_natList_cast _ y).mp hy
    rw [List.mem_range] at ha
    exact ⟨a, by omega, by omega, hp⟩
  · rintro ⟨y, h0, hlt, hp⟩
    refine ⟨y, (mem_natList_cast _ y).mpr ⟨y.toNat, ?_, ?_⟩, hp⟩
    · rw [List.mem_range]
      omega
    · omega

theorem ChunkTerrain.mem_buildChunk (lib : MathLib) (chunkSize maxHeight : Int)
    (coord : ChunkCoord) (pos : Vec3) :
    pos ∈ (ChunkTerrain.buildChunk lib chunkSize maxHeight coord).blockPositions ↔
      ∃ wx wz y : Int,
        (coord.x * chunkSize ≤ wx ∧ wx < coord.x * chunkSize + chunkSize) ∧
        (coord.z * chunkSize ≤ wz ∧ wz < coord.z * chunkSize + chunkSize) ∧
        (0 ≤ y ∧ y < ChunkTerrain.columnHeight lib maxHeight
          (ChunkTerrain.getBiomeAt lib wx wz) wx wz) ∧
        pos = { x := (wx : ℚ) * 2, y := (y : ℚ) * 2, z := (wz : ℚ) * 2 } := by
  unfold ChunkTerrain.buildChunk
  dsimp only
  have hinner : ∀ (x : Int) (ch : Chunk) (p : Vec3),
      p ∈ ((intRange 0 (chunkSize - 1)).foldl
          (fun ch z => ChunkTerrain.generateColumn lib maxHeight ch (coord.x * chunkSize + x)
            (coord.z * chunkSize + z)) ch).blockPositions ↔
        p ∈ ch.blockPositions ∨ ∃ z ∈ intRange 0 (chunkSize - 1),
          ∃ y : Int, 0 ≤ y ∧
            y < ChunkTerrain.columnHeight lib maxHeight
              (ChunkTerrain.getBiomeAt lib ((coord.x * chunkSize + x : Int) : ℚ)
                ((coord.z * chunkSize + z : Int) : ℚ))
              (coord.x * chunkSize + x) (coord.z * chunkSize + z) ∧
            p = { x := ((coord.x * chunkSize + x : Int) : ℚ) * 2, y := (y : ℚ) * 2,
                  z := ((coord.z * chunkSize + z : Int) : ℚ) * 2 } := by
    intro x ch p
    exact foldl_mem_positions
      (fun ch z => ChunkTerrain.generateColumn lib maxHeight ch (coord.x * chunkSize + x)
        (coord.z * chunkSize + z))
      (fun z p => ∃ y : Int, 0 ≤ y ∧
        y < ChunkTerrain.columnHeight lib maxHeight
          (ChunkTerrain.getBiomeAt lib ((coord.x * chunkSize + x : Int) : ℚ)
            ((coord.z * chunkSize + z : Int) : ℚ))
          (coord.x * chunkSize + x) (coord.z * chunkSize + z) ∧
        p = { x := ((coord.x * chunkSize + x : Int) : ℚ) * 2, y := (y : ℚ) * 2,
              z := ((coord.z * chunkSize + z : Int) : ℚ) * 2 })
      (fun ch z p => ChunkTerrain.mem_generateColumn lib maxHeight ch _ _ p)
      (intRange 0 (chunkSize - 1)) ch p
  have houter := foldl_mem_positions
    (fun ch x => (intRange 0 (chunkSize - 1)).foldl
      (fun ch z => ChunkTerrain.generateColumn lib maxHeight ch (coord.x * chunkSize + x)
        (coord.z * chunkSize + z)) ch)
    (fun x p => ∃ z ∈ intRange 0 (chunkSize - 1),
      ∃ y : Int, 0 ≤ y ∧
        y < ChunkTerrain.columnHeight lib maxHeight
          (ChunkTerrain.getBiomeAt lib ((coord.x * chunkSize + x : Int) : ℚ)
            ((coord.z * chunkSize + z : Int) : ℚ))
          (coord.x * chunkSize + x) (coord.z * chunkSize + z) ∧
        p = { x := ((coord.x * chunkSize + x : Int) : ℚ) * 2, y := (y : ℚ) * 2,
              z := ((coord.z * chunkSize + z : Int) : ℚ) * 2 })
    (fun ch x p => hinner x ch p)
    (intRange 0 (chunkSize - 1))
    { coord := coord, blockPositions := [], blockColors := [], biome := BiomeType.PLAINS,
      isGenerated := true } pos
  rw [houter]
  simp only [List.not_mem_nil, false_or, mem_intRange]
  constructor
  · rintro ⟨x, ⟨hx0, hx1⟩, z, ⟨hz0, hz1⟩, y, hy0, hy1, hp⟩
    exact ⟨coord.x * chunkSize + x, coord.z * chunkSize + z, y, ⟨by omega, by omega⟩,
      ⟨by omega, by omega⟩, ⟨hy0, hy1⟩, hp⟩
  · rintro ⟨wx, wz, y, ⟨hx0, hx1⟩, ⟨hz0, hz1⟩, ⟨hy0, hy1⟩, hp⟩
    refine ⟨wx - coord.x * chunkSize, ⟨by omega, by omega⟩, wz - coord.z * chunkSize,
      ⟨by omega, by omega⟩, y, hy0, ?_, ?_⟩
    · have e1 : coord.x * chunkSize + (wx - coord.x * chunkSize) = wx := by ring
      have e2 : coord.z * chunkSize + (wz - coord.z * chunkSize) = wz := by ring
      rw [e1, e2]
      exact hy1
    · have e1 : coord.x * chunkSize + (wx - coord.x * chunkSize) = wx := by ring
      have e2 : coord.z * chunkSize + (wz - coord.z * chunkSize) = wz := by ring
      rw [e1, e2]
      exact hp

theorem ChunkTerrain.columnHeight_pos (lib : MathLib) (maxHeight : Int) (biome : BiomeType)
    (worldX worldZ : Int) (hmh : 1 ≤ maxHeight) :
    1 ≤ ChunkTerrain.columnHeight lib maxHeight biome worldX worldZ := by
  cases biome with
  | PLAINS => exact le_max_left _ _
  | WATER => exact le_max_left _ _
  | LAVA => exact le_max_left _ _
  | MOUNTAINS => exact le_min (le_trans (by decide) (le_max_left _ _)) hmh

theorem ChunkTerrain.getBiomeAt_forty (lib : MathLib) (hc : lib.cos 0 = 1)
    (h1 : 3 / 10 < lib.sin (2 / 5)) (h2 : lib.sin (2 / 5) ≤ 1 / 2) :
    ChunkTerrain.getBiomeAt lib 40 0 = BiomeType.MOUNTAINS := by
  have e1 : (40 : ℚ) * (1 / 100) = 2 / 5 := by norm_num
  have e2 : (0 : ℚ) * (1 / 100) = 0 := by norm_num
  unfold ChunkTerrain.getBiomeAt
  simp only [e1, e2, hc, mul_one]
  rw [if_neg (by linarith), if_neg (by intro h; linarith [h.1]), if_pos (by linarith)]

theorem ChunkTerrain.mountain_chunk_empty (lib : MathLib)
    (hb : ChunkTerrain.getBiomeAt lib 40 0 = BiomeType.MOUNTAINS) :
    ChunkTerrain.columnHeight lib 0 BiomeType.MOUNTAINS 40 0 = 0 ∧
      (ChunkTerrain.buildChunk lib 1 0 { x := 40, z := 0 }).blockPositions = [] := by
  have hh : ∀ wx wz : Int, ChunkTerrain.columnHeight lib 0 BiomeType.MOUNTAINS wx wz = 0 := by
    intro wx wz
    unfold ChunkTerrain.columnHeight
    dsimp only
    exact min_eq_right (le_trans (by decide) (le_max_left _ _))
  refine ⟨hh 40 0, ?_⟩
  rw [List.eq_nil_iff_forall_not_mem]
  intro pos hpos
  obtain ⟨wx, wz, y, ⟨hx0, hx1⟩, ⟨hz0, hz1⟩, ⟨hy0, hy1⟩, _⟩ :=
    (ChunkTerrain.mem_buildChunk lib 1 0 { x := 40, z := 0 } pos).mp hpos
  simp only at hx0 hx1 hz0 hz1
  have hwx : wx = 40 := by omega
  have hwz : wz = 0 := by omega
  subst hwx hwz
  have hb2 : ChunkTerrain.getBiomeAt lib ((40 : Int) : ℚ) ((0 : Int) : ℚ) =
      BiomeType.MOUNTAINS := by
    simpa using hb
  rw [hb2, hh] at hy1
  omega

theorem taylorLib_forty :
    taylorLib.cos 0 = 1 ∧ 3 / 10 < taylorLib.sin (2 / 5) ∧ taylorLib.sin (2 / 5) ≤ 1 / 2 := by
  simp only [taylorLib]
  norm_num

theorem ChunkTerrain.run_single (lib : MathLib) (cs mh : Int) (p : Vec3) :
    (ChunkTerrain.run lib cs mh 0 [p]).chunks_ =
      [((ChunkTerrain.new cs mh 0).worldToChunk p.x p.z,
        ChunkTerrain.buildChunk lib cs mh ((ChunkTerrain.new cs mh 0).worldToChunk p.x p.z))] := by
  simp [ChunkTerrain.run, ChunkTerrain.update, ChunkTerrain.coordsAround, intRange,
    ChunkTerrain.generateIfAbsent, ChunkMap.find, ChunkTerrain.generateChunk, ChunkMap.assign,
    ChunkTerrain.unloadDistantChunks, chunkDist, ChunkTerrain.new, ChunkTerrain.worldToChunk,
    List.range_succ]

theorem ChunkTerrain.estimateHeight_ge (b : BiomeType) : 6 ≤ ChunkTerrain.estimateHeight b := by
  cases b <;> simp [ChunkTerrain.estimateHeight] <;> norm_num

theorem ChunkTerrain.getHeightAt_of_empty (lib : MathLib) (t : ChunkTerrain) (x z : ℚ)
    (chunk : Chunk) (h : t.chunks_.find (t.worldToChunk x z) = some chunk)
    (hempty : chunk.blockPositions = []) : t.getHeightAt lib x z = 0 := by
  simp only [ChunkTerrain.getHeightAt, h, hempty, List.foldl_nil]

/-- C22 (counterexample): after `ChunkTerrain(1, 0, 0).update((80, 0, 0))` the owning chunk
`(40, 0)` of the world position `(80, 0)` is loaded; its only column `(40, 0)` lies in
biome Mountains (`sin(0.4) * cos(0) ≈ 0.389`) and has height `min(max(2, ..), 0) = 0`, so
the chunk has no block at all and none matches the query column; `getHeightAt(80, 0)`
returns 0, whereas every biome estimate is at least 6.  This holds for every math library
whose `sin(0.4)` lies in `(0.3, 0.5]` and whose `cos(0)` is 1, among them the Taylor
stand-in. -/
theorem getHeightAt_no_match_returns_zero :
    (taylorLib.cos 0 = 1 ∧ 3 / 10 < taylorLib.sin (2 / 5) ∧
        taylorLib.sin (2 / 5) ≤ 1 / 2) ∧
      ∀ lib : MathLib, lib.cos 0 = 1 → 3 / 10 < lib.sin (2 / 5) → lib.sin (2 / 5) ≤ 1 / 2 →
        (ChunkTerrain.run lib 1 0 0 [{ x := 80, y := 0, z := 0 }]).chunks_.find
            ((ChunkTerrain.run lib 1 0 0 [{ x := 80, y := 0, z := 0 }]).worldToChunk 80 0) =
          some (ChunkTerrain.buildChunk lib 1 0 { x := 40, z := 0 }) ∧
        (ChunkTerrain.buildChunk lib 1 0 { x := 40, z := 0 }).blockPositions = [] ∧
        ChunkTerrain.getHeightAt lib
          (ChunkTerrain.run lib 1 0 0 [{ x := 80, y := 0, z := 0 }]) 80 0 = 0 ∧
        6 ≤ ChunkTerrain.estimateHeight (ChunkTerrain.getBiomeAt lib 80 0) := by
  refine ⟨taylorLib_forty, ?_⟩
  intro lib hc h1 h2
  have hb := ChunkTerrain.getBiomeAt_forty lib hc h1 h2
  obtain ⟨_, hempty⟩ := ChunkTerrain.mountain_chunk_empty lib hb
  have h40 := staticCastInt_intCast 40
  have h0 := staticCastInt_intCast 0
  simp only [Int.cast_ofNat, Int.cast_zero] at h40 h0
  have hw : (ChunkTerrain.new 1 0 0).worldToChunk 80 0 = { x := 40, z := 0 } := by
    simp only [ChunkTerrain.worldToChunk, ChunkTerrain.new]
    norm_num [h40, h0]
  have hfind : (ChunkTerrain.run lib 1 0 0 [{ x := 80, y := 0, z := 0 }]).chunks_.find
      ((ChunkTerrain.run lib 1 0 0 [{ x := 80, y := 0, z := 0 }]).worldToChunk 80 0) =
      some (ChunkTerrain.buildChunk lib 1 0 { x := 40, z := 0 }) := by
    have hcs : (ChunkTerrain.run lib 1 0 0 [{ x := 80, y := 0, z := 0 }]).worldToChunk 80 0 =
        (ChunkTerrain.new 1 0 0).worldToChunk 80 0 := by
      simp [ChunkTerrain.run, ChunkTerrain.update, ChunkTerrain.unloadDistantChunks,
        ChunkTerrain.worldToChunk, ChunkTerrain.generateAll_fields, ChunkTerrain.new]
    rw [hcs, ChunkTerrain.run_single, hw]
    simp [ChunkMap.find]
  exact ⟨hfind, hempty, ChunkTerrain.getHeightAt_of_empty lib _ 80 0 _ hfind hempty,
    ChunkTerrain.estimateHeight_ge _⟩

/-! ## Combat record: non-negative amounts -/

theorem CombatComponent.run_keeps_range (calls : List HealthCall) (c : CombatComponent)
    (hc : c.healthInRange) (hcalls : ∀ k ∈ calls, 0 ≤ k.amount) :
    (c.run calls).healthInRange := by
  induction calls generalizing c with
  | nil => exact hc
  | cons k rest ih =>
    exact ih (c.call k)
      (c.call_healthInRange k hc (hcalls k (List.mem_cons_self _ _)))
      (fun j hj => hcalls j (List.mem_cons_of_mem _ hj))

/-- C37: for every CombatComponent constructed with `maxHealth >= 0` and every finite
sequence of `takeDamage(a)` and `heal(a)` calls with all amounts `>= 0`, health is within
`[0, maxHealth]` after the sequence and after each of its prefixes; a further
`takeDamage(a)` with `a >= 0` does not increase health, a further `heal(a)` does not
decrease it, both keep the bound, and `takeDamage(a)` with `a >= health` makes `isDead()`
true. -/
theorem nonneg_health_calls_are_monotone (maxHealth : ℚ) (calls : List HealthCall) (a : ℚ)
    (hmax : 0 ≤ maxHealth) (hcalls : ∀ k ∈ calls, 0 ≤ k.amount) (ha : 0 ≤ a) :
    ((CombatComponent.new maxHealth).run calls).healthInRange ∧
      (∀ n : Nat, ((CombatComponent.new maxHealth).run (calls.take n)).healthInRange) ∧
      (((CombatComponent.new maxHealth).run calls).takeDamage a).health_ ≤
        ((CombatComponent.new maxHealth).run calls).health_ ∧
      ((CombatComponent.new maxHealth).run calls).health_ ≤
        (((CombatComponent.new maxHealth).run calls).heal a).health_ ∧
      (a ≥ ((CombatComponent.new maxHealth).run calls).health_ →
        (((CombatComponent.new maxHealth).run calls).takeDamage a).isDead = true) ∧
      (((CombatComponent.new maxHealth).run calls).takeDamage a).healthInRange ∧
      (((CombatComponent.new maxHealth).run calls).heal a).healthInRange := by
  have hnew : (CombatComponent.new maxHealth).healthInRange := ⟨hmax, le_refl _⟩
  have hrun := CombatComponent.run_keeps_range calls _ hnew hcalls
  have hpre : ∀ n : Nat,
      ((CombatComponent.new maxHealth).run (calls.take n)).healthInRange := by
    intro n
    exact CombatComponent.run_keeps_range _ _ hnew
      (fun k hk => hcalls k (List.mem_of_mem_take hk))
  generalize (CombatComponent.new maxHealth).run calls = c at hrun
  obtain ⟨h0, h1⟩ := hrun
  refine ⟨⟨h0, h1⟩, hpre, ?_, ?_, ?_, ?_, ?_⟩
  · show max 0 (c.health_ - a) ≤ c.health_
    exact max_le h0 (by linarith)
  · show c.health_ ≤ min c.maxHealth_ (c.health_ + a)
    exact le_min h1 (by linarith)
  · intro hge
    have : max 0 (c.health_ - a) ≤ 0 := max_le (le_refl 0) (by linarith)
    simpa [CombatComponent.isDead, CombatComponent.takeDamage] using this
  · exact c.call_healthInRange (HealthCall.takeDamage a) ⟨h0, h1⟩ ha
  · exact c.call_healthInRange (HealthCall.heal a) ⟨h0, h1⟩ ha

theorem nonneg_health_calls_are_monotone_witness :
    (0 : ℚ) ≤ 100 ∧
      ((CombatComponent.new 100).run
        [HealthCall.takeDamage 30, HealthCall.heal 50]).healthInRange ∧
      (((CombatComponent.new 100).run
        [HealthCall.takeDamage 30, HealthCall.heal 50]).takeDamage 120).health_ ≤
        ((CombatComponent.new 100).run
          [HealthCall.takeDamage 30, HealthCall.heal 50]).health_ :=
  have hmax : (0 : ℚ) ≤ 100 := by norm_num
  have hcalls : ∀ k ∈ [HealthCall.takeDamage 30, HealthCall.heal 50], 0 ≤ k.amount := by
    intro k hk
    simp at hk
    rcases hk with rfl | rfl <;> simp [HealthCall.amount]
  have h := nonneg_health_calls_are_monotone 100
    [HealthCall.takeDamage 30, HealthCall.heal 50] 120 hmax hcalls (by norm_num)
  ⟨hmax, h.1, h.2.2.1⟩

/-! ## Dragon game manager: repeated completion of a training -/

theorem DragonGameManager.completeTraining_once (t : DragonGameManager) (sid : Int)
    (session : TrainingSession) (dragon : BattleDragon) (k : Nat) (h0 : 0 ≤ sid)
    (hs : t.trainingSessions_[sid.toNat]? = some session) (hc : session.isComplete = true)
    (hd : t.dragons_[session.dragonId.toNat]? = some (session.gainTimes k dragon)) :
    t.completeTraining sid =
      { t with
        dragons_ := t.dragons_.set session.dragonId.toNat (session.gainTimes (k + 1) dragon) } := by
  have hrange := idOutOfRange_false_of_getElem t.trainingSessions_ sid session h0 hs
  unfold DragonGameManager.completeTraining
  simp only [hrange, hs, hc, hd]
  unfold TrainingSession.gainTimes
  cases session.type with
  | STRENGTH => simp; ring_nf
  | DEFENSE => simp; ring_nf
  | SPEED => simp; ring_nf
  | SPECIAL => simp; ring_nf

theorem DragonGameManager.completeTrainingTimes_spec (t : DragonGameManager) (sid : Int)
    (session : TrainingSession) (dragon : BattleDragon) (h0 : 0 ≤ sid)
    (hs : t.trainingSessions_[sid.toNat]? = some session) (hc : session.isComplete = true)
    (hd : t.dragons_[session.dragonId.toNat]? = some dragon) (k : Nat) :
    (t.completeTrainingTimes sid k).trainingSessions_ = t.trainingSessions_ ∧
      (t.completeTrainingTimes sid k).dragons_[session.dragonId.toNat]? =
        some (session.gainTimes k dragon) ∧
      (∀ j : Nat, j ≠ session.dragonId.toNat →
        (t.completeTrainingTimes sid k).dragons_[j]? = t.dragons_[j]?) := by
  induction k with
  | zero =>
    refine ⟨rfl, ?_, fun _ _ => rfl⟩
    show t.dragons_[session.dragonId.toNat]? = _
    rw [hd]
    congr 1
    unfold TrainingSession.gainTimes
    cases session.type <;> simp
  | succ k ih =>
    obtain ⟨ih1, ih2, ih3⟩ := ih
    have hlt := lt_length_of_getElem? _ _ _ ih2
    have hstep := DragonGameManager.completeTraining_once (t.completeTrainingTimes sid k) sid
      session dragon k h0 (by rw [ih1]; exact hs) hc ih2
    show ((t.completeTrainingTimes sid k).completeTraining sid).trainingSessions_ = _ ∧
      ((t.completeTrainingTimes sid k).completeTraining sid).dragons_[_]? = _ ∧
      ∀ j : Nat, j ≠ session.dragonId.toNat →
        ((t.completeTrainingTimes sid k).completeTraining sid).dragons_[j]? = t.dragons_[j]?
    rw [hstep]
    refine ⟨ih1, List.getElem?_set_self hlt, ?_⟩
    intro j hj
    show ((t.completeTrainingTimes sid k).dragons_.set _ _)[j]? = _
    rw [List.getElem?_set_ne (Ne.symm hj)]
    exact ih3 j hj

/-- C40: in every reachable manager state, for a completed training session, `k` calls of
`completeTraining` apply the stat gain `k` times: a Strength session raises the dragon's
attack by `k * statGain` (Defense and Speed likewise), a Special session raises max HP by
`2 * k * statGain` and refills current HP; the session list, hence the session's
`isComplete` flag and progress, stays unchanged and `isTrainingComplete` stays true; no
other dragon changes; and with `statGain != 0` each further call changes the state again
(the call is not idempotent). -/
theorem completeTraining_repeats_gain (t : DragonGameManager) (hr : t.Reachable) (sid : Int)
    (session : TrainingSession) (h0 : 0 ≤ sid)
    (hs : t.trainingSessions_[sid.toNat]? = some session) (hc : session.isComplete = true)
    (k : Nat) :
    ∃ dragon trained : BattleDragon,
      t.dragons_[session.dragonId.toNat]? = some dragon ∧
      (t.completeTrainingTimes sid k).dragons_[session.dragonId.toNat]? = some trained ∧
      (session.type = TrainingType.STRENGTH →
        trained = { dragon with attack := dragon.attack + k * session.statGain }) ∧
      (session.type = TrainingType.DEFENSE →
        trained = { dragon with defense := dragon.defense + k * session.statGain }) ∧
      (session.type = TrainingType.SPEED →
        trained = { dragon with speed := dragon.speed + k * session.statGain }) ∧
      (session.type = TrainingType.SPECIAL →
        trained.maxHP = dragon.maxHP + 2 * k * session.statGain ∧
          (1 ≤ k → trained.currentHP = trained.maxHP)) ∧
      (t.completeTrainingTimes sid k).trainingSessions_ = t.trainingSessions_ ∧
      (t.completeTrainingTimes sid k).trainingSessions_[sid.toNat]? = some session ∧
      (t.completeTrainingTimes sid k).isTrainingComplete sid = true ∧
      (∀ j : Nat, j ≠ session.dragonId.toNat →
        (t.completeTrainingTimes sid k).dragons_[j]? = t.dragons_[j]?) ∧
      (session.statGain ≠ 0 →
        t.completeTrainingTimes sid (k + 1) ≠ t.completeTrainingTimes sid k) := by
  have hinv := DragonGameManager.Inv.of_reachable t hr
  have hrange := idOutOfRange_false_of_getElem t.trainingSessions_ sid session h0 hs
  obtain ⟨_, _, hd0, hd1⟩ := hinv.sessions session (mem_of_getElem?_eq_some _ _ _ hs)
  have hlt : session.dragonId.toNat < t.dragons_.length := by omega
  have hd : t.dragons_[session.dragonId.toNat]? = some (t.dragons_[session.dragonId.toNat]) :=
    List.getElem?_eq_getElem hlt
  generalize t.dragons_[session.dragonId.toNat] = dragon at hd
  obtain ⟨hk1, hk2, hk3⟩ :=
    DragonGameManager.completeTrainingTimes_spec t sid session dragon h0 hs hc hd k
  obtain ⟨_, hn2, _⟩ :=
    DragonGameManager.completeTrainingTimes_spec t sid session dragon h0 hs hc hd (k + 1)
  refine ⟨dragon, session.gainTimes k dragon, hd, hk2, ?_, ?_, ?_, ?_, hk1, ?_, ?_, hk3, ?_⟩
  · intro hty; simp only [TrainingSession.gainTimes, hty]
  · intro hty; simp only [TrainingSession.gainTimes, hty]
  · intro hty; simp only [TrainingSession.gainTimes, hty]
  · intro hty
    simp only [TrainingSession.gainTimes, hty]
    refine ⟨trivial, ?_⟩
    intro hk
    have hk0 : k ≠ 0 := by omega
    simp [hk0]
  · rw [hk1]; exact hs
  · unfold DragonGameManager.isTrainingComplete
    rw [hk1]
    simp [hrange, hs, hc]
  · intro hg heq
    rw [heq, hk2] at hn2
    have hdr : session.gainTimes k dragon = session.gainTimes (k + 1) dragon :=
      Option.some.inj hn2
    have hcast : ((k + 1 : Nat) : Int) = (k : Int) + 1 := by push_cast; rfl
    unfold TrainingSession.gainTimes at hdr
    cases hty : session.type with
    | STRENGTH =>
      rw [hty] at hdr
      have h := congrArg BattleDragon.attack hdr
      simp only [hcast] at h
      have : session.statGain = 0 := by linarith
      exact hg this
    | DEFENSE =>
      rw [hty] at hdr
      have h := congrArg BattleDragon.defense hdr
      simp only [hcast] at h
      have : session.statGain = 0 := by linarith
      exact hg this
    | SPEED =>
      rw [hty] at hdr
      have h := congrArg BattleDragon.speed hdr
      simp only [hcast] at h
      have : session.statGain = 0 := by linarith
      exact hg this
    | SPECIAL =>
      rw [hty] at hdr
      have h := congrArg BattleDragon.maxHP hdr
      simp only [hcast] at h
      have : session.statGain = 0 := by linarith
      exact hg this

theorem completeTraining_repeats_gain_witness :
    (DragonGameManager.exec trainingOps).Reachable ∧
      (DragonGameManager.exec trainingOps).trainingSessions_[(0 : Int).toNat]? =
        some completedSession ∧
      completedSession.isComplete = true ∧
      ∃ dragon trained : BattleDragon,
        (DragonGameManager.exec trainingOps).dragons_[completedSession.dragonId.toNat]? =
          some dragon ∧
        ((DragonGameManager.exec trainingOps).completeTrainingTimes 0
          3).dragons_[completedSession.dragonId.toNat]? = some trained ∧
        trained = { dragon with attack := dragon.attack + (3 : Nat) * completedSession.statGain } :=
  have hr : (DragonGameManager.exec trainingOps).Reachable := ⟨trainingOps, rfl⟩
  match completeTraining_repeats_gain _ hr 0 completedSession (le_refl 0) trainingOps_session
    rfl 3 with
  | ⟨dragon, trained, hd, hget, hstrength, _⟩ =>
    ⟨hr, trainingOps_session, rfl, dragon, trained, hd, hget, hstrength rfl⟩

end Engine
